import Mathlib

/-!
Verification of the DevLoop iteration engine against its specification.

Embedding conventions:
* Text documents are represented as lists of lines (`List String`); the
  JavaScript source splits file content on the newline character, and the
  renderers emit newline-terminated lines, so a document is identified with
  its list of lines.  Fields that the renderer places on a single line are
  required (in the well-formedness predicates below) not to contain a
  newline character.
* JavaScript regular-expression matching (`String.prototype.match`) is
  modelled by a left-to-right scan (`scanFor`) that attempts the pattern at
  every character position of a line, taking the leftmost match, and by a
  first-matching-line scan (`firstSome`) across lines; the patterns used by
  the source never match across line boundaries on the inputs considered.
* JavaScript numbers holding token counts and iteration indices are
  modelled as `Nat`, the signed `remaining` counter as `Int`, and the
  dollar cost as `Rat` (the source only ever renders it with `toFixed(4)`
  and re-reads it with `parseFloat`).
* Runtime string values whose TypeScript type is a literal union
  (statuses, priorities, error kinds) are modelled as plain strings, since
  the source compares and stores them as strings (`as` casts are no-ops).
-/

set_option maxRecDepth 4000

namespace DevLoop

/-! ### Character and list utilities -/

/-- Boolean prefix test on character lists (models a literal regex fragment
matching at the current position). -/
def chPre : List Char → List Char → Bool
  | [], _ => true
  | _ :: _, [] => false
  | a :: as, b :: bs => if a = b then chPre as bs else false

/-- `containsSub n s` is true iff `n` occurs as a contiguous substring of `s`
(models JavaScript `String.prototype.includes`). -/
def containsSub (n : List Char) : List Char → Bool
  | [] => chPre n []
  | c :: cs => chPre n (c :: cs) || containsSub n cs

/-- Left-to-right regex-style scan: attempt the pattern `p` at every
position, return the leftmost result (models `String.prototype.match`
within one line). -/
def scanFor (p : List Char → Option α) : List Char → Option α
  | [] => p []
  | c :: cs =>
    match p (c :: cs) with
    | some a => some a
    | none => scanFor p cs

/-- Match a literal, then continue with `k` on the remainder. -/
def litThen (lit : List Char) (k : List Char → Option α) (s : List Char) : Option α :=
  if chPre lit s then k (s.drop lit.length) else none

/-- Expect a literal inside a monadic pattern. -/
def expectLit (lit : List Char) (s : List Char) : Option (List Char) :=
  if chPre lit s then some (s.drop lit.length) else none

/-- First line (element) on which `f` fires, with its result (models a
whole-document regex match taken at the first matching position). -/
def firstSome (f : α → Option β) : List α → Option β
  | [] => none
  | a :: l =>
    match f a with
    | some b => some b
    | none => firstSome f l

/-- Split a character list at a separator character (models
`String.prototype.split` with a single-character separator). -/
def splitCharAux (sep : Char) : List Char → List Char → List (List Char)
  | [], acc => [acc.reverse]
  | c :: cs, acc =>
    if c = sep then acc.reverse :: splitCharAux sep cs []
    else splitCharAux sep cs (c :: acc)

def splitStr (sep : Char) (s : String) : List String :=
  (splitCharAux sep s.data []).map String.mk

/-- Model of JavaScript `String.prototype.trim` (leading and trailing
whitespace removed). -/
def jsTrim (s : String) : String :=
  String.mk (((s.data.dropWhile Char.isWhitespace).reverse.dropWhile Char.isWhitespace).reverse)

/-- Model of JavaScript `String.prototype.toLowerCase` (ASCII). -/
def jsToLower (s : String) : String :=
  String.mk (s.data.map Char.toLower)

/-- Join lines with newline characters (inverse of splitting on newline). -/
def joinLines : List String → String
  | [] => ""
  | [s] => s
  | s :: rest => s ++ "\n" ++ joinLines rest

/-! ### Decimal rendering and parsing -/

/-- Big-endian decimal digit characters of `n` (fuel-based so that it
reduces definitionally). -/
def natDigitsAux : ℕ → ℕ → List Char
  | 0, _ => []
  | fuel + 1, n =>
    if n = 0 then [] else natDigitsAux fuel (n / 10) ++ [Char.ofNat (48 + n % 10)]

/-- Decimal rendering of a natural number (models JS template interpolation
of an integral number). -/
def natRepr (n : ℕ) : String :=
  if n = 0 then "0" else String.mk (natDigitsAux n n)

/-- Decimal rendering of an integer. -/
def intRepr (z : ℤ) : String :=
  if z < 0 then "-" ++ natRepr z.natAbs else natRepr z.toNat

/-- Value of a big-endian digit string (models `parseInt(s, 10)` on an
all-digit string). -/
def digitsVal (l : List Char) : ℕ :=
  l.foldl (fun a c => 10 * a + (c.toNat - 48)) 0

/-- Insert a thousands separator every three characters, counted from the
front of an already reversed digit list. -/
def groupRevAux : ℕ → List Char → List Char
  | 0, l => l
  | fuel + 1, l =>
    if l.length ≤ 3 then l else l.take 3 ++ ',' :: groupRevAux fuel (l.drop 3)

/-- Digit grouping as produced by `Number.prototype.toLocaleString` in the
default (`en-US`-style) locale. -/
def jsLocaleGroup (l : List Char) : List Char :=
  (groupRevAux l.length l.reverse).reverse

def natLocaleStr (n : ℕ) : String :=
  String.mk (jsLocaleGroup (natRepr n).data)

/-- Zero-padded four-digit rendering of `n < 10000`. -/
def pad4 (n : ℕ) : List Char :=
  let d := (natRepr n).data
  List.replicate (4 - d.length) '0' ++ d

/-- Model of `Number.prototype.toFixed(4)` on a nonnegative rational (the
well-formedness side conditions restrict attention to rationals that are
exact multiples of 1/10000, where rounding is the identity). -/
def fixed4 (q : ℚ) : String :=
  let n : ℕ := (round (q * 10000) : ℤ).toNat
  natRepr (n / 10000) ++ "." ++ String.mk (pad4 (n % 10000))

/-- Model of `parseFloat` on a capture consisting of digits and dots. -/
def parseFloatQ (l : List Char) : ℚ :=
  let ip := l.takeWhile Char.isDigit
  let rest := l.drop ip.length
  match rest with
  | '.' :: fr =>
    let fd := fr.takeWhile Char.isDigit
    (digitsVal ip : ℚ) + (digitsVal fd : ℚ) / ((10 : ℚ) ^ fd.length)
  | _ => (digitsVal ip : ℚ)

/-- JS `\s*`: drop leading whitespace. -/
def wsDrop (l : List Char) : List Char := l.dropWhile Char.isWhitespace

/-- JS `\w` character class (ASCII word character). -/
def isWordCh (c : Char) : Bool := c.isAlphanum || c = '_'

/-- JS `[\w-]` character class. -/
def isWordDashCh (c : Char) : Bool := c.isAlphanum || c = '_' || c = '-'

/-! ### Data model (src/types/index.ts)

`ExitStatus`, `TaskStatus`, `TaskPriority` and `ClaudeErrorType` are string
literal unions in the source and are erased at runtime; they are modelled
as plain strings (the loop stores the string `"interrupted"` even though
the declared union omits it). -/

structure TokenUsage where
  inputTokens : ℕ
  outputTokens : ℕ
  cacheCreationTokens : ℕ
  cacheReadTokens : ℕ
  totalTokens : ℕ
  costUsd : ℚ
deriving DecidableEq

structure IterationLog where
  iteration : ℕ
  timestamp : String
  taskCompleted : Option String
  summary : String
  duration : String
  exitStatus : String
  errorType : Option String := none
  errorDetail : Option String := none
  tokenUsage : Option TokenUsage := none
deriving DecidableEq

structure Progress where
  totalTasks : ℕ
  completed : ℕ
  remaining : ℤ
  lastUpdated : String
  iterations : List IterationLog
deriving DecidableEq

structure Task where
  id : String
  title : String
  status : String
  priority : String
  dependencies : List String
  description : String
deriving DecidableEq

structure Requirements where
  projectName : String
  created : String
  author : String
  tasks : List Task
deriving DecidableEq

structure ClaudeResult where
  success : Bool
  output : String
  error : Option String
  errorType : Option String
  duration : ℕ
  tokenUsage : Option TokenUsage
deriving DecidableEq

/-! ### Progress ledger parser (src/parser/progress.ts, lines 13–73)

Each regular expression of `parseProgressContent` becomes a line pattern;
the whole-content `match` (first match by position) becomes `firstSome` of
the line pattern over the lines of the document. -/

/-- `/\*\*Label\*\*:\s*(\d+)/` followed by `parseInt(·, 10)`. -/
def natLabelPat (label : String) (line : String) : Option ℕ :=
  scanFor (litThen label.data fun r =>
    let r2 := wsDrop r
    let d := r2.takeWhile Char.isDigit
    if d.isEmpty then none else some (digitsVal d)) line.data

/-- `/\*\*Last Updated\*\*:\s*(.+)/`-style pattern: whitespace, then a
nonempty rest-of-line capture. -/
def textLabelPat (label : String) (line : String) : Option String :=
  scanFor (litThen label.data fun r =>
    let r2 := wsDrop r
    if r2.isEmpty then none else some (String.mk r2)) line.data

/-- the dash-label capture regex `(.+)`: literal (including the final space), then a
nonempty rest-of-line capture. -/
def lineCapPat (label : String) (line : String) : Option String :=
  scanFor (litThen label.data fun r =>
    if r.isEmpty then none else some (String.mk r)) line.data

/-- the dash-label word regex `(\w+)`: literal, then a maximal nonempty word
capture. -/
def wordCapPat (label : String) (line : String) : Option String :=
  scanFor (litThen label.data fun r =>
    let w := r.takeWhile isWordCh
    if w.isEmpty then none else some (String.mk w)) line.data

/-- the Task Completed regex with capture `([\w-]+|none)` (the `none` alternative is
subsumed by `[\w-]+`). -/
def taskPat (line : String) : Option String :=
  scanFor (litThen "- **Task Completed**: ".data fun r =>
    let w := r.takeWhile isWordDashCh
    if w.isEmpty then none else some (String.mk w)) line.data

/-- `/### Iteration (\d+) - (.+)/`. -/
def headerPat (line : String) : Option (ℕ × String) :=
  scanFor (litThen "### Iteration ".data fun r =>
    let d := r.takeWhile Char.isDigit
    if d.isEmpty then none else
      let r2 := r.drop d.length
      if chPre " - ".data r2 then
        let rest := r2.drop 3
        if rest.isEmpty then none else some (digitsVal d, String.mk rest)
      else none) line.data

/-- `([\d,]+)` capture followed by `parseInt(capture.replace(/,/g, ''), 10)`. -/
def numCommaCap (s : List Char) : Option (ℕ × List Char) :=
  let d := s.takeWhile (fun c => c.isDigit || c = ',')
  if d.isEmpty then none
  else some (digitsVal (d.filter (fun c => ¬ c = ',')), s.drop d.length)

/-- Optional cache-token group `(?:, ([\d,]+) cache-create, ([\d,]+)
cache-read)?` of the `Tokens` regex. -/
def tokensCacheGroup (s : List Char) : Option (ℕ × ℕ) := do
  let s2 ← expectLit ", ".data s
  let (cc, s2) ← numCommaCap s2
  let s2 ← expectLit " cache-create, ".data s2
  let (cr, s2) ← numCommaCap s2
  let s2 ← expectLit " cache-read".data s2
  let _ ← expectLit ")".data s2
  pure (cc, cr)

/-- Body of the `Tokens` line pattern of `parseProgressContent` (line 32). -/
def tokensBody (s : List Char) : Option (ℕ × ℕ × ℕ × Option (ℕ × ℕ)) := do
  let s ← expectLit "- **Tokens**: ".data s
  let (tot, s) ← numCommaCap s
  let s ← expectLit " total (".data s
  let (inp, s) ← numCommaCap s
  let s ← expectLit " in, ".data s
  let (out, s) ← numCommaCap s
  let s ← expectLit " out".data s
  match tokensCacheGroup s with
  | some p => pure (tot, inp, out, some p)
  | none => do
    let _ ← expectLit ")".data s
    pure (tot, inp, out, none)

/-- The `Tokens` line pattern of `parseProgressContent` (line 32), with its
optional cache-token group. -/
def tokensPat (line : String) : Option (ℕ × ℕ × ℕ × Option (ℕ × ℕ)) :=
  scanFor tokensBody line.data

/-- the Cost regex with capture `([\d.]+)` followed by `parseFloat`. -/
def costPat (line : String) : Option ℚ :=
  scanFor (litThen "- **Cost**: $".data fun r =>
    let d := r.takeWhile (fun c => c.isDigit || c = '.')
    if d.isEmpty then none else some (parseFloatQ d)) line.data

/-- Does this line carry `- **Error Detail**:` followed only by whitespace
(the `\s*\n` of the multi-line regex)? -/
def detailHeadPat (line : String) : Bool :=
  (scanFor (litThen "- **Error Detail**:".data fun r =>
    if r.all Char.isWhitespace then some () else none) line.data).isSome

/-- The multi-line pattern
the Error Detail fence regex over the lines of a
block: a detail-header line, an opening fence line, a lazily captured body
up to the first line starting with a fence, then `.trim()`. -/
def detailScan : List String → Option String
  | [] => none
  | [_] => none
  | l :: fence :: body =>
    if detailHeadPat l then
      if fence = "```" then
        if (body.dropWhile (fun x => ¬ chPre "```".data x.data)).isEmpty then
          detailScan (fence :: body)
        else some (jsTrim (joinLines (body.takeWhile (fun x => ¬ chPre "```".data x.data))))
      else detailScan (fence :: body)
    else detailScan (fence :: body)

/-- Parse one iteration block (loop body of `parseProgressContent`,
lines 24–63): the five required matches guard the construction; error and
usage fields are attached only when their patterns matched. -/
def parseBlock (block : List String) : Option IterationLog :=
  let header := firstSome headerPat block
  let task := firstSome taskPat block
  let summary := firstSome (lineCapPat "- **Summary**: ") block
  let duration := firstSome (lineCapPat "- **Duration**: ") block
  let status := firstSome (wordCapPat "- **Exit Status**: ") block
  let etype := firstSome (wordCapPat "- **Error Type**: ") block
  let edetail := detailScan block
  let tokens := firstSome tokensPat block
  let cost := firstSome costPat block
  match header, task, summary, duration, status with
  | some (it, ts), some tk, some sm, some du, some st =>
    some { iteration := it
           timestamp := jsTrim ts
           taskCompleted := if tk = "none" then none else some tk
           summary := jsTrim sm
           duration := jsTrim du
           exitStatus := st
           errorType := etype
           errorDetail := edetail
           tokenUsage := tokens.map fun (tot, inp, out, rest) =>
             { totalTokens := tot
               inputTokens := inp
               outputTokens := out
               cacheCreationTokens := (rest.map Prod.fst).getD 0
               cacheReadTokens := (rest.map Prod.snd).getD 0
               costUsd := cost.getD 0 } }
  | _, _, _, _, _ => none

/-- Does the line contain `### Iteration` followed by a digit (the
zero-width split pattern `/(?=### Iteration \d)/`)? -/
def isBlockMarker (line : String) : Bool :=
  (scanFor (litThen "### Iteration ".data fun r =>
    match r with
    | c :: _ => if c.isDigit then some () else none
    | [] => none) line.data).isSome

/-- Does the block marker occur at the very start of the line? -/
def isBlockMarkerAt0 (line : String) : Bool :=
  (litThen "### Iteration ".data (fun r =>
    match r with
    | c :: _ => if c.isDigit then some () else none
    | [] => none) line.data).isSome

def splitBlocksF : ℕ → List String → List (List String)
  | 0, _ => []
  | _, [] => []
  | f + 1, l :: ls =>
    let body := ls.takeWhile (fun x => ¬ isBlockMarker x)
    let rest := ls.dropWhile (fun x => ¬ isBlockMarker x)
    (l :: body) :: splitBlocksF f rest

/-- `content.split(/(?=### Iteration \d)/).slice(1)`: segments starting at
each marker; a marker at position 0 of the content is not a split point in
JavaScript (zero-width match at the scan start), so in that case the first
segment is also dropped by `slice(1)`. -/
def splitBlocks (lines : List String) : List (List String) :=
  let rest := lines.dropWhile (fun x => ¬ isBlockMarker x)
  let blocks := splitBlocksF rest.length rest
  match lines.head? with
  | some l => if isBlockMarkerAt0 l then blocks.drop 1 else blocks
  | none => blocks

/-- `parseProgressContent` (lines 13–73).  `nowDefault` injects the
`new Date().toISOString()` fallback used when the `Last Updated` line is
missing. -/
def parseProgressLines (lines : List String) (nowDefault : String) : Progress :=
  { totalTasks := (firstSome (natLabelPat "**Total Tasks**:") lines).getD 0
    completed := (firstSome (natLabelPat "**Completed**:") lines).getD 0
    remaining := ((firstSome (natLabelPat "**Remaining**:") lines).getD 0 : ℕ)
    lastUpdated :=
      match firstSome (textLabelPat "**Last Updated**:") lines with
      | some s => if jsTrim s = "" then nowDefault else jsTrim s
      | none => nowDefault
    iterations := (splitBlocks lines).filterMap parseBlock }

/-! ### Progress ledger renderer (src/parser/progress.ts, lines 75–124) -/

/-- JS truthiness of an optional string (`undefined`, `null` and `""` are
falsy). -/
def jsTruthy : Option String → Bool
  | none => false
  | some s => ¬ s = ""

/-- The lines a single `IterationLog` contributes to the rendered ledger
(loop body of `generateProgressContent`, lines 94–121), including the
trailing blank line. -/
def recordLines (r : IterationLog) : List String :=
  ["### Iteration " ++ natRepr r.iteration ++ " - " ++ r.timestamp,
   "- **Task Completed**: " ++
     (match r.taskCompleted with
      | some t => if t = "" then "none" else t
      | none => "none"),
   "- **Summary**: " ++ r.summary,
   "- **Duration**: " ++ r.duration,
   "- **Exit Status**: " ++ r.exitStatus]
  ++ (match r.tokenUsage with
      | some u =>
        ["- **Tokens**: " ++ natLocaleStr u.totalTokens ++ " total (" ++
           natLocaleStr u.inputTokens ++ " in, " ++ natLocaleStr u.outputTokens ++ " out, " ++
           natLocaleStr u.cacheCreationTokens ++ " cache-create, " ++
           natLocaleStr u.cacheReadTokens ++ " cache-read)",
         "- **Cost**: $" ++ fixed4 u.costUsd]
      | none => [])
  ++ (match r.errorType with
      | some e => if e = "" then [] else ["- **Error Type**: " ++ e]
      | none => [])
  ++ (match r.errorDetail with
      | some d => if d = "" then [] else ["- **Error Detail**:", "```", d, "```"]
      | none => [])
  ++ [""]

/-- `generateProgressContent(totalTasks, completedCount, iterations)` as a
list of lines.  `now` injects `new Date().toISOString()`; note that the
renderer recomputes `Remaining` as `totalTasks - completedCount` (a signed
subtraction in JS) and does not take the ledger's `lastUpdated` or
`remaining` fields as inputs. -/
def generateProgressLines (now : String) (totalTasks completedCount : ℕ)
    (iterations : List IterationLog) : List String :=
  ["# DevLoop Progress Log", "", "## Summary",
   "- **Total Tasks**: " ++ natRepr totalTasks,
   "- **Completed**: " ++ natRepr completedCount,
   "- **Remaining**: " ++ intRepr ((totalTasks : ℤ) - (completedCount : ℤ)),
   "- **Last Updated**: " ++ now,
   "", "## Iteration Log", ""]
  ++ (iterations.map recordLines).flatten ++ [""]

/-! ### Ledger append and resume (src/parser/progress.ts lines 135–160,
src/core/loop.ts lines 190–191) -/

def emptyProgress (now : String) (totalTasks : ℕ) : Progress :=
  { totalTasks := totalTasks, completed := 0, remaining := (totalTasks : ℤ)
    lastUpdated := now, iterations := [] }

/-- Push a record and update counters (`appendIteration` lines 152–157);
the completed/remaining update fires on `exitStatus === 'success' &&
iteration.taskCompleted` (JS truthiness, so an empty-string task id does
not count). -/
def pushIteration (p : Progress) (iteration : IterationLog) : Progress :=
  let p2 := { p with iterations := p.iterations ++ [iteration] }
  if iteration.exitStatus = "success" ∧ jsTruthy iteration.taskCompleted then
    { p2 with completed := p2.completed + 1, remaining := p2.remaining - 1 }
  else p2

/-- `appendIteration(filePath, totalTasks, iteration)`: the file content is
`none` when no ledger file exists (`readProgress` returns `null`); the
result is the newly written file content. -/
def appendIterationLines (file : Option (List String)) (now : String)
    (totalTasks : ℕ) (iteration : IterationLog) : List String :=
  let progress :=
    match file with
    | some content => parseProgressLines content now
    | none => emptyProgress now totalTasks
  let progress := pushIteration progress iteration
  let progress := { progress with lastUpdated := now }
  generateProgressLines now progress.totalTasks progress.completed progress.iterations

/-- A sequence of `appendIteration` calls starting from a given file state;
each entry carries the wall-clock time, the `totalTasks` argument and the
record. -/
def appendSeq (file : Option (List String)) :
    List (String × ℕ × IterationLog) → Option (List String)
  | [] => file
  | (now, t, r) :: rest => appendSeq (some (appendIterationLines file now t r)) rest

/-- The resume point computed by `runLoop` (loop.ts lines 190–191):
`existingProgress ? existingProgress.iterations.length + 1 : 1`. -/
def startIteration (file : Option (List String)) (now : String) : ℕ :=
  match file with
  | some content => (parseProgressLines content now).iterations.length + 1
  | none => 1

/-- The count under the ledger invariant: iterations with
`exitStatus === 'success'` and a truthy `taskCompleted`. -/
def countSuccess (l : List IterationLog) : ℕ :=
  (l.filter (fun r => r.exitStatus = "success" ∧ jsTruthy r.taskCompleted)).length

/-! ### Basic lemmas about the scanning primitives -/

theorem chPre_iff (n s : List Char) : chPre n s = true ↔ n <+: s := by
  induction n generalizing s with
  | nil => simp [chPre]
  | cons a as ih =>
    cases s with
    | nil =>
      simp only [chPre, Bool.false_eq_true, false_iff]
      intro hpre
      exact List.noConfusion (List.prefix_nil.mp hpre)
    | cons b bs =>
      by_cases h : a = b
      · subst h
        simpa [chPre, List.cons_prefix_cons] using ih bs
      · simp [chPre, h, List.cons_prefix_cons]

theorem chPre_append_self (n t : List Char) : chPre n (n ++ t) = true :=
  (chPre_iff n (n ++ t)).mpr (List.prefix_append n t)

theorem chPre_getElem (n s : List Char) (h : chPre n s = true)
    {j : ℕ} {a : Char} (hj : n[j]? = some a) : s[j]? = some a := by
  rcases (chPre_iff n s).mp h with ⟨t, rfl⟩
  have hjl : j < n.length := by
    by_contra hge
    rw [List.getElem?_eq_none (by omega)] at hj
    exact Option.noConfusion hj
  rw [List.getElem?_append_left hjl]
  exact hj

theorem chPre_eq_false_of_mismatch (n s : List Char) {j : ℕ} {a b : Char}
    (hn : n[j]? = some a) (hs : s[j]? = some b) (hne : a ≠ b) :
    chPre n s = false := by
  by_contra h
  have := chPre_getElem n s (by simpa using Bool.of_not_eq_false h) hn
  rw [this] at hs
  exact hne (by injection hs)

theorem containsSub_iff (n s : List Char) :
    containsSub n s = true ↔ ∃ k, chPre n (s.drop k) = true := by
  induction s with
  | nil =>
    constructor
    · intro h; exact ⟨0, by simpa [containsSub] using h⟩
    · rintro ⟨k, hk⟩
      simpa [containsSub] using (by simpa using hk : chPre n [] = true)
  | cons c cs ih =>
    constructor
    · intro h
      rcases Bool.or_eq_true_iff.mp (by simpa [containsSub] using h) with h1 | h2
      · exact ⟨0, by simpa using h1⟩
      · rcases ih.mp h2 with ⟨k, hk⟩
        exact ⟨k + 1, by simpa using hk⟩
    · rintro ⟨k, hk⟩
      cases k with
      | zero => simp [containsSub]; left; simpa using hk
      | succ k =>
        simp [containsSub]
        right
        exact ih.mpr ⟨k, by simpa using hk⟩

theorem containsSub_eq_false_iff (n s : List Char) :
    containsSub n s = false ↔ ∀ k, chPre n (s.drop k) = false := by
  rw [← Bool.not_eq_true, containsSub_iff]
  push_neg
  exact ⟨fun h k => by simpa using h k, fun h k => by simpa using h k⟩

/-- Substring occurrences transport membership: if `n` occurs in `s`, then
every character of `n` is a character of `s`. -/
theorem containsSub_eq_false_of_not_mem (n s : List Char) (a : Char)
    (ha : a ∈ n) (hs : a ∉ s) : containsSub n s = false := by
  rw [containsSub_eq_false_iff]
  intro k
  by_contra h
  rcases (chPre_iff _ _).mp (Bool.of_not_eq_false h) with ⟨t, ht⟩
  apply hs
  have : a ∈ s.drop k := ht ▸ List.mem_append_left t ha
  exact List.mem_of_mem_drop this

/-- Does `u` carry two consecutive stars at position `i`? -/
def starPairB (u : List Char) (i : ℕ) : Bool :=
  decide (u[i]? = some '*') && decide (u[i + 1]? = some '*')

/-- Is there a position `j` with `k + j` still inside `u` where `n` and `u`
(shifted by `k`) disagree? -/
def neqSomewhereB (n u : List Char) (k : ℕ) : Bool :=
  (List.range n.length).any fun j =>
    decide (k + j < u.length) && decide (n[j]? ≠ u[k + j]?)

/-- Decidable side condition of the master no-occurrence lemma: every
double-star of `u` at a position `i ≥ p` is ruled out as the image of the
needle's double-star at offset `p` by an in-`u` character mismatch. -/
def starGuard (n u : List Char) (p : ℕ) : Bool :=
  (List.range u.length).all fun i =>
    !starPairB u i || decide (i < p) || neqSomewhereB n u (i - p)

/-- Master no-occurrence lemma.  If the needle `n` carries a double star at
offset `p`, the variable tail `v` is star-free, and the concrete head `c`
passes `starGuard`, then `n` does not occur in `c ++ v`.  (Any occurrence
must map the needle's double star onto a double star of the text; all stars
of the text live in `c`, and `starGuard` refutes every candidate.) -/
theorem containsSub_eq_false_star (n u v : List Char) (p : ℕ)
    (hp2 : n[p]? = some '*') (hp3 : n[p + 1]? = some '*')
    (hv : ∀ ch ∈ v, ch ≠ '*')
    (hc : starGuard n u p = true) :
    containsSub n (u ++ v) = false := by
  rw [containsSub_eq_false_iff]
  intro k
  by_contra hocc
  have hocc : chPre n ((u ++ v).drop k) = true := Bool.of_not_eq_false hocc
  have hstar : ∀ {j : ℕ}, n[j]? = some '*' → (u ++ v)[k + j]? = some '*' := by
    intro j hj
    have := chPre_getElem _ _ hocc hj
    rwa [List.getElem?_drop] at this
  have hsc : ∀ {i : ℕ}, (u ++ v)[i]? = some '*' → i < u.length ∧ (u[i]? = some '*') := by
    intro i hi
    by_cases hlt : i < u.length
    · refine ⟨hlt, ?_⟩
      rwa [List.getElem?_append_left hlt] at hi
    · exfalso
      rw [List.getElem?_append_right (by omega)] at hi
      exact hv _ (List.getElem?_mem hi) rfl
  have h2 := hsc (hstar hp2)
  have h3 := hsc (hstar hp3)
  have hguard := (List.all_eq_true.mp hc) (k + p) (List.mem_range.mpr h2.1)
  have hpair : starPairB u (k + p) = true := by
    unfold starPairB
    rw [h2.2]
    have h3' : u[k + p + 1]? = some '*' := by
      have := h3.2
      simpa [Nat.add_assoc] using this
    rw [h3']
    simp
  rw [hpair] at hguard
  simp only [Bool.not_true, Bool.false_or, Bool.or_eq_true, decide_eq_true_eq] at hguard
  rcases hguard with h | h
  · omega
  · have hk : k + p - p = k := by omega
    rw [hk] at h
    rcases List.any_eq_true.mp h with ⟨j, hjr, hj⟩
    simp only [Bool.and_eq_true, decide_eq_true_eq] at hj
    obtain ⟨hjc, hne⟩ := hj
    apply hne
    have hjn : j < n.length := List.mem_range.mp hjr
    have ha : n[j]? = some n[j] := List.getElem?_eq_getElem hjn
    have hgc := chPre_getElem _ _ hocc ha
    rw [List.getElem?_drop] at hgc
    rw [List.getElem?_append_left hjc] at hgc
    rw [ha, hgc]

theorem scanFor_eq_none {α : Type} (p : List Char → Option α) (n : List Char)
    (hp : ∀ s, (p s).isSome → chPre n s = true)
    (s : List Char) (h : containsSub n s = false) : scanFor p s = none := by
  induction s with
  | nil =>
    have hn : chPre n [] = false := by simpa [containsSub] using h
    unfold scanFor
    cases hps : p [] with
    | none => rfl
    | some a =>
      have hsome := hp [] (by rw [hps]; rfl)
      rw [hn] at hsome
      exact Bool.noConfusion hsome
  | cons c cs ih =>
    have h1 : chPre n (c :: cs) = false := by
      have := (containsSub_eq_false_iff n (c :: cs)).mp h 0
      simpa using this
    have h2 : containsSub n cs = false := by
      rw [containsSub_eq_false_iff]
      intro k
      have := (containsSub_eq_false_iff n (c :: cs)).mp h (k + 1)
      simpa using this
    unfold scanFor
    cases hps : p (c :: cs) with
    | none => exact ih h2
    | some a =>
      have := hp _ (by rw [hps]; rfl)
      rw [h1] at this
      exact Bool.noConfusion this

theorem scanFor_head {α : Type} (p : List Char → Option α) (s : List Char) {a : α}
    (h : p s = some a) : scanFor p s = some a := by
  cases s <;> simp [scanFor, h]

theorem scanFor_cons_of_none {α : Type} (p : List Char → Option α) (c : Char)
    (cs : List Char) (h : p (c :: cs) = none) : scanFor p (c :: cs) = scanFor p cs := by
  simp [scanFor, h]

theorem firstSome_cons_some {f : α → Option β} {a : α} {l : List α} {b : β}
    (h : f a = some b) : firstSome f (a :: l) = some b := by
  simp [firstSome, h]

theorem firstSome_cons_none {f : α → Option β} {a : α} {l : List α}
    (h : f a = none) : firstSome f (a :: l) = firstSome f l := by
  simp [firstSome, h]

theorem firstSome_append_none {f : α → Option β} {l1 l2 : List α}
    (h : ∀ a ∈ l1, f a = none) : firstSome f (l1 ++ l2) = firstSome f l2 := by
  induction l1 with
  | nil => rfl
  | cons a l ih =>
    rw [List.cons_append, firstSome_cons_none (h a (List.mem_cons_self a l))]
    exact ih fun x hx => h x (List.mem_cons_of_mem a hx)

theorem firstSome_eq_none {f : α → Option β} {l : List α}
    (h : ∀ a ∈ l, f a = none) : firstSome f l = none := by
  induction l with
  | nil => rfl
  | cons a l ih =>
    rw [firstSome_cons_none (h a (List.mem_cons_self a l))]
    exact ih fun x hx => h x (List.mem_cons_of_mem a hx)

theorem litThen_isSome {α : Type} {lit : List Char} {k : List Char → Option α}
    {s : List Char} (h : (litThen lit k s).isSome) : chPre lit s = true := by
  unfold litThen at h
  by_cases hc : chPre lit s
  · exact hc
  · rw [if_neg hc] at h
    exact absurd h (by simp)

/-! ### Lemmas about decimal rendering -/

theorem digitCh_isDigit {r : ℕ} (h : r < 10) : (Char.ofNat (48 + r)).isDigit = true := by
  interval_cases r <;> decide

theorem digitCh_toNat {r : ℕ} (h : r < 10) : (Char.ofNat (48 + r)).toNat = 48 + r := by
  interval_cases r <;> decide

theorem natDigitsAux_digits {fuel n : ℕ} : ∀ c ∈ natDigitsAux fuel n, c.isDigit = true := by
  induction fuel generalizing n with
  | zero => simp [natDigitsAux]
  | succ fuel ih =>
    intro c hc
    unfold natDigitsAux at hc
    by_cases hn : n = 0
    · simp [hn] at hc
    · rw [if_neg hn] at hc
      rcases List.mem_append.mp hc with h | h
      · exact ih _ h
      · rcases List.mem_singleton.mp h with rfl
        exact digitCh_isDigit (Nat.mod_lt _ (by norm_num))

theorem digitsVal_append_one (l : List Char) (c : Char) :
    digitsVal (l ++ [c]) = 10 * digitsVal l + (c.toNat - 48) := by
  simp [digitsVal, List.foldl_append]

theorem digitsVal_natDigitsAux {fuel n : ℕ} (h : n ≤ fuel) :
    digitsVal (natDigitsAux fuel n) = n := by
  induction fuel generalizing n with
  | zero =>
    have : n = 0 := Nat.le_zero.mp h
    simp [this, natDigitsAux, digitsVal]
  | succ fuel ih =>
    unfold natDigitsAux
    by_cases hn : n = 0
    · simp [hn, digitsVal]
    · rw [if_neg hn, digitsVal_append_one]
      have hlt : n / 10 ≤ fuel := by
        have h1 : n / 10 < n := Nat.div_lt_self (Nat.pos_of_ne_zero hn) (by norm_num)
        omega
      rw [ih hlt, digitCh_toNat (Nat.mod_lt _ (by norm_num))]
      omega

theorem natDigitsAux_ne_nil {fuel n : ℕ} (h1 : 0 < n) (h2 : n ≤ fuel) :
    natDigitsAux fuel n ≠ [] := by
  cases fuel with
  | zero => omega
  | succ fuel =>
    unfold natDigitsAux
    rw [if_neg (by omega)]
    simp

theorem natRepr_data_digits (n : ℕ) : ∀ c ∈ (natRepr n).data, c.isDigit = true := by
  unfold natRepr
  by_cases hn : n = 0
  · subst hn; intro c hc; simp at hc; subst hc; decide
  · rw [if_neg hn]
    exact natDigitsAux_digits

theorem natRepr_ne_nil (n : ℕ) : (natRepr n).data ≠ [] := by
  unfold natRepr
  by_cases hn : n = 0
  · subst hn; decide
  · rw [if_neg hn]
    exact natDigitsAux_ne_nil (Nat.pos_of_ne_zero hn) le_rfl

theorem digitsVal_natRepr (n : ℕ) : digitsVal (natRepr n).data = n := by
  unfold natRepr
  by_cases hn : n = 0
  · subst hn; decide
  · rw [if_neg hn]
    exact digitsVal_natDigitsAux le_rfl

theorem natDigitsAux_length {fuel n k : ℕ} (h : n ≤ fuel) (h2 : n < 10 ^ k) :
    (natDigitsAux fuel n).length ≤ k := by
  induction fuel generalizing n k with
  | zero =>
    have : n = 0 := Nat.le_zero.mp h
    simp [this, natDigitsAux]
  | succ fuel ih =>
    unfold natDigitsAux
    by_cases hn : n = 0
    · simp [hn]
    · rw [if_neg hn]
      have hk : 0 < k := by
        rcases Nat.eq_zero_or_pos k with rfl | hk
        · simp at h2; omega
        · exact hk
      have hdiv : n / 10 < 10 ^ (k - 1) := by
        have : 10 ^ k = 10 * 10 ^ (k - 1) := by
          conv_lhs => rw [show k = (k - 1) + 1 by omega]
          ring
        rw [this] at h2
        omega
      have hfe : n / 10 ≤ fuel := by
        have h1 : n / 10 < n := Nat.div_lt_self (Nat.pos_of_ne_zero hn) (by norm_num)
        omega
      have := ih hfe hdiv
      simp only [List.length_append, List.length_cons, List.length_nil]
      omega

theorem natRepr_length_le_four {n : ℕ} (h : n < 10000) : (natRepr n).data.length ≤ 4 := by
  unfold natRepr
  by_cases hn : n = 0
  · subst hn; decide
  · rw [if_neg hn]
    exact natDigitsAux_length le_rfl (by norm_num [h] : n < 10 ^ 4)

/-- A digit character is none of the special characters used by the ledger
format. -/
theorem digit_ne {x : Char} (hx : x.isDigit = false) {c : Char}
    (h : c.isDigit = true) : c ≠ x := by
  intro he
  rw [he, hx] at h
  exact Bool.noConfusion h

theorem digit_not_ws {c : Char} (h : c.isDigit = true) : c.isWhitespace = false := by
  unfold Char.isWhitespace
  have hne1 : ¬ c = ' ' := by intro he; rw [he] at h; exact absurd h (by decide)
  have hne2 : ¬ c = '\t' := by intro he; rw [he] at h; exact absurd h (by decide)
  have hne3 : ¬ c = '\r' := by intro he; rw [he] at h; exact absurd h (by decide)
  have hne4 : ¬ c = '\n' := by intro he; rw [he] at h; exact absurd h (by decide)
  simp [hne1, hne2, hne3, hne4]

/-! ### takeWhile and dropWhile helpers -/

theorem takeWhile_all {p : Char → Bool} {l : List Char} (h : ∀ a ∈ l, p a = true) :
    l.takeWhile p = l := by
  induction l with
  | nil => rfl
  | cons a l ih =>
    rw [List.takeWhile_cons, if_pos (h a (List.mem_cons_self a l))]
    rw [ih fun x hx => h x (List.mem_cons_of_mem a hx)]

theorem takeWhile_append_all {p : Char → Bool} {l1 l2 : List Char}
    (h1 : ∀ a ∈ l1, p a = true) (h2 : ∀ b, l2.head? = some b → p b = false) :
    (l1 ++ l2).takeWhile p = l1 := by
  induction l1 with
  | nil =>
    cases l2 with
    | nil => rfl
    | cons b l =>
      simp only [List.nil_append, List.takeWhile_cons, h2 b rfl]
      simp
  | cons a l ih =>
    rw [List.cons_append, List.takeWhile_cons, if_pos (h1 a (List.mem_cons_self a l))]
    rw [ih fun x hx => h1 x (List.mem_cons_of_mem a hx)]

theorem dropWhile_append_all {p : Char → Bool} {l1 l2 : List Char}
    (h1 : ∀ a ∈ l1, p a = true) (h2 : ∀ b, l2.head? = some b → p b = false) :
    (l1 ++ l2).dropWhile p = l2 := by
  induction l1 with
  | nil =>
    cases l2 with
    | nil => rfl
    | cons b l =>
      simp only [List.nil_append, List.dropWhile_cons, h2 b rfl]
      simp
  | cons a l ih =>
    rw [List.cons_append, List.dropWhile_cons]
    rw [if_pos (h1 a (List.mem_cons_self a l))]
    exact ih fun x hx => h1 x (List.mem_cons_of_mem a hx)

theorem dropWhile_of_head {p : Char → Bool} {l : List Char}
    (h : ∀ b, l.head? = some b → p b = false) : l.dropWhile p = l := by
  cases l with
  | nil => rfl
  | cons b t =>
    rw [List.dropWhile_cons, if_neg]
    simp [h b rfl]

/-! ### Lemmas about digit grouping -/

theorem groupRevAux_mem {fuel : ℕ} {l : List Char} :
    ∀ a ∈ groupRevAux fuel l, a ∈ l ∨ a = ',' := by
  induction fuel generalizing l with
  | zero => intro a ha; rw [groupRevAux] at ha; exact Or.inl ha
  | succ fuel ih =>
    intro a ha
    rw [groupRevAux] at ha
    by_cases hl : l.length ≤ 3
    · rw [if_pos hl] at ha; exact Or.inl ha
    · rw [if_neg hl] at ha
      rcases List.mem_append.mp ha with h | h
      · exact Or.inl (List.take_subset 3 _ h)
      · rcases List.mem_cons.mp h with rfl | h
        · exact Or.inr rfl
        · rcases ih _ h with h2 | h2
          · exact Or.inl (List.drop_subset 3 _ h2)
          · exact Or.inr h2

theorem groupRevAux_filter {fuel : ℕ} {l : List Char} (h : ∀ a ∈ l, ¬ a = ',') :
    (groupRevAux fuel l).filter (fun c => c ≠ ',') = l := by
  induction fuel generalizing l with
  | zero =>
    rw [groupRevAux]
    exact List.filter_eq_self.mpr (by intro a ha; simpa using h a ha)
  | succ fuel ih =>
    rw [groupRevAux]
    by_cases hl : l.length ≤ 3
    · rw [if_pos hl]
      exact List.filter_eq_self.mpr (by intro a ha; simpa using h a ha)
    · rw [if_neg hl, List.filter_append]
      have htake : (l.take 3).filter (fun c => c ≠ ',') = l.take 3 :=
        List.filter_eq_self.mpr (by
          intro a ha
          simpa using h a (List.take_subset 3 _ ha))
      rw [htake, List.filter_cons]
      simp only [if_neg (by simp : ¬ (decide ((',' : Char) ≠ ',') = true))]
      rw [ih (fun a ha => h a (List.drop_subset 3 _ ha))]
      exact List.take_append_drop 3 l

theorem jsLocaleGroup_filter {l : List Char} (h : ∀ a ∈ l, ¬ a = ',') :
    (jsLocaleGroup l).filter (fun c => c ≠ ',') = l := by
  unfold jsLocaleGroup
  rw [List.filter_reverse]
  rw [groupRevAux_filter (by intro a ha; exact h a (List.mem_reverse.mp ha))]
  exact List.reverse_reverse l

theorem jsLocaleGroup_mem {l : List Char} :
    ∀ a ∈ jsLocaleGroup l, a ∈ l ∨ a = ',' := by
  intro a ha
  unfold jsLocaleGroup at ha
  rcases groupRevAux_mem _ (List.mem_reverse.mp ha) with h | h
  · exact Or.inl (List.mem_reverse.mp h)
  · exact Or.inr h

theorem natLocaleStr_chars (m : ℕ) :
    ∀ a ∈ (natLocaleStr m).data, a.isDigit = true ∨ a = ',' := by
  intro a ha
  rcases jsLocaleGroup_mem a ha with h | h
  · exact Or.inl (natRepr_data_digits m a h)
  · exact Or.inr h

/-- The comma-stripping parse of a locale-grouped number recovers the
number: models `parseInt(capture.replace(/,/g, ''), 10)`. -/
theorem digitsVal_filter_natLocaleStr (m : ℕ) :
    digitsVal (((natLocaleStr m).data).filter (fun c => c ≠ ',')) = m := by
  have : (natLocaleStr m).data = jsLocaleGroup (natRepr m).data := rfl
  rw [this, jsLocaleGroup_filter (fun a ha => digit_ne (by decide) (natRepr_data_digits m a ha)),
    digitsVal_natRepr]

/-! ### String and whitespace helpers -/

theorem strMk_data (s : String) : String.mk s.data = s := rfl

theorem wsDrop_cons_space (l : List Char) : wsDrop (' ' :: l) = wsDrop l := by
  simp [wsDrop, List.dropWhile_cons]

theorem wsDrop_of_head_digit {l : List Char} (h : ∀ b, l.head? = some b → b.isDigit = true) :
    wsDrop l = l := by
  unfold wsDrop
  exact dropWhile_of_head fun b hb => digit_not_ws (h b hb)

theorem wsDrop_of_head_not_ws {l : List Char}
    (h : ∀ b, l.head? = some b → b.isWhitespace = false) : wsDrop l = l := by
  unfold wsDrop
  exact dropWhile_of_head h

/-! ### Round-trip of the fixed-point cost rendering -/

theorem digitsVal_replicate_zero (k : ℕ) (d : List Char) :
    digitsVal (List.replicate k '0' ++ d) = digitsVal d := by
  induction k with
  | zero => rfl
  | succ k ih =>
    simp only [List.replicate_succ, List.cons_append]
    unfold digitsVal at ih ⊢
    simpa using ih

theorem pad4_digits {n : ℕ} : ∀ c ∈ pad4 n, c.isDigit = true := by
  intro c hc
  unfold pad4 at hc
  rcases List.mem_append.mp hc with h | h
  · rcases List.eq_of_mem_replicate h with rfl
    decide
  · exact natRepr_data_digits n c h

theorem pad4_length {n : ℕ} (h : n < 10000) : (pad4 n).length = 4 := by
  unfold pad4
  have := natRepr_length_le_four h
  simp only [List.length_append, List.length_replicate]
  omega

theorem digitsVal_pad4 (n : ℕ) : digitsVal (pad4 n) = n := by
  unfold pad4
  rw [digitsVal_replicate_zero, digitsVal_natRepr]

theorem parseFloatQ_split (n : ℕ) :
    parseFloatQ ((natRepr (n / 10000)).data ++ '.' :: pad4 (n % 10000)) = (n : ℚ) / 10000 := by
  simp only [parseFloatQ]
  rw [takeWhile_append_all (natRepr_data_digits _)
    (fun b hb => by simp at hb; rw [← hb]; decide)]
  rw [List.drop_left]
  simp only []
  rw [takeWhile_all (fun a ha => pad4_digits a ha)]
  rw [digitsVal_natRepr, digitsVal_pad4, pad4_length (Nat.mod_lt _ (by norm_num))]
  have hnm : (n : ℚ) = ((n / 10000 : ℕ) : ℚ) * 10000 + ((n % 10000 : ℕ) : ℚ) := by
    rw [mul_comm]
    exact_mod_cast (Nat.div_add_mod n 10000).symm
  rw [hnm]
  norm_num
  ring

theorem parseFloatQ_fixed4 {q : ℚ} (h0 : 0 ≤ q) (hden : (q * 10000).den = 1) :
    parseFloatQ (fixed4 q).data = q := by
  have hqz : (q * 10000) = ((q * 10000).num : ℚ) := by
    conv_lhs => rw [← Rat.num_div_den (q * 10000)]
    rw [hden]
    simp
  have hz0 : 0 ≤ (q * 10000).num := Rat.num_nonneg.mpr (by positivity)
  have hround : round (q * 10000) = (q * 10000).num := by
    conv_lhs => rw [hqz]
    exact round_intCast _
  obtain ⟨n, hzn⟩ : ∃ n : ℕ, (q * 10000).num = (n : ℤ) :=
    ⟨(q * 10000).num.toNat, (Int.toNat_of_nonneg hz0).symm⟩
  have hq : q = (n : ℚ) / 10000 := by
    rw [eq_div_iff (by norm_num : (10000 : ℚ) ≠ 0)]
    rw [hqz, hzn]
    push_cast
    ring
  have hdata : (fixed4 q).data = (natRepr (n / 10000)).data ++ '.' :: pad4 (n % 10000) := by
    unfold fixed4
    rw [hround, hzn]
    simp [String.data_append]
  rw [hdata, parseFloatQ_split, hq]

/-! ### Well-formedness of rendered fields

A ledger round-trips only when the free-text fields do not collide with the
markup the renderer emits; these predicates capture the conditions used by
the round-trip theorems.  They exclude the newline (the field must stay on
one line), the star (all field labels are `**`-delimited), the hash (the
block split marker is `### Iteration`) and the backtick (the error-detail
fence). -/

def badFieldChars : List Char := "\n*#`".data

/-- Free-text field that renders and re-parses unchanged: nonempty,
trim-stable, and free of markup characters. -/
def safeText (s : String) : Prop :=
  s.data ≠ [] ∧ jsTrim s = s ∧ ∀ ch ∈ s.data, ch ∉ badFieldChars

/-- Field captured by `(\w+)`: nonempty, word characters only. -/
def wordText (s : String) : Prop :=
  s.data ≠ [] ∧ ∀ ch ∈ s.data, isWordCh ch = true

/-- Task identifier captured by `([\w-]+|none)`: nonempty, word or dash
characters, and not the reserved word `none`. -/
def taskIdText (s : String) : Prop :=
  s.data ≠ [] ∧ s ≠ "none" ∧ ∀ ch ∈ s.data, isWordDashCh ch = true

/-- Token usage whose cost survives `toFixed(4)` followed by `parseFloat`. -/
def WFUsage (u : TokenUsage) : Prop :=
  0 ≤ u.costUsd ∧ (u.costUsd * 10000).den = 1

def WFOpt (P : String → Prop) : Option String → Prop
  | none => True
  | some s => P s

def WFOptUsage : Option TokenUsage → Prop
  | none => True
  | some u => WFUsage u

/-- Well-formed iteration record: every field round-trips through the
rendered ledger text. -/
def WFLog (r : IterationLog) : Prop :=
  safeText r.timestamp ∧ safeText r.summary ∧ safeText r.duration ∧
  wordText r.exitStatus ∧ WFOpt taskIdText r.taskCompleted ∧
  WFOpt wordText r.errorType ∧ WFOpt safeText r.errorDetail ∧
  WFOptUsage r.tokenUsage

instance (s : String) : Decidable (safeText s) := by unfold safeText; infer_instance

instance (s : String) : Decidable (wordText s) := by unfold wordText; infer_instance

instance (s : String) : Decidable (taskIdText s) := by unfold taskIdText; infer_instance

instance (u : TokenUsage) : Decidable (WFUsage u) := by unfold WFUsage; infer_instance

instance (P : String → Prop) [DecidablePred P] (o : Option String) :
    Decidable (WFOpt P o) := by
  cases o with
  | none => exact isTrue trivial
  | some s => exact (inferInstance : Decidable (P s))

instance (o : Option TokenUsage) : Decidable (WFOptUsage o) := by
  cases o with
  | none => exact isTrue trivial
  | some u => exact (inferInstance : Decidable (WFUsage u))

instance (r : IterationLog) : Decidable (WFLog r) := by unfold WFLog; infer_instance

theorem safe_ne_star {s : String} (h : safeText s) : ∀ ch ∈ s.data, ch ≠ '*' := by
  intro ch hch he
  exact h.2.2 ch hch (by rw [he]; decide)

theorem safe_ne_hash {s : String} (h : safeText s) : ∀ ch ∈ s.data, ch ≠ '#' := by
  intro ch hch he
  exact h.2.2 ch hch (by rw [he]; decide)

theorem word_ne_star {s : String} (h : wordText s) : ∀ ch ∈ s.data, ch ≠ '*' := by
  intro ch hch he
  have := h.2 ch hch
  rw [he] at this
  exact absurd this (by decide)

theorem word_ne_hash {s : String} (h : wordText s) : ∀ ch ∈ s.data, ch ≠ '#' := by
  intro ch hch he
  have := h.2 ch hch
  rw [he] at this
  exact absurd this (by decide)

theorem taskId_ne_star {s : String} (h : taskIdText s) : ∀ ch ∈ s.data, ch ≠ '*' := by
  intro ch hch he
  have := h.2.2 ch hch
  rw [he] at this
  exact absurd this (by decide)

theorem taskId_ne_hash {s : String} (h : taskIdText s) : ∀ ch ∈ s.data, ch ≠ '#' := by
  intro ch hch he
  have := h.2.2 ch hch
  rw [he] at this
  exact absurd this (by decide)

theorem digit_ne_star {ch : Char} (h : ch.isDigit = true) : ch ≠ '*' :=
  digit_ne (by decide) h

/-! ### Generic negative lemmas: a literal-guarded pattern cannot fire on a
line that does not contain its literal -/

theorem scanLit_none {α : Type} (needle : List Char) (k : List Char → Option α)
    (s : List Char) (h : containsSub needle s = false) :
    scanFor (litThen needle k) s = none :=
  scanFor_eq_none _ needle (fun _ hs => litThen_isSome hs) _ h

theorem natLabelPat_none {label line : String}
    (h : containsSub label.data line.data = false) : natLabelPat label line = none :=
  scanLit_none _ _ _ h

theorem textLabelPat_none {label line : String}
    (h : containsSub label.data line.data = false) : textLabelPat label line = none :=
  scanLit_none _ _ _ h

theorem lineCapPat_none {label line : String}
    (h : containsSub label.data line.data = false) : lineCapPat label line = none :=
  scanLit_none _ _ _ h

theorem wordCapPat_none {label line : String}
    (h : containsSub label.data line.data = false) : wordCapPat label line = none :=
  scanLit_none _ _ _ h

theorem taskPat_none {line : String}
    (h : containsSub "- **Task Completed**: ".data line.data = false) :
    taskPat line = none :=
  scanLit_none _ _ _ h

theorem headerPat_none {line : String}
    (h : containsSub "### Iteration ".data line.data = false) :
    headerPat line = none :=
  scanLit_none _ _ _ h

theorem costPat_none {line : String}
    (h : containsSub "- **Cost**: $".data line.data = false) :
    costPat line = none :=
  scanLit_none _ _ _ h

theorem tokensPat_none {line : String}
    (h : containsSub "- **Tokens**: ".data line.data = false) :
    tokensPat line = none := by
  unfold tokensPat
  apply scanFor_eq_none _ "- **Tokens**: ".data _ _ h
  intro s hs
  by_cases hc : chPre "- **Tokens**: ".data s
  · exact hc
  · exfalso
    revert hs
    unfold tokensBody
    simp [expectLit, hc]

theorem detailHeadPat_false {line : String}
    (h : containsSub "- **Error Detail**:".data line.data = false) :
    detailHeadPat line = false := by
  unfold detailHeadPat
  rw [scanLit_none _ _ _ h]
  rfl

theorem isBlockMarker_false {line : String}
    (h : containsSub "### Iteration ".data line.data = false) :
    isBlockMarker line = false := by
  unfold isBlockMarker
  rw [scanFor_eq_none _ "### Iteration ".data (fun _ hs => litThen_isSome hs) _ h]
  rfl

/-! ### Positive lemmas: each pattern fires on its rendered line -/

theorem litThen_self {α : Type} (lit : List Char) (k : List Char → Option α) (t : List Char) :
    litThen lit k (lit ++ t) = k t := by
  unfold litThen
  rw [if_pos (chPre_append_self lit t), List.drop_left]

theorem litThen_of_chPre_false {α : Type} {lit : List Char} (k : List Char → Option α)
    {s : List Char} (h : chPre lit s = false) : litThen lit k s = none := by
  unfold litThen
  rw [h]
  rfl

theorem chPre_cons_ne {a b : Char} {l t : List Char} (h : a ≠ b) :
    chPre (a :: l) (b :: t) = false := by
  simp [chPre, h]

theorem head?_mem {l : List Char} {b : Char} (h : l.head? = some b) : b ∈ l := by
  cases l with
  | nil => exact Option.noConfusion h
  | cons a t =>
    simp only [List.head?_cons, Option.some.injEq] at h
    rw [← h]
    exact List.mem_cons_self a t

theorem natRepr_head_digit (m : ℕ) : ∀ b, (natRepr m).data.head? = some b → b.isDigit = true :=
  fun b hb => natRepr_data_digits m b (head?_mem hb)

theorem safe_head_not_ws {s : String} (h : safeText s) :
    ∀ b, s.data.head? = some b → b.isWhitespace = false := by
  intro b hb
  by_contra hws
  have hws : b.isWhitespace = true := by
    cases hbool : b.isWhitespace
    · exact absurd hbool hws
    · rfl
  obtain ⟨hne, htrim, _⟩ := h
  cases hdat : s.data with
  | nil => exact hne hdat
  | cons a t =>
    rw [hdat] at hb
    simp only [List.head?_cons, Option.some.injEq] at hb
    subst hb
    have hlen : (jsTrim s).data.length < s.data.length := by
      have hmkl : (jsTrim s).data =
          ((s.data.dropWhile Char.isWhitespace).reverse.dropWhile Char.isWhitespace).reverse := rfl
      rw [hmkl, hdat]
      simp only [List.dropWhile_cons, hws, if_true]
      rw [List.length_reverse]
      have c1 : ((t.dropWhile Char.isWhitespace).reverse.dropWhile Char.isWhitespace).length
          ≤ (t.dropWhile Char.isWhitespace).reverse.length :=
        (List.dropWhile_sublist _).length_le
      rw [List.length_reverse] at c1
      have c2 : (t.dropWhile Char.isWhitespace).length ≤ t.length :=
        (List.dropWhile_sublist _).length_le
      simp only [List.length_cons]
      omega
    rw [htrim] at hlen
    omega

/-- Nonemptiness of the digit grouping. -/
theorem groupRevAux_ne_nil {fuel : ℕ} {l : List Char} (h : l ≠ []) :
    groupRevAux fuel l ≠ [] := by
  cases fuel with
  | zero => rw [groupRevAux]; exact h
  | succ fuel =>
    rw [groupRevAux]
    by_cases hl : l.length ≤ 3
    · rw [if_pos hl]; exact h
    · rw [if_neg hl]
      intro hc
      obtain ⟨h3, -⟩ := List.append_eq_nil.mp hc
      rcases List.take_eq_nil_iff.mp h3 with h2 | h2
      · omega
      · rw [h2] at hl
        simp at hl

theorem natLocaleStr_ne_nil (m : ℕ) : (natLocaleStr m).data ≠ [] := by
  show jsLocaleGroup (natRepr m).data ≠ []
  unfold jsLocaleGroup
  intro hc
  rw [List.reverse_eq_nil_iff] at hc
  exact groupRevAux_ne_nil (by simpa using natRepr_ne_nil m) hc

theorem expectLit_self (lit t : List Char) : expectLit lit (lit ++ t) = some t := by
  unfold expectLit
  rw [if_pos (chPre_append_self lit t), List.drop_left]

theorem isDigitComma_natLocaleStr (m : ℕ) :
    ∀ a ∈ (natLocaleStr m).data, (a.isDigit || a = ',') = true := by
  intro a ha
  rcases natLocaleStr_chars m a ha with h | h
  · simp [h]
  · simp [h]

theorem numCommaCap_self (m : ℕ) (rest : List Char)
    (hrest : ∀ b, rest.head? = some b → (b.isDigit || b = ',') = false) :
    numCommaCap ((natLocaleStr m).data ++ rest) = some (m, rest) := by
  unfold numCommaCap
  rw [takeWhile_append_all (isDigitComma_natLocaleStr m) hrest]
  rw [if_neg (by simp [natLocaleStr_ne_nil m])]
  rw [List.drop_left]
  have : ((natLocaleStr m).data.filter (fun c => ¬ c = ',')) =
      ((natLocaleStr m).data.filter (fun c => c ≠ ',')) := by rfl
  rw [this, digitsVal_filter_natLocaleStr]

theorem lineCapPat_self (label s : String) (hs : s.data ≠ []) :
    lineCapPat label (label ++ s) = some s := by
  unfold lineCapPat
  apply scanFor_head
  rw [String.data_append, litThen_self]
  rw [if_neg (by simp [hs])]

theorem wordCapPat_self (label w : String) (hw : wordText w) :
    wordCapPat label (label ++ w) = some w := by
  unfold wordCapPat
  apply scanFor_head
  rw [String.data_append, litThen_self]
  simp only []
  rw [takeWhile_all hw.2]
  rw [if_neg (by simp [hw.1])]

theorem taskPat_self (w : String) (h1 : w.data ≠ [])
    (h2 : ∀ ch ∈ w.data, isWordDashCh ch = true) :
    taskPat ("- **Task Completed**: " ++ w) = some w := by
  unfold taskPat
  apply scanFor_head
  rw [String.data_append, litThen_self]
  simp only []
  rw [takeWhile_all h2]
  rw [if_neg (by simp [h1])]

theorem headerPat_self (it : ℕ) (ts : String) (hts : ts.data ≠ []) :
    headerPat ("### Iteration " ++ natRepr it ++ " - " ++ ts) = some (it, ts) := by
  unfold headerPat
  apply scanFor_head
  have hdata : ("### Iteration " ++ natRepr it ++ " - " ++ ts).data
      = "### Iteration ".data ++ ((natRepr it).data ++ (" - ".data ++ ts.data)) := by
    simp [String.data_append]
  rw [hdata, litThen_self]
  simp only []
  rw [takeWhile_append_all (natRepr_data_digits it)
    (fun b hb => by simp at hb; rw [← hb]; decide)]
  rw [if_neg (by simp [natRepr_ne_nil it])]
  rw [List.drop_left]
  rw [if_pos (chPre_append_self " - ".data ts.data)]
  have hdrop3 : (" - ".data ++ ts.data).drop 3 = ts.data := by
    have := List.drop_left " - ".data ts.data
    simpa using this
  rw [hdrop3]
  rw [if_neg (by simp [hts])]
  rw [digitsVal_natRepr, strMk_data]

theorem natLabelPat_self (label : String) (m : ℕ) {c0 : Char} {cr : List Char}
    (hl : label.data = c0 :: cr) (hd : c0 ≠ '-') (hsp : c0 ≠ ' ') :
    natLabelPat label ("- " ++ label ++ " " ++ natRepr m) = some m := by
  unfold natLabelPat
  have hdata : ("- " ++ label ++ " " ++ natRepr m).data
      = '-' :: ' ' :: (label.data ++ (' ' :: (natRepr m).data)) := by
    simp [String.data_append]
  rw [hdata]
  rw [scanFor_cons_of_none _ _ _ (litThen_of_chPre_false _ (by rw [hl]; exact chPre_cons_ne hd))]
  rw [scanFor_cons_of_none _ _ _ (litThen_of_chPre_false _ (by rw [hl]; exact chPre_cons_ne hsp))]
  apply scanFor_head
  rw [litThen_self]
  simp only []
  rw [wsDrop_cons_space, wsDrop_of_head_digit (natRepr_head_digit m)]
  rw [takeWhile_all (natRepr_data_digits m)]
  rw [if_neg (by simp [natRepr_ne_nil m])]
  rw [digitsVal_natRepr]

theorem textLabelPat_self (label s : String) {c0 : Char} {cr : List Char}
    (hl : label.data = c0 :: cr) (hd : c0 ≠ '-') (hsp : c0 ≠ ' ')
    (hs : safeText s) :
    textLabelPat label ("- " ++ label ++ " " ++ s) = some s := by
  unfold textLabelPat
  have hdata : ("- " ++ label ++ " " ++ s).data
      = '-' :: ' ' :: (label.data ++ (' ' :: s.data)) := by
    simp [String.data_append]
  rw [hdata]
  rw [scanFor_cons_of_none _ _ _ (litThen_of_chPre_false _ (by rw [hl]; exact chPre_cons_ne hd))]
  rw [scanFor_cons_of_none _ _ _ (litThen_of_chPre_false _ (by rw [hl]; exact chPre_cons_ne hsp))]
  apply scanFor_head
  rw [litThen_self]
  simp only []
  rw [wsDrop_cons_space, wsDrop_of_head_not_ws (safe_head_not_ws hs)]
  rw [if_neg (by simp [hs.1])]

theorem fixed4_chars (q : ℚ) : ∀ a ∈ (fixed4 q).data, (a.isDigit || a = '.') = true := by
  intro a ha
  unfold fixed4 at ha
  simp only [String.data_append] at ha
  rcases List.mem_append.mp ha with h | h
  · rcases List.mem_append.mp h with h2 | h2
    · simp [natRepr_data_digits _ a h2]
    · simp at h2
      simp [h2]
  · have : a ∈ pad4 _ := h
    simp [pad4_digits a this]

theorem fixed4_ne_nil (q : ℚ) : (fixed4 q).data ≠ [] := by
  unfold fixed4
  simp only [String.data_append]
  intro hc
  rcases List.append_eq_nil.mp hc with ⟨h1, _⟩
  rcases List.append_eq_nil.mp h1 with ⟨h2, _⟩
  exact natRepr_ne_nil _ h2

theorem costPat_self (q : ℚ) (h0 : 0 ≤ q) (hden : (q * 10000).den = 1) :
    costPat ("- **Cost**: $" ++ fixed4 q) = some q := by
  unfold costPat
  apply scanFor_head
  rw [String.data_append, litThen_self]
  simp only []
  rw [takeWhile_all (fixed4_chars q)]
  rw [if_neg (by simp [fixed4_ne_nil q])]
  rw [parseFloatQ_fixed4 h0 hden]

theorem expectLit_exact (lit : List Char) : expectLit lit lit = some [] := by
  have := expectLit_self lit []
  rwa [List.append_nil] at this

theorem isDigitComma_head_false_of_space {g : String} {rest : List Char}
    (h : g.data.head? = some ' ') :
    ∀ b, (g.data ++ rest).head? = some b → (b.isDigit || b = ',') = false := by
  intro b hb
  cases hg : g.data with
  | nil => rw [hg] at h; exact Option.noConfusion h
  | cons a t =>
    rw [hg] at h hb
    rw [List.cons_append, List.head?_cons] at hb
    rw [List.head?_cons] at h
    have ha : a = ' ' := by injection h
    have hab : a = b := by injection hb
    rw [← hab, ha]
    decide

theorem tokensCacheGroup_self (cc cr : ℕ) :
    tokensCacheGroup (", ".data ++ ((natLocaleStr cc).data ++ (" cache-create, ".data ++ ((natLocaleStr cr).data ++ (" cache-read".data ++ (")".data)))))) = some (cc, cr) := by
  unfold tokensCacheGroup
  rw [expectLit_self]
  simp only [Option.bind_eq_bind, Option.some_bind]
  rw [numCommaCap_self _ _ (isDigitComma_head_false_of_space (by decide))]
  simp only [Option.some_bind]
  rw [expectLit_self]
  simp only [Option.some_bind]
  rw [numCommaCap_self _ _ (isDigitComma_head_false_of_space (by decide))]
  simp only [Option.some_bind]
  rw [expectLit_self]
  simp only [Option.some_bind]
  rw [expectLit_exact]
  simp only [Option.some_bind]
  rfl

theorem tokensBody_self (tot inp out cc cr : ℕ) :
    tokensBody ("- **Tokens**: ".data ++ ((natLocaleStr tot).data ++ (" total (".data ++ ((natLocaleStr inp).data ++ (" in, ".data ++ ((natLocaleStr out).data ++ (" out".data ++ (", ".data ++ ((natLocaleStr cc).data ++ (" cache-create, ".data ++ ((natLocaleStr cr).data ++ (" cache-read".data ++ (")".data)))))))))))))
    = some (tot, inp, out, some (cc, cr)) := by
  unfold tokensBody
  rw [expectLit_self]
  simp only [Option.bind_eq_bind, Option.some_bind]
  rw [numCommaCap_self _ _ (isDigitComma_head_false_of_space (by decide))]
  simp only [Option.some_bind]
  rw [expectLit_self]
  simp only [Option.some_bind]
  rw [numCommaCap_self _ _ (isDigitComma_head_false_of_space (by decide))]
  simp only [Option.some_bind]
  rw [expectLit_self]
  simp only [Option.some_bind]
  rw [numCommaCap_self _ _ (isDigitComma_head_false_of_space (by decide))]
  simp only [Option.some_bind]
  rw [expectLit_self]
  simp only [Option.some_bind]
  rw [tokensCacheGroup_self]
  rfl

/-- The rendered `Tokens` line of `recordLines`, parsed by `tokensPat`. -/
theorem tokensPat_self (u : TokenUsage) :
    tokensPat ("- **Tokens**: " ++ natLocaleStr u.totalTokens ++ " total (" ++
      natLocaleStr u.inputTokens ++ " in, " ++ natLocaleStr u.outputTokens ++ " out, " ++
      natLocaleStr u.cacheCreationTokens ++ " cache-create, " ++
      natLocaleStr u.cacheReadTokens ++ " cache-read)")
    = some (u.totalTokens, u.inputTokens, u.outputTokens,
        some (u.cacheCreationTokens, u.cacheReadTokens)) := by
  unfold tokensPat
  apply scanFor_head
  have hdata : ("- **Tokens**: " ++ natLocaleStr u.totalTokens ++ " total (" ++
      natLocaleStr u.inputTokens ++ " in, " ++ natLocaleStr u.outputTokens ++ " out, " ++
      natLocaleStr u.cacheCreationTokens ++ " cache-create, " ++
      natLocaleStr u.cacheReadTokens ++ " cache-read)").data
      = "- **Tokens**: ".data ++ ((natLocaleStr u.totalTokens).data ++ (" total (".data ++ ((natLocaleStr u.inputTokens).data ++ (" in, ".data ++ ((natLocaleStr u.outputTokens).data ++ (" out".data ++ (", ".data ++ ((natLocaleStr u.cacheCreationTokens).data ++ (" cache-create, ".data ++ ((natLocaleStr u.cacheReadTokens).data ++ (" cache-read".data ++ (")".data)))))))))))) := by
    simp only [String.data_append, List.append_assoc]
    rfl
  rw [hdata, tokensBody_self]

/-! ### The error detail scan on rendered blocks -/

theorem detailScan_none {lines : List String}
    (h : ∀ l ∈ lines, detailHeadPat l = false) : detailScan lines = none := by
  induction lines with
  | nil => rfl
  | cons l rest ih =>
    cases rest with
    | nil => rfl
    | cons fence body =>
      rw [detailScan]
      rw [if_neg (by simp [h l (List.mem_cons_self l (fence :: body))])]
      exact ih fun x hx => h x (List.mem_cons_of_mem l hx)

theorem chPre_fence_false {d : String} (hd : safeText d) :
    chPre "```".data d.data = false := by
  cases hdat : d.data with
  | nil => exact absurd hdat hd.1
  | cons a t =>
    apply chPre_cons_ne
    intro he
    exact hd.2.2 a (by rw [hdat]; exact List.mem_cons_self a t) (by rw [← he]; decide)

theorem detailScan_found (d : String) (tail : List String) (hd : safeText d) :
    detailScan ("- **Error Detail**:" :: "```" :: d :: "```" :: tail) = some d := by
  rw [detailScan]
  rw [if_pos (by decide : detailHeadPat "- **Error Detail**:" = true)]
  rw [if_pos rfl]
  have hfence : chPre "```".data ("```" : String).data = true := by decide
  have htake : (d :: "```" :: tail).takeWhile (fun x => ¬ chPre "```".data x.data) = [d] := by
    rw [List.takeWhile_cons]
    rw [if_pos (by simp [chPre_fence_false hd])]
    rw [List.takeWhile_cons]
    rw [if_neg (by simp [hfence])]
  have hdrop : (d :: "```" :: tail).dropWhile (fun x => ¬ chPre "```".data x.data)
      = "```" :: tail := by
    rw [List.dropWhile_cons]
    rw [if_pos (by simp [chPre_fence_false hd])]
    rw [List.dropWhile_cons]
    rw [if_neg (by simp [hfence])]
  rw [htake, hdrop]
  rw [if_neg (by simp)]
  have hjoin : joinLines [d] = d := rfl
  rw [hjoin, hd.2.1]

theorem detailScan_append (pre : List String) (d : String) (tail : List String)
    (hpre : ∀ l ∈ pre, detailHeadPat l = false) (hd : safeText d) :
    detailScan (pre ++ ("- **Error Detail**:" :: "```" :: d :: "```" :: tail)) = some d := by
  induction pre with
  | nil => exact detailScan_found d tail hd
  | cons l rest ih =>
    rw [List.cons_append]
    have hne : detailHeadPat l = false := hpre l (List.mem_cons_self l rest)
    cases hrest : rest ++ ("- **Error Detail**:" :: "```" :: d :: "```" :: tail) with
    | nil => exact absurd hrest (by simp)
    | cons fence body =>
      rw [detailScan]
      rw [if_neg (by simp [hne])]
      rw [← hrest]
      exact ih fun x hx => hpre x (List.mem_cons_of_mem l hx)

/-! ### Star-freeness of rendered lines -/

theorem header_star_free (it : ℕ) (ts : String) (hts : safeText ts) :
    ∀ ch ∈ ("### Iteration " ++ natRepr it ++ " - " ++ ts).data, ch ≠ '*' := by
  intro ch hch
  simp only [String.data_append] at hch
  rcases List.mem_append.mp hch with h | h
  · rcases List.mem_append.mp h with h | h
    · rcases List.mem_append.mp h with h | h
      · intro he; subst he; revert h; decide
      · exact digit_ne_star (natRepr_data_digits it ch h)
    · intro he; subst he; revert h; decide
  · exact safe_ne_star hts ch h

theorem not_contains_header (needle : List Char) (hstar : '*' ∈ needle)
    (it : ℕ) (ts : String) (hts : safeText ts) :
    containsSub needle ("### Iteration " ++ natRepr it ++ " - " ++ ts).data = false :=
  containsSub_eq_false_of_not_mem needle _ '*' hstar
    (fun hm => header_star_free it ts hts '*' hm rfl)

/-- The rendered value on the `Task Completed` line. -/
def taskRender : Option String → String
  | some t => if t = "" then "none" else t
  | none => "none"

theorem taskRender_wordDash {o : Option String} (h : WFOpt taskIdText o) :
    (taskRender o).data ≠ [] ∧ ∀ ch ∈ (taskRender o).data, isWordDashCh ch = true := by
  cases o with
  | none => exact ⟨by decide, by decide⟩
  | some t =>
    obtain ⟨h1, h2, h3⟩ := h
    simp only [taskRender]
    rw [if_neg (fun he => h1 (by rw [he]))]
    exact ⟨h1, h3⟩

theorem taskRender_star_free {o : Option String} (h : WFOpt taskIdText o) :
    ∀ ch ∈ (taskRender o).data, ch ≠ '*' := by
  intro ch hch
  have := (taskRender_wordDash h).2 ch hch
  intro he
  rw [he] at this
  exact absurd this (by decide)

theorem star_free_append {l1 l2 : List Char}
    (h1 : ∀ ch ∈ l1, ch ≠ '*') (h2 : ∀ ch ∈ l2, ch ≠ '*') :
    ∀ ch ∈ l1 ++ l2, ch ≠ '*' := by
  intro ch hch
  rcases List.mem_append.mp hch with h | h
  · exact h1 ch h
  · exact h2 ch h

theorem natLocale_star_free (m : ℕ) : ∀ ch ∈ (natLocaleStr m).data, ch ≠ '*' := by
  intro ch hm he
  rcases natLocaleStr_chars m ch hm with h2 | h2
  · exact digit_ne_star h2 he
  · rw [he] at h2; exact absurd h2 (by decide)

/-- The variable tail of the rendered `Tokens` line is star-free. -/
theorem tokensTail_star_free (u : TokenUsage) :
    ∀ ch ∈ (natLocaleStr u.totalTokens ++ " total (" ++
      natLocaleStr u.inputTokens ++ " in, " ++ natLocaleStr u.outputTokens ++ " out, " ++
      natLocaleStr u.cacheCreationTokens ++ " cache-create, " ++
      natLocaleStr u.cacheReadTokens ++ " cache-read)").data, ch ≠ '*' := by
  simp only [String.data_append]
  apply star_free_append
  apply star_free_append
  apply star_free_append
  apply star_free_append
  apply star_free_append
  apply star_free_append
  apply star_free_append
  apply star_free_append
  apply star_free_append
  · exact natLocale_star_free _
  · decide
  · exact natLocale_star_free _
  · decide
  · exact natLocale_star_free _
  · decide
  · exact natLocale_star_free _
  · decide
  · exact natLocale_star_free _
  · decide

theorem fixed4_star_free (q : ℚ) : ∀ ch ∈ (fixed4 q).data, ch ≠ '*' := by
  intro ch hch he
  have := fixed4_chars q ch hch
  rw [he] at this
  exact absurd this (by decide)

theorem safe_star_free {v : String} (h : safeText v) : ∀ ch ∈ v.data, ch ≠ '*' :=
  safe_ne_star h

theorem word_star_free {v : String} (h : wordText v) : ∀ ch ∈ v.data, ch ≠ '*' :=
  word_ne_star h

/-! ### First-match results on a rendered block -/

/-- Normal form of `recordLines r ++ tail`. -/
theorem recordLines_eq (r : IterationLog) (tail : List String) :
    recordLines r ++ tail =
      ("### Iteration " ++ natRepr r.iteration ++ " - " ++ r.timestamp) ::
      ("- **Task Completed**: " ++ taskRender r.taskCompleted) ::
      ("- **Summary**: " ++ r.summary) ::
      ("- **Duration**: " ++ r.duration) ::
      ("- **Exit Status**: " ++ r.exitStatus) ::
      ((match r.tokenUsage with
        | some u =>
          ["- **Tokens**: " ++ natLocaleStr u.totalTokens ++ " total (" ++
             natLocaleStr u.inputTokens ++ " in, " ++ natLocaleStr u.outputTokens ++ " out, " ++
             natLocaleStr u.cacheCreationTokens ++ " cache-create, " ++
             natLocaleStr u.cacheReadTokens ++ " cache-read)",
           "- **Cost**: $" ++ fixed4 u.costUsd]
        | none => []) ++
       ((match r.errorType with
         | some e => if e = "" then [] else ["- **Error Type**: " ++ e]
         | none => []) ++
        ((match r.errorDetail with
          | some d => if d = "" then [] else ["- **Error Detail**:", "```", d, "```"]
          | none => []) ++
         ("" :: tail)))) := by
  unfold recordLines taskRender
  simp only [List.cons_append, List.append_assoc, List.nil_append, List.singleton_append]

theorem firstSome_header_block (r : IterationLog) (hwf : WFLog r) (tail : List String) :
    firstSome headerPat (recordLines r ++ tail) = some (r.iteration, r.timestamp) := by
  rw [recordLines_eq]
  exact firstSome_cons_some (headerPat_self r.iteration r.timestamp hwf.1.1)

theorem firstSome_task_block (r : IterationLog) (hwf : WFLog r) (tail : List String) :
    firstSome taskPat (recordLines r ++ tail) = some (taskRender r.taskCompleted) := by
  rw [recordLines_eq]
  rw [firstSome_cons_none (taskPat_none
    (not_contains_header _ (by decide) r.iteration r.timestamp hwf.1))]
  obtain ⟨htr1, htr2⟩ := taskRender_wordDash hwf.2.2.2.2.1
  exact firstSome_cons_some (taskPat_self _ htr1 htr2)

theorem firstSome_summary_block (r : IterationLog) (hwf : WFLog r) (tail : List String) :
    firstSome (lineCapPat "- **Summary**: ") (recordLines r ++ tail) = some r.summary := by
  rw [recordLines_eq]
  rw [firstSome_cons_none (lineCapPat_none
    (not_contains_header _ (by decide) r.iteration r.timestamp hwf.1))]
  rw [firstSome_cons_none (lineCapPat_none (by
    rw [String.data_append]
    exact containsSub_eq_false_star _ _ _ 2 (by decide) (by decide)
      (taskRender_star_free hwf.2.2.2.2.1) (by decide)))]
  exact firstSome_cons_some (lineCapPat_self _ _ hwf.2.1.1)

theorem firstSome_duration_block (r : IterationLog) (hwf : WFLog r) (tail : List String) :
    firstSome (lineCapPat "- **Duration**: ") (recordLines r ++ tail) = some r.duration := by
  rw [recordLines_eq]
  rw [firstSome_cons_none (lineCapPat_none
    (not_contains_header _ (by decide) r.iteration r.timestamp hwf.1))]
  rw [firstSome_cons_none (lineCapPat_none (by
    rw [String.data_append]
    exact containsSub_eq_false_star _ _ _ 2 (by decide) (by decide)
      (taskRender_star_free hwf.2.2.2.2.1) (by decide)))]
  rw [firstSome_cons_none (lineCapPat_none (by
    rw [String.data_append]
    exact containsSub_eq_false_star _ _ _ 2 (by decide) (by decide)
      (safe_star_free hwf.2.1) (by decide)))]
  exact firstSome_cons_some (lineCapPat_self _ _ hwf.2.2.1.1)

theorem firstSome_status_block (r : IterationLog) (hwf : WFLog r) (tail : List String) :
    firstSome (wordCapPat "- **Exit Status**: ") (recordLines r ++ tail)
      = some r.exitStatus := by
  rw [recordLines_eq]
  rw [firstSome_cons_none (wordCapPat_none
    (not_contains_header _ (by decide) r.iteration r.timestamp hwf.1))]
  rw [firstSome_cons_none (wordCapPat_none (by
    rw [String.data_append]
    exact containsSub_eq_false_star _ _ _ 2 (by decide) (by decide)
      (taskRender_star_free hwf.2.2.2.2.1) (by decide)))]
  rw [firstSome_cons_none (wordCapPat_none (by
    rw [String.data_append]
    exact containsSub_eq_false_star _ _ _ 2 (by decide) (by decide)
      (safe_star_free hwf.2.1) (by decide)))]
  rw [firstSome_cons_none (wordCapPat_none (by
    rw [String.data_append]
    exact containsSub_eq_false_star _ _ _ 2 (by decide) (by decide)
      (safe_star_free hwf.2.2.1) (by decide)))]
  exact firstSome_cons_some (wordCapPat_self _ _ hwf.2.2.2.1)

/-- Characterize membership in the optional-error region of a rendered
block (error-type line, error-detail fence, trailing blank, extra tail). -/
theorem mem_et_ed_region {r : IterationLog} {tail : List String} {l : String}
    (hl : l ∈ ((match r.errorType with
         | some e => if e = "" then [] else ["- **Error Type**: " ++ e]
         | none => []) ++
        ((match r.errorDetail with
          | some d => if d = "" then [] else ["- **Error Detail**:", "```", d, "```"]
          | none => []) ++
         ("" :: tail)))) :
    (∃ e, r.errorType = some e ∧ l = "- **Error Type**: " ++ e) ∨
    (∃ d, r.errorDetail = some d ∧ l = d) ∨
    l = "- **Error Detail**:" ∨ l = "```" ∨ l = "" ∨ l ∈ tail := by
  rcases List.mem_append.mp hl with h | h
  · rcases hety : r.errorType with _ | e
    · rw [hety] at h; simp at h
    · rw [hety] at h
      by_cases he : e = ""
      · simp [he] at h
      · simp only [he] at h
        simp at h
        exact Or.inl ⟨e, rfl, h⟩
  · rcases List.mem_append.mp h with h | h
    · rcases hed : r.errorDetail with _ | d
      · rw [hed] at h; simp at h
      · rw [hed] at h
        by_cases hd : d = ""
        · simp [hd] at h
        · simp only [hd] at h
          simp at h
          rcases h with h | h | h | h
          · exact Or.inr (Or.inr (Or.inl h))
          · exact Or.inr (Or.inr (Or.inr (Or.inl h)))
          · exact Or.inr (Or.inl ⟨d, rfl, h⟩)
          · exact Or.inr (Or.inr (Or.inr (Or.inl h)))
    · rcases List.mem_cons.mp h with h | h
      · exact Or.inr (Or.inr (Or.inr (Or.inr (Or.inl h))))
      · exact Or.inr (Or.inr (Or.inr (Or.inr (Or.inr h))))

theorem detail_star_free {r : IterationLog} (hwf : WFLog r) {d : String}
    (hd : r.errorDetail = some d) : ∀ ch ∈ d.data, ch ≠ '*' := by
  have h := hwf.2.2.2.2.2.2.1
  rw [hd] at h
  exact safe_star_free h

theorem et_word {r : IterationLog} (hwf : WFLog r) {e : String}
    (he : r.errorType = some e) : wordText e := by
  have h := hwf.2.2.2.2.2.2.1
  have h2 := hwf.2.2.2.2.2.1
  rw [he] at h2
  exact h2

theorem tokensPat_none_region (r : IterationLog) (hwf : WFLog r) (tail : List String)
    (htail : ∀ l ∈ tail, l = "") :
    ∀ l ∈ ((match r.errorType with
         | some e => if e = "" then [] else ["- **Error Type**: " ++ e]
         | none => []) ++
        ((match r.errorDetail with
          | some d => if d = "" then [] else ["- **Error Detail**:", "```", d, "```"]
          | none => []) ++
         ("" :: tail))), tokensPat l = none := by
  intro l hl
  rcases mem_et_ed_region hl with ⟨e, hety, rfl⟩ | ⟨d, hed, rfl⟩ | rfl | rfl | rfl | hmem
  · apply tokensPat_none
    rw [String.data_append]
    exact containsSub_eq_false_star _ _ _ 2 (by decide) (by decide)
      (word_star_free (et_word hwf hety)) (by decide)
  · apply tokensPat_none
    exact containsSub_eq_false_of_not_mem _ _ '*' (by decide)
      (fun hm => detail_star_free hwf hed '*' hm rfl)
  · decide
  · decide
  · decide
  · rw [htail l hmem]; decide

theorem firstSome_tokens_block_none (r : IterationLog) (hwf : WFLog r)
    (tail : List String) (htail : ∀ l ∈ tail, l = "")
    (hu : r.tokenUsage = none) :
    firstSome tokensPat (recordLines r ++ tail) = none := by
  rw [recordLines_eq]
  rw [firstSome_cons_none (tokensPat_none
    (not_contains_header _ (by decide) r.iteration r.timestamp hwf.1))]
  rw [firstSome_cons_none (tokensPat_none (by
    rw [String.data_append]
    exact containsSub_eq_false_star _ _ _ 2 (by decide) (by decide)
      (taskRender_star_free hwf.2.2.2.2.1) (by decide)))]
  rw [firstSome_cons_none (tokensPat_none (by
    rw [String.data_append]
    exact containsSub_eq_false_star _ _ _ 2 (by decide) (by decide)
      (safe_star_free hwf.2.1) (by decide)))]
  rw [firstSome_cons_none (tokensPat_none (by
    rw [String.data_append]
    exact containsSub_eq_false_star _ _ _ 2 (by decide) (by decide)
      (safe_star_free hwf.2.2.1) (by decide)))]
  rw [firstSome_cons_none (tokensPat_none (by
    rw [String.data_append]
    exact containsSub_eq_false_star _ _ _ 2 (by decide) (by decide)
      (word_star_free hwf.2.2.2.1) (by decide)))]
  rw [hu]
  rw [List.nil_append]
  exact firstSome_eq_none (tokensPat_none_region r hwf tail htail)

theorem firstSome_tokens_block_some (r : IterationLog) (hwf : WFLog r)
    (tail : List String) {u : TokenUsage} (hu : r.tokenUsage = some u) :
    firstSome tokensPat (recordLines r ++ tail)
      = some (u.totalTokens, u.inputTokens, u.outputTokens,
          some (u.cacheCreationTokens, u.cacheReadTokens)) := by
  rw [recordLines_eq]
  rw [firstSome_cons_none (tokensPat_none
    (not_contains_header _ (by decide) r.iteration r.timestamp hwf.1))]
  rw [firstSome_cons_none (tokensPat_none (by
    rw [String.data_append]
    exact containsSub_eq_false_star _ _ _ 2 (by decide) (by decide)
      (taskRender_star_free hwf.2.2.2.2.1) (by decide)))]
  rw [firstSome_cons_none (tokensPat_none (by
    rw [String.data_append]
    exact containsSub_eq_false_star _ _ _ 2 (by decide) (by decide)
      (safe_star_free hwf.2.1) (by decide)))]
  rw [firstSome_cons_none (tokensPat_none (by
    rw [String.data_append]
    exact containsSub_eq_false_star _ _ _ 2 (by decide) (by decide)
      (safe_star_free hwf.2.2.1) (by decide)))]
  rw [firstSome_cons_none (tokensPat_none (by
    rw [String.data_append]
    exact containsSub_eq_false_star _ _ _ 2 (by decide) (by decide)
      (word_star_free hwf.2.2.2.1) (by decide)))]
  rw [hu]
  rw [List.cons_append, List.cons_append, List.nil_append]
  exact firstSome_cons_some (tokensPat_self u)

/-- Decomposition of the rendered `Tokens` line for the master lemma. -/
theorem tokensLine_data (u : TokenUsage) :
    ("- **Tokens**: " ++ natLocaleStr u.totalTokens ++ " total (" ++
      natLocaleStr u.inputTokens ++ " in, " ++ natLocaleStr u.outputTokens ++ " out, " ++
      natLocaleStr u.cacheCreationTokens ++ " cache-create, " ++
      natLocaleStr u.cacheReadTokens ++ " cache-read)").data
    = "- **Tokens**: ".data ++ (natLocaleStr u.totalTokens ++ " total (" ++
      natLocaleStr u.inputTokens ++ " in, " ++ natLocaleStr u.outputTokens ++ " out, " ++
      natLocaleStr u.cacheCreationTokens ++ " cache-create, " ++
      natLocaleStr u.cacheReadTokens ++ " cache-read)").data := by
  simp only [String.data_append, List.append_assoc]

theorem firstSome_cost_block_some (r : IterationLog) (hwf : WFLog r)
    (tail : List String) {u : TokenUsage} (hu : r.tokenUsage = some u) :
    firstSome costPat (recordLines r ++ tail) = some u.costUsd := by
  have husage : WFUsage u := by
    have h := hwf.2.2.2.2.2.2.2
    rw [hu] at h
    exact h
  rw [recordLines_eq]
  rw [firstSome_cons_none (costPat_none
    (not_contains_header _ (by decide) r.iteration r.timestamp hwf.1))]
  rw [firstSome_cons_none (costPat_none (by
    rw [String.data_append]
    exact containsSub_eq_false_star _ _ _ 2 (by decide) (by decide)
      (taskRender_star_free hwf.2.2.2.2.1) (by decide)))]
  rw [firstSome_cons_none (costPat_none (by
    rw [String.data_append]
    exact containsSub_eq_false_star _ _ _ 2 (by decide) (by decide)
      (safe_star_free hwf.2.1) (by decide)))]
  rw [firstSome_cons_none (costPat_none (by
    rw [String.data_append]
    exact containsSub_eq_false_star _ _ _ 2 (by decide) (by decide)
      (safe_star_free hwf.2.2.1) (by decide)))]
  rw [firstSome_cons_none (costPat_none (by
    rw [String.data_append]
    exact containsSub_eq_false_star _ _ _ 2 (by decide) (by decide)
      (word_star_free hwf.2.2.2.1) (by decide)))]
  rw [hu]
  rw [List.cons_append, List.cons_append, List.nil_append]
  rw [firstSome_cons_none (costPat_none (by
    rw [tokensLine_data u]
    exact containsSub_eq_false_star _ _ _ 2 (by decide) (by decide)
      (tokensTail_star_free u) (by decide)))]
  exact firstSome_cons_some (costPat_self u.costUsd husage.1 husage.2)

/-- The lines contributed by the optional token-usage field. -/
def tokLines (r : IterationLog) : List String :=
  match r.tokenUsage with
  | some u =>
    ["- **Tokens**: " ++ natLocaleStr u.totalTokens ++ " total (" ++
       natLocaleStr u.inputTokens ++ " in, " ++ natLocaleStr u.outputTokens ++ " out, " ++
       natLocaleStr u.cacheCreationTokens ++ " cache-create, " ++
       natLocaleStr u.cacheReadTokens ++ " cache-read)",
     "- **Cost**: $" ++ fixed4 u.costUsd]
  | none => []

/-- The line contributed by the optional error-type field. -/
def etLines (r : IterationLog) : List String :=
  match r.errorType with
  | some e => if e = "" then [] else ["- **Error Type**: " ++ e]
  | none => []

/-- The lines contributed by the optional error-detail field. -/
def edLines (r : IterationLog) : List String :=
  match r.errorDetail with
  | some d => if d = "" then [] else ["- **Error Detail**:", "```", d, "```"]
  | none => []

theorem recordLines_eq2 (r : IterationLog) (tail : List String) :
    recordLines r ++ tail =
      ("### Iteration " ++ natRepr r.iteration ++ " - " ++ r.timestamp) ::
      ("- **Task Completed**: " ++ taskRender r.taskCompleted) ::
      ("- **Summary**: " ++ r.summary) ::
      ("- **Duration**: " ++ r.duration) ::
      ("- **Exit Status**: " ++ r.exitStatus) ::
      (tokLines r ++ (etLines r ++ (edLines r ++ ("" :: tail)))) := by
  rw [recordLines_eq]
  rfl

theorem mem_tokLines {r : IterationLog} {l : String} (hl : l ∈ tokLines r) :
    ∃ u, r.tokenUsage = some u ∧
      (l = "- **Tokens**: " ++ natLocaleStr u.totalTokens ++ " total (" ++
         natLocaleStr u.inputTokens ++ " in, " ++ natLocaleStr u.outputTokens ++ " out, " ++
         natLocaleStr u.cacheCreationTokens ++ " cache-create, " ++
         natLocaleStr u.cacheReadTokens ++ " cache-read)" ∨
       l = "- **Cost**: $" ++ fixed4 u.costUsd) := by
  unfold tokLines at hl
  rcases hu : r.tokenUsage with _ | u
  · rw [hu] at hl; simp at hl
  · rw [hu] at hl
    simp at hl
    rcases hl with h | h
    · exact ⟨u, rfl, Or.inl h⟩
    · exact ⟨u, rfl, Or.inr h⟩

theorem mem_etLines {r : IterationLog} {l : String} (hl : l ∈ etLines r) :
    ∃ e, r.errorType = some e ∧ l = "- **Error Type**: " ++ e := by
  unfold etLines at hl
  rcases hety : r.errorType with _ | e
  · rw [hety] at hl; simp at hl
  · rw [hety] at hl
    by_cases he : e = ""
    · simp [he] at hl
    · simp only [he] at hl
      simp at hl
      exact ⟨e, rfl, hl⟩

theorem mem_edLines {r : IterationLog} {l : String} (hl : l ∈ edLines r) :
    l = "- **Error Detail**:" ∨ l = "```" ∨ ∃ d, r.errorDetail = some d ∧ l = d := by
  unfold edLines at hl
  rcases hed : r.errorDetail with _ | d
  · rw [hed] at hl; simp at hl
  · rw [hed] at hl
    by_cases hd : d = ""
    · simp [hd] at hl
    · simp only [hd] at hl
      simp at hl
      rcases hl with h | h | h | h
      · exact Or.inl h
      · exact Or.inr (Or.inl h)
      · exact Or.inr (Or.inr ⟨d, rfl, h⟩)
      · exact Or.inr (Or.inl h)

theorem etLines_none {r : IterationLog} (h : r.errorType = none) : etLines r = [] := by
  unfold etLines
  rw [h]

theorem wordText_ne_empty {e : String} (h : wordText e) : ¬ e = "" :=
  fun he => h.1 (by rw [he])

theorem etLines_some {r : IterationLog} {e : String} (h : r.errorType = some e)
    (he : wordText e) : etLines r = ["- **Error Type**: " ++ e] := by
  unfold etLines
  rw [h]
  simp only [if_neg (wordText_ne_empty he)]

theorem edLines_none {r : IterationLog} (h : r.errorDetail = none) : edLines r = [] := by
  unfold edLines
  rw [h]

theorem safeText_ne_empty {d : String} (h : safeText d) : ¬ d = "" :=
  fun he => h.1 (by rw [he])

theorem edLines_some {r : IterationLog} {d : String} (h : r.errorDetail = some d)
    (hd : safeText d) : edLines r = ["- **Error Detail**:", "```", d, "```"] := by
  unfold edLines
  rw [h]
  simp only [if_neg (safeText_ne_empty hd)]

theorem tokLines_some {r : IterationLog} {u : TokenUsage} (h : r.tokenUsage = some u) :
    tokLines r =
      ["- **Tokens**: " ++ natLocaleStr u.totalTokens ++ " total (" ++
         natLocaleStr u.inputTokens ++ " in, " ++ natLocaleStr u.outputTokens ++ " out, " ++
         natLocaleStr u.cacheCreationTokens ++ " cache-create, " ++
         natLocaleStr u.cacheReadTokens ++ " cache-read)",
       "- **Cost**: $" ++ fixed4 u.costUsd] := by
  unfold tokLines
  rw [h]

/-- The error-type pattern does not fire on a token or cost line. -/
theorem wordCapPat_et_none_tokLines (r : IterationLog) :
    ∀ l ∈ tokLines r, wordCapPat "- **Error Type**: " l = none := by
  intro l hl
  rcases mem_tokLines hl with ⟨u, _, rfl | rfl⟩
  · apply wordCapPat_none
    rw [tokensLine_data u]
    exact containsSub_eq_false_star _ _ _ 2 (by decide) (by decide)
      (tokensTail_star_free u) (by decide)
  · apply wordCapPat_none
    rw [String.data_append]
    exact containsSub_eq_false_star _ _ _ 2 (by decide) (by decide)
      (fixed4_star_free u.costUsd) (by decide)

theorem firstSome_et_block (r : IterationLog) (hwf : WFLog r) (tail : List String)
    (htail : ∀ l ∈ tail, l = "") :
    firstSome (wordCapPat "- **Error Type**: ") (recordLines r ++ tail) = r.errorType := by
  rw [recordLines_eq2]
  rw [firstSome_cons_none (wordCapPat_none
    (not_contains_header _ (by decide) r.iteration r.timestamp hwf.1))]
  rw [firstSome_cons_none (wordCapPat_none (by
    rw [String.data_append]
    exact containsSub_eq_false_star _ _ _ 2 (by decide) (by decide)
      (taskRender_star_free hwf.2.2.2.2.1) (by decide)))]
  rw [firstSome_cons_none (wordCapPat_none (by
    rw [String.data_append]
    exact containsSub_eq_false_star _ _ _ 2 (by decide) (by decide)
      (safe_star_free hwf.2.1) (by decide)))]
  rw [firstSome_cons_none (wordCapPat_none (by
    rw [String.data_append]
    exact containsSub_eq_false_star _ _ _ 2 (by decide) (by decide)
      (safe_star_free hwf.2.2.1) (by decide)))]
  rw [firstSome_cons_none (wordCapPat_none (by
    rw [String.data_append]
    exact containsSub_eq_false_star _ _ _ 2 (by decide) (by decide)
      (word_star_free hwf.2.2.2.1) (by decide)))]
  rw [firstSome_append_none (wordCapPat_et_none_tokLines r)]
  rcases hety : r.errorType with _ | e
  · rw [etLines_none hety, List.nil_append]
    apply firstSome_eq_none
    intro l hl
    rcases List.mem_append.mp hl with h | h
    · rcases mem_edLines h with rfl | rfl | ⟨d, hd, rfl⟩
      · decide
      · decide
      · apply wordCapPat_none
        exact containsSub_eq_false_of_not_mem _ _ '*' (by decide)
          (fun hm => detail_star_free hwf hd '*' hm rfl)
    · rcases List.mem_cons.mp h with rfl | h
      · decide
      · rw [htail l h]; decide
  · have he : wordText e := et_word hwf hety
    rw [etLines_some hety he, List.singleton_append]
    exact firstSome_cons_some (wordCapPat_self _ _ he)

/-- The detail-header pattern does not fire on the five required lines,
token lines, or error-type line. -/
theorem detailHead_false_pre (r : IterationLog) (hwf : WFLog r) :
    ∀ l ∈ (("### Iteration " ++ natRepr r.iteration ++ " - " ++ r.timestamp) ::
      ("- **Task Completed**: " ++ taskRender r.taskCompleted) ::
      ("- **Summary**: " ++ r.summary) ::
      ("- **Duration**: " ++ r.duration) ::
      ("- **Exit Status**: " ++ r.exitStatus) ::
      (tokLines r ++ etLines r)), detailHeadPat l = false := by
  intro l hl
  rcases List.mem_cons.mp hl with rfl | hl
  · exact detailHeadPat_false (not_contains_header _ (by decide) r.iteration r.timestamp hwf.1)
  rcases List.mem_cons.mp hl with rfl | hl
  · apply detailHeadPat_false
    rw [String.data_append]
    exact containsSub_eq_false_star _ _ _ 2 (by decide) (by decide)
      (taskRender_star_free hwf.2.2.2.2.1) (by decide)
  rcases List.mem_cons.mp hl with rfl | hl
  · apply detailHeadPat_false
    rw [String.data_append]
    exact containsSub_eq_false_star _ _ _ 2 (by decide) (by decide)
      (safe_star_free hwf.2.1) (by decide)
  rcases List.mem_cons.mp hl with rfl | hl
  · apply detailHeadPat_false
    rw [String.data_append]
    exact containsSub_eq_false_star _ _ _ 2 (by decide) (by decide)
      (safe_star_free hwf.2.2.1) (by decide)
  rcases List.mem_cons.mp hl with rfl | hl
  · apply detailHeadPat_false
    rw [String.data_append]
    exact containsSub_eq_false_star _ _ _ 2 (by decide) (by decide)
      (word_star_free hwf.2.2.2.1) (by decide)
  rcases List.mem_append.mp hl with h | h
  · rcases mem_tokLines h with ⟨u, _, rfl | rfl⟩
    · apply detailHeadPat_false
      rw [tokensLine_data u]
      exact containsSub_eq_false_star _ _ _ 2 (by decide) (by decide)
        (tokensTail_star_free u) (by decide)
    · apply detailHeadPat_false
      rw [String.data_append]
      exact containsSub_eq_false_star _ _ _ 2 (by decide) (by decide)
        (fixed4_star_free u.costUsd) (by decide)
  · rcases mem_etLines h with ⟨e, hety, rfl⟩
    apply detailHeadPat_false
    rw [String.data_append]
    exact containsSub_eq_false_star _ _ _ 2 (by decide) (by decide)
      (word_star_free (et_word hwf hety)) (by decide)

theorem detailScan_block (r : IterationLog) (hwf : WFLog r) (tail : List String)
    (htail : ∀ l ∈ tail, l = "") :
    detailScan (recordLines r ++ tail) = r.errorDetail := by
  rw [recordLines_eq2]
  rcases hed : r.errorDetail with _ | d
  · apply detailScan_none
    intro l hl
    rcases List.mem_cons.mp hl with rfl | hl
    · exact detailHead_false_pre r hwf _ (List.mem_cons_self _ _)
    rcases List.mem_cons.mp hl with rfl | hl
    · exact detailHead_false_pre r hwf _ (by simp)
    rcases List.mem_cons.mp hl with rfl | hl
    · exact detailHead_false_pre r hwf _ (by simp)
    rcases List.mem_cons.mp hl with rfl | hl
    · exact detailHead_false_pre r hwf _ (by simp)
    rcases List.mem_cons.mp hl with rfl | hl
    · exact detailHead_false_pre r hwf _ (by simp)
    rcases List.mem_append.mp hl with h | h
    · exact detailHead_false_pre r hwf _ (by simp [h])
    rcases List.mem_append.mp h with h2 | h2
    · exact detailHead_false_pre r hwf _ (by simp [h2])
    rcases List.mem_append.mp h2 with h3 | h3
    · rw [edLines_none hed] at h3; simp at h3
    rcases List.mem_cons.mp h3 with rfl | h3
    · decide
    · rw [htail l h3]; decide
  · have hd : safeText d := by
      have h := hwf.2.2.2.2.2.2.1
      rw [hed] at h
      exact h
    rw [edLines_some hed hd]
    have hshape :
        ("### Iteration " ++ natRepr r.iteration ++ " - " ++ r.timestamp) ::
        ("- **Task Completed**: " ++ taskRender r.taskCompleted) ::
        ("- **Summary**: " ++ r.summary) ::
        ("- **Duration**: " ++ r.duration) ::
        ("- **Exit Status**: " ++ r.exitStatus) ::
        (tokLines r ++ (etLines r ++ (["- **Error Detail**:", "```", d, "```"] ++ ("" :: tail))))
        = (("### Iteration " ++ natRepr r.iteration ++ " - " ++ r.timestamp) ::
           ("- **Task Completed**: " ++ taskRender r.taskCompleted) ::
           ("- **Summary**: " ++ r.summary) ::
           ("- **Duration**: " ++ r.duration) ::
           ("- **Exit Status**: " ++ r.exitStatus) ::
           (tokLines r ++ etLines r)) ++
          ("- **Error Detail**:" :: "```" :: d :: "```" :: ("" :: tail)) := by
      simp [List.append_assoc]
    rw [hshape]
    exact detailScan_append _ d _ (detailHead_false_pre r hwf) hd

theorem taskRender_roundtrip {o : Option String} (h : WFOpt taskIdText o) :
    (if taskRender o = "none" then none else some (taskRender o)) = o := by
  cases o with
  | none => rfl
  | some t =>
    have ht : taskIdText t := h
    have hne : ¬ t = "" := fun he => ht.1 (by rw [he])
    have : taskRender (some t) = t := by
      unfold taskRender
      simp only [if_neg hne]
    rw [this, if_neg ht.2.1]

/-- Round trip at the block level: parsing the rendered record of a
well-formed iteration log (followed by blank lines) recovers the log. -/
theorem parseBlock_recordLines (r : IterationLog) (hwf : WFLog r) (tail : List String)
    (htail : ∀ l ∈ tail, l = "") :
    parseBlock (recordLines r ++ tail) = some r := by
  have h1 := firstSome_header_block r hwf tail
  have h2 := firstSome_task_block r hwf tail
  have h3 := firstSome_summary_block r hwf tail
  have h4 := firstSome_duration_block r hwf tail
  have h5 := firstSome_status_block r hwf tail
  have h6 := firstSome_et_block r hwf tail htail
  have h7 := detailScan_block r hwf tail htail
  have htr := taskRender_roundtrip hwf.2.2.2.2.1
  have hts := hwf.1.2.1
  have hsm := hwf.2.1.2.1
  have hdu := hwf.2.2.1.2.1
  obtain ⟨it, ts, tc, sm, du, st, et, ed, tu⟩ := r
  simp only at h1 h2 h3 h4 h5 h6 h7 htr hts hsm hdu
  rcases tu with _ | u
  · have h8 := firstSome_tokens_block_none _ hwf tail htail rfl
    simp only [parseBlock, h1, h2, h3, h4, h5, h6, h7, h8, Option.map_none]
    rw [hts, hsm, hdu, htr]
    rfl
  · have h8 := firstSome_tokens_block_some _ hwf tail rfl
    have h9 := firstSome_cost_block_some _ hwf tail rfl
    simp only at h8 h9
    simp only [parseBlock, h1, h2, h3, h4, h5, h6, h7, h8, h9, Option.map_some]
    rw [hts, hsm, hdu, htr]
    rfl

/-! ### Hash-freeness of rendered fields (for the block-marker analysis) -/

theorem digit_ne_hash {ch : Char} (h : ch.isDigit = true) : ch ≠ '#' :=
  fun he => by rw [he] at h; exact absurd h (by decide)

theorem natRepr_star_free (n : ℕ) : ∀ ch ∈ (natRepr n).data, ch ≠ '*' :=
  fun ch hch => digit_ne_star (natRepr_data_digits n ch hch)

theorem natRepr_hash_free (n : ℕ) : ∀ ch ∈ (natRepr n).data, ch ≠ '#' :=
  fun ch hch => digit_ne_hash (natRepr_data_digits n ch hch)

theorem intRepr_chars (z : ℤ) : ∀ ch ∈ (intRepr z).data, ch.isDigit = true ∨ ch = '-' := by
  intro ch hch
  unfold intRepr at hch
  by_cases hz : z < 0
  · rw [if_pos hz] at hch
    rw [String.data_append] at hch
    rcases List.mem_append.mp hch with h | h
    · right
      simpa using h
    · exact Or.inl (natRepr_data_digits _ ch h)
  · rw [if_neg hz] at hch
    exact Or.inl (natRepr_data_digits _ ch hch)

theorem intRepr_star_free (z : ℤ) : ∀ ch ∈ (intRepr z).data, ch ≠ '*' := by
  intro ch hch he
  rcases intRepr_chars z ch hch with h | h
  · rw [he] at h; exact absurd h (by decide)
  · rw [he] at h; exact absurd h (by decide)

theorem intRepr_hash_free (z : ℤ) : ∀ ch ∈ (intRepr z).data, ch ≠ '#' := by
  intro ch hch he
  rcases intRepr_chars z ch hch with h | h
  · rw [he] at h; exact absurd h (by decide)
  · rw [he] at h; exact absurd h (by decide)

theorem natLocale_hash_free (m : ℕ) : ∀ ch ∈ (natLocaleStr m).data, ch ≠ '#' := by
  intro ch hch he
  rcases natLocaleStr_chars m ch hch with h | h
  · rw [he] at h; exact absurd h (by decide)
  · rw [he] at h; exact absurd h (by decide)

theorem fixed4_hash_free (q : ℚ) : ∀ ch ∈ (fixed4 q).data, ch ≠ '#' := by
  intro ch hch he
  have := fixed4_chars q ch hch
  rw [he] at this
  exact absurd this (by decide)

theorem safe_hash_free {v : String} (h : safeText v) : ∀ ch ∈ v.data, ch ≠ '#' :=
  safe_ne_hash h

theorem word_hash_free {v : String} (h : wordText v) : ∀ ch ∈ v.data, ch ≠ '#' :=
  word_ne_hash h

theorem taskRender_hash_free {o : Option String} (h : WFOpt taskIdText o) :
    ∀ ch ∈ (taskRender o).data, ch ≠ '#' := by
  intro ch hch
  have := (taskRender_wordDash h).2 ch hch
  intro he
  rw [he] at this
  exact absurd this (by decide)

theorem hash_free_append {l1 l2 : List Char}
    (h1 : ∀ ch ∈ l1, ch ≠ '#') (h2 : ∀ ch ∈ l2, ch ≠ '#') :
    ∀ ch ∈ l1 ++ l2, ch ≠ '#' := by
  intro ch hch
  rcases List.mem_append.mp hch with h | h
  · exact h1 ch h
  · exact h2 ch h

/-- No block marker on a line whose text is hash-free. -/
theorem isBlockMarker_false_of_hash_free {line : String}
    (h : ∀ ch ∈ line.data, ch ≠ '#') : isBlockMarker line = false := by
  apply isBlockMarker_false
  exact containsSub_eq_false_of_not_mem _ _ '#' (by decide) (fun hm => h '#' hm rfl)

theorem tokensTail_hash_free (u : TokenUsage) :
    ∀ ch ∈ (natLocaleStr u.totalTokens ++ " total (" ++
      natLocaleStr u.inputTokens ++ " in, " ++ natLocaleStr u.outputTokens ++ " out, " ++
      natLocaleStr u.cacheCreationTokens ++ " cache-create, " ++
      natLocaleStr u.cacheReadTokens ++ " cache-read)").data, ch ≠ '#' := by
  simp only [String.data_append]
  apply hash_free_append
  apply hash_free_append
  apply hash_free_append
  apply hash_free_append
  apply hash_free_append
  apply hash_free_append
  apply hash_free_append
  apply hash_free_append
  apply hash_free_append
  · exact natLocale_hash_free _
  · decide
  · exact natLocale_hash_free _
  · decide
  · exact natLocale_hash_free _
  · decide
  · exact natLocale_hash_free _
  · decide
  · exact natLocale_hash_free _
  · decide

/-! ### Generic take/drop helpers over lists of lines -/

theorem takeWhile_append_stop {α : Type} {p : α → Bool} {l1 l2 : List α}
    (h1 : ∀ a ∈ l1, p a = true) (h2 : ∀ b, l2.head? = some b → p b = false) :
    (l1 ++ l2).takeWhile p = l1 := by
  induction l1 with
  | nil =>
    simp only [List.nil_append]
    cases l2 with
    | nil => rfl
    | cons b t =>
      rw [List.takeWhile_cons, h2 b rfl]
      simp
  | cons a l ih =>
    rw [List.cons_append, List.takeWhile_cons, h1 a (List.mem_cons_self a l)]
    simp only [if_true]
    rw [ih (fun x hx => h1 x (List.mem_cons_of_mem a hx))]

theorem dropWhile_append_stop {α : Type} {p : α → Bool} {l1 l2 : List α}
    (h1 : ∀ a ∈ l1, p a = true) (h2 : ∀ b, l2.head? = some b → p b = false) :
    (l1 ++ l2).dropWhile p = l2 := by
  induction l1 with
  | nil =>
    simp only [List.nil_append]
    cases l2 with
    | nil => rfl
    | cons b t =>
      rw [List.dropWhile_cons, h2 b rfl]
      simp
  | cons a l ih =>
    rw [List.cons_append, List.dropWhile_cons, h1 a (List.mem_cons_self a l)]
    simp only [if_true]
    exact ih fun x hx => h1 x (List.mem_cons_of_mem a hx)

theorem takeWhile_of_all {α : Type} {p : α → Bool} {l : List α}
    (h : ∀ a ∈ l, p a = true) : l.takeWhile p = l := by
  induction l with
  | nil => rfl
  | cons a t ih =>
    rw [List.takeWhile_cons, h a (List.mem_cons_self a t)]
    simp only [if_true]
    rw [ih fun x hx => h x (List.mem_cons_of_mem a hx)]

theorem dropWhile_of_all {α : Type} {p : α → Bool} {l : List α}
    (h : ∀ a ∈ l, p a = true) : l.dropWhile p = [] := by
  induction l with
  | nil => rfl
  | cons a t ih =>
    rw [List.dropWhile_cons, h a (List.mem_cons_self a t)]
    simp only [if_true]
    exact ih fun x hx => h x (List.mem_cons_of_mem a hx)

/-! ### Block structure of the rendered ledger -/

theorem recordLines_cons (r : IterationLog) :
    recordLines r =
      ("### Iteration " ++ natRepr r.iteration ++ " - " ++ r.timestamp) ::
      (("- **Task Completed**: " ++ taskRender r.taskCompleted) ::
       ("- **Summary**: " ++ r.summary) ::
       ("- **Duration**: " ++ r.duration) ::
       ("- **Exit Status**: " ++ r.exitStatus) ::
       (tokLines r ++ (etLines r ++ (edLines r ++ ("" :: []))))) := by
  have h := recordLines_eq2 r []
  rwa [List.append_nil] at h

theorem isBlockMarker_headerLine (r : IterationLog) :
    isBlockMarker ("### Iteration " ++ natRepr r.iteration ++ " - " ++ r.timestamp) = true := by
  obtain ⟨d, ds, hd⟩ : ∃ d ds, (natRepr r.iteration).data = d :: ds := by
    cases h : (natRepr r.iteration).data with
    | nil => exact absurd h (natRepr_ne_nil _)
    | cons d ds => exact ⟨d, ds, rfl⟩
  have hdig : d.isDigit = true :=
    natRepr_data_digits r.iteration d (by rw [hd]; exact List.mem_cons_self d ds)
  unfold isBlockMarker
  have hdata : ("### Iteration " ++ natRepr r.iteration ++ " - " ++ r.timestamp).data
      = "### Iteration ".data ++ (d :: (ds ++ (' ' :: '-' :: ' ' :: r.timestamp.data))) := by
    simp [String.data_append, hd]
  rw [hdata, scanFor_head _ _ (by
    rw [litThen_self]
    show (if d.isDigit then (some () : Option Unit) else none) = some ()
    rw [if_pos hdig])]
  rfl

theorem detail_safe {r : IterationLog} (hwf : WFLog r) {d : String}
    (hd : r.errorDetail = some d) : safeText d := by
  have h := hwf.2.2.2.2.2.2.1
  rw [hd] at h
  exact h

/-- Every line of a rendered record except the block header carries no `#`
character, hence is not a block marker. -/
theorem recordTail_not_marker (r : IterationLog) (hwf : WFLog r) :
    ∀ l ∈ (("- **Task Completed**: " ++ taskRender r.taskCompleted) ::
       ("- **Summary**: " ++ r.summary) ::
       ("- **Duration**: " ++ r.duration) ::
       ("- **Exit Status**: " ++ r.exitStatus) ::
       (tokLines r ++ (etLines r ++ (edLines r ++ ("" :: []))))),
      isBlockMarker l = false := by
  intro l hl
  apply isBlockMarker_false_of_hash_free
  rcases List.mem_cons.mp hl with rfl | hl
  · rw [String.data_append]
    exact hash_free_append (by decide) (taskRender_hash_free hwf.2.2.2.2.1)
  rcases List.mem_cons.mp hl with rfl | hl
  · rw [String.data_append]
    exact hash_free_append (by decide) (safe_hash_free hwf.2.1)
  rcases List.mem_cons.mp hl with rfl | hl
  · rw [String.data_append]
    exact hash_free_append (by decide) (safe_hash_free hwf.2.2.1)
  rcases List.mem_cons.mp hl with rfl | hl
  · rw [String.data_append]
    exact hash_free_append (by decide) (word_hash_free hwf.2.2.2.1)
  rcases List.mem_append.mp hl with h | h
  · rcases mem_tokLines h with ⟨u, _, rfl | rfl⟩
    · rw [tokensLine_data u]
      exact hash_free_append (by decide) (tokensTail_hash_free u)
    · rw [String.data_append]
      exact hash_free_append (by decide) (fixed4_hash_free u.costUsd)
  rcases List.mem_append.mp h with h2 | h2
  · rcases mem_etLines h2 with ⟨e, hety, rfl⟩
    rw [String.data_append]
    exact hash_free_append (by decide) (word_hash_free (et_word hwf hety))
  rcases List.mem_append.mp h2 with h3 | h3
  · rcases mem_edLines h3 with rfl | rfl | ⟨d, hd, rfl⟩
    · decide
    · decide
    · exact safe_hash_free (detail_safe hwf hd)
  rcases List.mem_cons.mp h3 with rfl | h3
  · decide
  · simp at h3

theorem splitBlocksF_nil (f : ℕ) : splitBlocksF f [] = [] := by
  cases f with
  | zero => rfl
  | succ m => rfl

/-- Chunking the flattened records (followed by the final blank line) at the
block markers and parsing each chunk recovers the record list. -/
theorem filterMap_splitBlocksF (iters : List IterationLog) :
    ∀ n, (∀ r ∈ iters, WFLog r) → iters ≠ [] →
      ((iters.map recordLines).flatten ++ [""]).length ≤ n →
      (splitBlocksF n ((iters.map recordLines).flatten ++ [""])).filterMap parseBlock
        = iters := by
  induction iters with
  | nil =>
    intro n _ hne _
    exact absurd rfl hne
  | cons r rs ih =>
    intro n hwf _ hn
    have hwfr : WFLog r := hwf r (List.mem_cons_self r rs)
    cases n with
    | zero =>
      exfalso
      simp only [List.map_cons, List.flatten_cons, List.length_append,
        List.length_cons] at hn
      have := hn
      rw [recordLines_cons r] at this
      simp only [List.length_cons] at this
      omega
    | succ m =>
      rw [List.map_cons, List.flatten_cons, List.append_assoc, recordLines_cons r,
        List.cons_append]
      simp only [splitBlocksF]
      rcases rs with _ | ⟨r2, rs2⟩
      · simp only [List.map_nil, List.flatten_nil, List.nil_append]
        rw [takeWhile_of_all (by
          intro a ha
          rcases List.mem_append.mp ha with h | h
          · simp [recordTail_not_marker r hwfr a h]
          · rcases List.mem_cons.mp h with rfl | h
            · decide
            · simp at h)]
        rw [dropWhile_of_all (by
          intro a ha
          rcases List.mem_append.mp ha with h | h
          · simp [recordTail_not_marker r hwfr a h]
          · rcases List.mem_cons.mp h with rfl | h
            · decide
            · simp at h)]
        rw [splitBlocksF_nil]
        have hb := parseBlock_recordLines r hwfr [""] (by
          intro l hl
          rcases List.mem_cons.mp hl with rfl | hl
          · rfl
          · simp at hl)
        rw [recordLines_eq2 r [""]] at hb
        simp [List.filterMap_cons, hb]
      · have hrest : ((r2 :: rs2).map recordLines).flatten ++ [""]
            = ("### Iteration " ++ natRepr r2.iteration ++ " - " ++ r2.timestamp) ::
              ((("- **Task Completed**: " ++ taskRender r2.taskCompleted) ::
                ("- **Summary**: " ++ r2.summary) ::
                ("- **Duration**: " ++ r2.duration) ::
                ("- **Exit Status**: " ++ r2.exitStatus) ::
                (tokLines r2 ++ (etLines r2 ++ (edLines r2 ++ ("" :: []))))) ++
               ((rs2.map recordLines).flatten ++ [""])) := by
          rw [List.map_cons, List.flatten_cons, List.append_assoc, recordLines_cons r2,
            List.cons_append]
        rw [takeWhile_append_stop (by
            intro a ha
            simp [recordTail_not_marker r hwfr a ha])
          (by
            intro b hb
            rw [hrest] at hb
            simp only [List.head?_cons, Option.some.injEq] at hb
            rw [← hb]
            simp [isBlockMarker_headerLine r2])]
        rw [dropWhile_append_stop (by
            intro a ha
            simp [recordTail_not_marker r hwfr a ha])
          (by
            intro b hb
            rw [hrest] at hb
            simp only [List.head?_cons, Option.some.injEq] at hb
            rw [← hb]
            simp [isBlockMarker_headerLine r2])]
        have hb : parseBlock
            (("### Iteration " ++ natRepr r.iteration ++ " - " ++ r.timestamp) ::
             (("- **Task Completed**: " ++ taskRender r.taskCompleted) ::
              ("- **Summary**: " ++ r.summary) ::
              ("- **Duration**: " ++ r.duration) ::
              ("- **Exit Status**: " ++ r.exitStatus) ::
              (tokLines r ++ (etLines r ++ (edLines r ++ ("" :: []))))))
            = some r := by
          have h := parseBlock_recordLines r hwfr [] (by intro l hl; simp at hl)
          rw [List.append_nil, recordLines_cons r] at h
          exact h
        rw [List.filterMap_cons, hb]
        have hlen : (((r2 :: rs2).map recordLines).flatten ++ [""]).length ≤ m := by
          simp only [List.map_cons, List.flatten_cons, List.length_append,
            List.length_cons] at hn ⊢
          rw [recordLines_cons r] at hn
          simp only [List.length_cons] at hn
          simp only [List.map_cons, List.flatten_cons, List.length_append] at hn
          omega
        rw [ih m (fun x hx => hwf x (List.mem_cons_of_mem r hx))
          (List.cons_ne_nil r2 rs2) hlen]

/-- No line of the summary prelude is a block marker. -/
theorem prelude_not_marker (now : String) (hnow : safeText now) (t c : ℕ) :
    ∀ l ∈ (["# DevLoop Progress Log", "", "## Summary",
      "- **Total Tasks**: " ++ natRepr t,
      "- **Completed**: " ++ natRepr c,
      "- **Remaining**: " ++ intRepr ((t : ℤ) - (c : ℤ)),
      "- **Last Updated**: " ++ now,
      "", "## Iteration Log", ""] : List String), isBlockMarker l = false := by
  intro l hl
  rcases List.mem_cons.mp hl with rfl | hl
  · decide
  rcases List.mem_cons.mp hl with rfl | hl
  · decide
  rcases List.mem_cons.mp hl with rfl | hl
  · decide
  rcases List.mem_cons.mp hl with rfl | hl
  · apply isBlockMarker_false_of_hash_free
    rw [String.data_append]
    exact hash_free_append (by decide) (natRepr_hash_free t)
  rcases List.mem_cons.mp hl with rfl | hl
  · apply isBlockMarker_false_of_hash_free
    rw [String.data_append]
    exact hash_free_append (by decide) (natRepr_hash_free c)
  rcases List.mem_cons.mp hl with rfl | hl
  · apply isBlockMarker_false_of_hash_free
    rw [String.data_append]
    exact hash_free_append (by decide) (intRepr_hash_free _)
  rcases List.mem_cons.mp hl with rfl | hl
  · apply isBlockMarker_false_of_hash_free
    rw [String.data_append]
    exact hash_free_append (by decide) (safe_hash_free hnow)
  rcases List.mem_cons.mp hl with rfl | hl
  · decide
  rcases List.mem_cons.mp hl with rfl | hl
  · decide
  rcases List.mem_cons.mp hl with rfl | hl
  · decide
  · simp at hl

/-- Splitting the rendered ledger at the block markers and parsing each
block recovers exactly the rendered records. -/
theorem splitBlocks_generate (now : String) (hnow : safeText now) (t c : ℕ)
    (iters : List IterationLog) (hwf : ∀ r ∈ iters, WFLog r) :
    (splitBlocks (generateProgressLines now t c iters)).filterMap parseBlock = iters := by
  simp only [splitBlocks, generateProgressLines]
  rw [List.append_assoc]
  rw [show (["# DevLoop Progress Log", "", "## Summary",
      "- **Total Tasks**: " ++ natRepr t,
      "- **Completed**: " ++ natRepr c,
      "- **Remaining**: " ++ intRepr ((t : ℤ) - (c : ℤ)),
      "- **Last Updated**: " ++ now,
      "", "## Iteration Log", ""] ++ ((iters.map recordLines).flatten ++ [""])).head?
      = some "# DevLoop Progress Log" from rfl]
  simp only [show isBlockMarkerAt0 "# DevLoop Progress Log" = false from by decide,
    Bool.false_eq_true, if_false]
  rcases iters with _ | ⟨r, rs⟩
  · simp only [List.map_nil, List.flatten_nil, List.nil_append]
    rw [dropWhile_of_all (by
      intro a ha
      simp [prelude_not_marker now hnow t c a (by
        rcases List.mem_append.mp ha with h | h
        · exact h
        · rcases List.mem_cons.mp h with rfl | h
          · simp
          · simp at h)])]
    rw [splitBlocksF_nil]
    rfl
  · have hwfr : WFLog r := hwf r (List.mem_cons_self r rs)
    have hflat : ((r :: rs).map recordLines).flatten ++ [""]
        = ("### Iteration " ++ natRepr r.iteration ++ " - " ++ r.timestamp) ::
          ((("- **Task Completed**: " ++ taskRender r.taskCompleted) ::
            ("- **Summary**: " ++ r.summary) ::
            ("- **Duration**: " ++ r.duration) ::
            ("- **Exit Status**: " ++ r.exitStatus) ::
            (tokLines r ++ (etLines r ++ (edLines r ++ ("" :: []))))) ++
           ((rs.map recordLines).flatten ++ [""])) := by
      rw [List.map_cons, List.flatten_cons, List.append_assoc, recordLines_cons r,
        List.cons_append]
    rw [dropWhile_append_stop (by
        intro a ha
        simp [prelude_not_marker now hnow t c a ha])
      (by
        intro b hb
        rw [hflat] at hb
        simp only [List.head?_cons, Option.some.injEq] at hb
        rw [← hb]
        simp [isBlockMarker_headerLine r])]
    exact filterMap_splitBlocksF (r :: rs) _ hwf (List.cons_ne_nil r rs) le_rfl

/-! ### Summary counters of the rendered ledger -/

theorem total_generate (now : String) (t c : ℕ) (iters : List IterationLog) :
    firstSome (natLabelPat "**Total Tasks**:") (generateProgressLines now t c iters)
      = some t := by
  simp only [generateProgressLines, List.cons_append, List.nil_append]
  rw [firstSome_cons_none (by decide), firstSome_cons_none (by decide),
    firstSome_cons_none (by decide)]
  apply firstSome_cons_some
  rw [show ("- **Total Tasks**: " ++ natRepr t)
      = ("- " ++ "**Total Tasks**:" ++ " " ++ natRepr t) from rfl]
  exact natLabelPat_self "**Total Tasks**:" t rfl (by decide) (by decide)

theorem completed_generate (now : String) (t c : ℕ) (iters : List IterationLog) :
    firstSome (natLabelPat "**Completed**:") (generateProgressLines now t c iters)
      = some c := by
  simp only [generateProgressLines, List.cons_append, List.nil_append]
  rw [firstSome_cons_none (by decide), firstSome_cons_none (by decide),
    firstSome_cons_none (by decide)]
  rw [firstSome_cons_none (natLabelPat_none (by
    rw [String.data_append]
    exact containsSub_eq_false_star _ _ _ 0 (by decide) (by decide)
      (natRepr_star_free t) (by decide)))]
  apply firstSome_cons_some
  rw [show ("- **Completed**: " ++ natRepr c)
      = ("- " ++ "**Completed**:" ++ " " ++ natRepr c) from rfl]
  exact natLabelPat_self "**Completed**:" c rfl (by decide) (by decide)

theorem intRepr_nonneg {z : ℤ} (h : 0 ≤ z) : intRepr z = natRepr z.toNat := by
  unfold intRepr
  rw [if_neg (not_lt.mpr h)]

theorem remaining_generate_le (now : String) (t c : ℕ) (hc : c ≤ t)
    (iters : List IterationLog) :
    firstSome (natLabelPat "**Remaining**:") (generateProgressLines now t c iters)
      = some (t - c) := by
  simp only [generateProgressLines, List.cons_append, List.nil_append]
  rw [firstSome_cons_none (by decide), firstSome_cons_none (by decide),
    firstSome_cons_none (by decide)]
  rw [firstSome_cons_none (natLabelPat_none (by
    rw [String.data_append]
    exact containsSub_eq_false_star _ _ _ 0 (by decide) (by decide)
      (natRepr_star_free t) (by decide)))]
  rw [firstSome_cons_none (natLabelPat_none (by
    rw [String.data_append]
    exact containsSub_eq_false_star _ _ _ 0 (by decide) (by decide)
      (natRepr_star_free c) (by decide)))]
  apply firstSome_cons_some
  have hz : (0 : ℤ) ≤ (t : ℤ) - (c : ℤ) := by
    omega
  have htn : ((t : ℤ) - (c : ℤ)).toNat = t - c := by
    omega
  rw [intRepr_nonneg hz, htn]
  rw [show ("- **Remaining**: " ++ natRepr (t - c))
      = ("- " ++ "**Remaining**:" ++ " " ++ natRepr (t - c)) from rfl]
  exact natLabelPat_self "**Remaining**:" (t - c) rfl (by decide) (by decide)

/-- The `Remaining` counter pattern does not fire on the rendered
`Remaining` line when the rendered value is negative: `parseInt` expects at
least one digit, but the text after the label starts with a minus sign, and
the label does not recur. -/
theorem natLabelPat_remaining_neg (z : ℤ) (hz : z < 0) :
    natLabelPat "**Remaining**:" ("- **Remaining**: " ++ intRepr z) = none := by
  unfold natLabelPat
  have hdata : ("- **Remaining**: " ++ intRepr z).data
      = '-' :: ' ' :: '*' :: '*' :: 'R' :: 'e' :: 'm' :: 'a' :: 'i' :: 'n' :: 'i' :: 'n' ::
        'g' :: '*' :: '*' :: ':' :: ' ' :: '-' :: (natRepr z.natAbs).data := by
    rw [intRepr, if_pos hz]
    rfl
  rw [hdata]
  rw [scanFor_cons_of_none _ _ _ (litThen_of_chPre_false _
    (by rw [show "**Remaining**:".data = '*' :: "*Remaining**:".data from rfl]
        exact chPre_cons_ne (by decide)))]
  rw [scanFor_cons_of_none _ _ _ (litThen_of_chPre_false _
    (by rw [show "**Remaining**:".data = '*' :: "*Remaining**:".data from rfl]
        exact chPre_cons_ne (by decide)))]
  rw [scanFor_cons_of_none _ _ _ (by
    rw [show ('*' :: '*' :: 'R' :: 'e' :: 'm' :: 'a' :: 'i' :: 'n' :: 'i' :: 'n' ::
        'g' :: '*' :: '*' :: ':' :: ' ' :: '-' :: (natRepr z.natAbs).data)
        = "**Remaining**:".data ++ (' ' :: '-' :: (natRepr z.natAbs).data) from rfl]
    rw [litThen_self]
    simp only []
    rw [wsDrop_cons_space]
    rw [wsDrop_of_head_not_ws (by
      intro b hb
      simp only [List.head?_cons, Option.some.injEq] at hb
      rw [← hb]
      decide)]
    rw [List.takeWhile_cons]
    simp)]
  apply scanFor_eq_none _ "**Remaining**:".data (fun _ hs => litThen_isSome hs)
  rw [show ('*' :: 'R' :: 'e' :: 'm' :: 'a' :: 'i' :: 'n' :: 'i' :: 'n' ::
      'g' :: '*' :: '*' :: ':' :: ' ' :: '-' :: (natRepr z.natAbs).data)
      = "*Remaining**: -".data ++ (natRepr z.natAbs).data from rfl]
  exact containsSub_eq_false_star _ _ _ 0 (by decide) (by decide)
    (natRepr_star_free _) (by decide)

theorem lastUpdated_generate (now : String) (hnow : safeText now) (t c : ℕ)
    (iters : List IterationLog) :
    firstSome (textLabelPat "**Last Updated**:") (generateProgressLines now t c iters)
      = some now := by
  simp only [generateProgressLines, List.cons_append, List.nil_append]
  rw [firstSome_cons_none (by decide), firstSome_cons_none (by decide),
    firstSome_cons_none (by decide)]
  rw [firstSome_cons_none (textLabelPat_none (by
    rw [String.data_append]
    exact containsSub_eq_false_star _ _ _ 0 (by decide) (by decide)
      (natRepr_star_free t) (by decide)))]
  rw [firstSome_cons_none (textLabelPat_none (by
    rw [String.data_append]
    exact containsSub_eq_false_star _ _ _ 0 (by decide) (by decide)
      (natRepr_star_free c) (by decide)))]
  rw [firstSome_cons_none (textLabelPat_none (by
    rw [String.data_append]
    exact containsSub_eq_false_star _ _ _ 0 (by decide) (by decide)
      (intRepr_star_free _) (by decide)))]
  apply firstSome_cons_some
  rw [show ("- **Last Updated**: " ++ now)
      = ("- " ++ "**Last Updated**:" ++ " " ++ now) from rfl]
  exact textLabelPat_self "**Last Updated**:" now rfl (by decide) (by decide) hnow

theorem natLabelPat_remaining_record (r : IterationLog) (hwf : WFLog r) :
    ∀ l ∈ recordLines r, natLabelPat "**Remaining**:" l = none := by
  intro l hl
  rw [recordLines_cons r] at hl
  rcases List.mem_cons.mp hl with rfl | hl
  · exact natLabelPat_none (not_contains_header _ (by decide) r.iteration r.timestamp hwf.1)
  rcases List.mem_cons.mp hl with rfl | hl
  · exact natLabelPat_none (by
      rw [String.data_append]
      exact containsSub_eq_false_star _ _ _ 0 (by decide) (by decide)
        (taskRender_star_free hwf.2.2.2.2.1) (by decide))
  rcases List.mem_cons.mp hl with rfl | hl
  · exact natLabelPat_none (by
      rw [String.data_append]
      exact containsSub_eq_false_star _ _ _ 0 (by decide) (by decide)
        (safe_star_free hwf.2.1) (by decide))
  rcases List.mem_cons.mp hl with rfl | hl
  · exact natLabelPat_none (by
      rw [String.data_append]
      exact containsSub_eq_false_star _ _ _ 0 (by decide) (by decide)
        (safe_star_free hwf.2.2.1) (by decide))
  rcases List.mem_cons.mp hl with rfl | hl
  · exact natLabelPat_none (by
      rw [String.data_append]
      exact containsSub_eq_false_star _ _ _ 0 (by decide) (by decide)
        (word_star_free hwf.2.2.2.1) (by decide))
  rcases List.mem_append.mp hl with h | h
  · rcases mem_tokLines h with ⟨u, _, rfl | rfl⟩
    · exact natLabelPat_none (by
        rw [tokensLine_data u]
        exact containsSub_eq_false_star _ _ _ 0 (by decide) (by decide)
          (tokensTail_star_free u) (by decide))
    · exact natLabelPat_none (by
        rw [String.data_append]
        exact containsSub_eq_false_star _ _ _ 0 (by decide) (by decide)
          (fixed4_star_free u.costUsd) (by decide))
  rcases List.mem_append.mp h with h2 | h2
  · rcases mem_etLines h2 with ⟨e, hety, rfl⟩
    exact natLabelPat_none (by
      rw [String.data_append]
      exact containsSub_eq_false_star _ _ _ 0 (by decide) (by decide)
        (word_star_free (et_word hwf hety)) (by decide))
  rcases List.mem_append.mp h2 with h3 | h3
  · rcases mem_edLines h3 with rfl | rfl | ⟨d, hd, rfl⟩
    · decide
    · decide
    · exact natLabelPat_none (containsSub_eq_false_of_not_mem _ _ '*' (by decide)
        (fun hm => safe_ne_star (detail_safe hwf hd) '*' hm rfl))
  rcases List.mem_cons.mp h3 with rfl | h3
  · decide
  · simp at h3

/-- When `completedCount` exceeds `totalTasks`, the rendered `Remaining`
value is negative and the counter pattern finds no digit match anywhere in
the ledger. -/
theorem remaining_generate_lt (now : String) (hnow : safeText now) (t c : ℕ) (hc : t < c)
    (iters : List IterationLog) (hwf : ∀ r ∈ iters, WFLog r) :
    firstSome (natLabelPat "**Remaining**:") (generateProgressLines now t c iters)
      = none := by
  simp only [generateProgressLines, List.cons_append, List.nil_append]
  rw [firstSome_cons_none (by decide), firstSome_cons_none (by decide),
    firstSome_cons_none (by decide)]
  rw [firstSome_cons_none (natLabelPat_none (by
    rw [String.data_append]
    exact containsSub_eq_false_star _ _ _ 0 (by decide) (by decide)
      (natRepr_star_free t) (by decide)))]
  rw [firstSome_cons_none (natLabelPat_none (by
    rw [String.data_append]
    exact containsSub_eq_false_star _ _ _ 0 (by decide) (by decide)
      (natRepr_star_free c) (by decide)))]
  rw [firstSome_cons_none (natLabelPat_remaining_neg _ (by
    have : (t : ℤ) < (c : ℤ) := by exact_mod_cast hc
    omega))]
  rw [firstSome_cons_none (natLabelPat_none (by
    rw [String.data_append]
    exact containsSub_eq_false_star _ _ _ 0 (by decide) (by decide)
      (safe_star_free hnow) (by decide)))]
  rw [firstSome_cons_none (by decide), firstSome_cons_none (by decide),
    firstSome_cons_none (by decide)]
  apply firstSome_eq_none
  intro l hl
  rcases List.mem_append.mp hl with h | h
  · rcases List.mem_flatten.mp h with ⟨ls, hls, hl2⟩
    rcases List.mem_map.mp hls with ⟨r, hr, rfl⟩
    exact natLabelPat_remaining_record r (hwf r hr) l hl2
  · rcases List.mem_cons.mp h with rfl | h
    · decide
    · simp at h

/-- Whole-ledger round trip when the rendered `Remaining` value is
nonnegative. -/
theorem parseProgress_generate_le (now now2 : String) (hnow : safeText now)
    (t c : ℕ) (hc : c ≤ t) (iters : List IterationLog)
    (hwf : ∀ r ∈ iters, WFLog r) :
    parseProgressLines (generateProgressLines now t c iters) now2 =
      { totalTasks := t, completed := c, remaining := ((t - c : ℕ) : ℤ),
        lastUpdated := now, iterations := iters } := by
  unfold parseProgressLines
  rw [total_generate, completed_generate, remaining_generate_le now t c hc,
    lastUpdated_generate now hnow, splitBlocks_generate now hnow t c iters hwf]
  simp only [Option.getD_some]
  rw [hnow.2.1, if_neg (safeText_ne_empty hnow)]

/-- Whole-ledger round trip when `completed` exceeds `totalTasks`: the
renderer writes a negative `Remaining`, which the parser cannot read back,
so the reparsed `remaining` falls back to the default `0`. -/
theorem parseProgress_generate_lt (now now2 : String) (hnow : safeText now)
    (t c : ℕ) (hc : t < c) (iters : List IterationLog)
    (hwf : ∀ r ∈ iters, WFLog r) :
    parseProgressLines (generateProgressLines now t c iters) now2 =
      { totalTasks := t, completed := c, remaining := 0,
        lastUpdated := now, iterations := iters } := by
  unfold parseProgressLines
  rw [total_generate, completed_generate, remaining_generate_lt now hnow t c hc iters hwf,
    lastUpdated_generate now hnow, splitBlocks_generate now hnow t c iters hwf]
  simp only [Option.getD_some, Option.getD_none]
  rw [hnow.2.1, if_neg (safeText_ne_empty hnow)]
  rfl

/-! ### The append sequence and its ledger invariant -/

/-- `writeProgress` (progress.ts lines 126–133): the rendered file content
of a `Progress` value; `remaining` and `lastUpdated` are not inputs of the
renderer. -/
def writeProgressLines (now : String) (p : Progress) : List String :=
  generateProgressLines now p.totalTasks p.completed p.iterations

/-- The increment `appendIteration` applies to `completed`. -/
def succIncr (r : IterationLog) : ℕ :=
  if r.exitStatus = "success" ∧ jsTruthy r.taskCompleted then 1 else 0

theorem countSuccess_nil : countSuccess [] = 0 := rfl

theorem countSuccess_cons (r : IterationLog) (l : List IterationLog) :
    countSuccess (r :: l) = succIncr r + countSuccess l := by
  unfold countSuccess succIncr
  rw [List.filter_cons]
  by_cases h : r.exitStatus = "success" ∧ jsTruthy r.taskCompleted
  · rw [if_pos (by simpa using h), if_pos h]
    simp [Nat.add_comm]
  · rw [if_neg (by simpa using h), if_neg h]
    simp

/-- One `appendIteration` step on a rendered ledger: the stored
`totalTasks` is reused and the `totalTasks` argument of the call is
ignored.  No relation between `completed` and `totalTasks` is needed: the
renderer takes only `totalTasks`, `completed` and the records, so the
reparsed `remaining` (`t - c`, or the default `0` after an overshoot)
never reaches the output. -/
theorem appendIterationLines_step (now m : String) (hnow : safeText now)
    (t c : ℕ) (iters : List IterationLog)
    (hwf : ∀ r ∈ iters, WFLog r) (t2 : ℕ) (r : IterationLog) :
    appendIterationLines (some (generateProgressLines now t c iters)) m t2 r
      = generateProgressLines m t (c + succIncr r) (iters ++ [r]) := by
  simp only [appendIterationLines]
  rcases le_or_lt c t with hc | hc
  · rw [parseProgress_generate_le now m hnow t c hc iters hwf]
    simp only [pushIteration, succIncr]
    by_cases hs : r.exitStatus = "success" ∧ jsTruthy r.taskCompleted
    · rw [if_pos hs, if_pos hs]
    · rw [if_neg hs, if_neg hs]
      simp
  · rw [parseProgress_generate_lt now m hnow t c hc iters hwf]
    simp only [pushIteration, succIncr]
    by_cases hs : r.exitStatus = "success" ∧ jsTruthy r.taskCompleted
    · rw [if_pos hs, if_pos hs]
    · rw [if_neg hs, if_neg hs]
      simp

/-- The first `appendIteration` call, with no ledger file present,
initializes the ledger from the call's `totalTasks` argument. -/
theorem appendIterationLines_none (m : String) (t : ℕ) (r : IterationLog) :
    appendIterationLines none m t r
      = generateProgressLines m t (succIncr r) [r] := by
  simp only [appendIterationLines, emptyProgress, pushIteration, succIncr]
  by_cases hs : r.exitStatus = "success" ∧ jsTruthy r.taskCompleted
  · rw [if_pos hs, if_pos hs]
    simp
  · rw [if_neg hs, if_neg hs]
    simp

/-- The clock value of the last append in a sequence. -/
def lastNow (now : String) : List (String × ℕ × IterationLog) → String
  | [] => now
  | (m, _, _) :: rest => lastNow m rest

/-- Invariant of the append sequence over a rendered ledger: `totalTasks`
stays fixed, `completed` accumulates the success increments, and the
records accumulate in order. -/
theorem appendSeq_generate (entries : List (String × ℕ × IterationLog)) :
    ∀ (now : String) (t c : ℕ) (iters : List IterationLog),
      safeText now → (∀ r ∈ iters, WFLog r) →
      (∀ e ∈ entries, safeText e.1) →
      (∀ e ∈ entries, WFLog e.2.2) →
      appendSeq (some (generateProgressLines now t c iters)) entries
        = some (generateProgressLines (lastNow now entries) t
            (c + countSuccess (entries.map (fun e => e.2.2)))
            (iters ++ entries.map (fun e => e.2.2))) := by
  induction entries with
  | nil =>
    intro now t c iters _ _ _ _
    simp [appendSeq, lastNow, countSuccess_nil]
  | cons e rest ih =>
    intro now t c iters hnow hwf hclk hrec
    obtain ⟨m, t2, r⟩ := e
    simp only [appendSeq]
    rw [appendIterationLines_step now m hnow t c iters hwf t2 r]
    rw [ih m t (c + succIncr r) (iters ++ [r])
      (hclk (m, t2, r) (List.mem_cons_self _ _))
      (by
        intro x hx
        rcases List.mem_append.mp hx with h | h
        · exact hwf x h
        · rcases List.mem_cons.mp h with rfl | h
          · exact hrec (m, t2, x) (List.mem_cons_self _ _)
          · simp at h)
      (fun x hx => hclk x (List.mem_cons_of_mem _ hx))
      (fun x hx => hrec x (List.mem_cons_of_mem _ hx))]
    rw [List.append_assoc]
    simp only [List.singleton_append, lastNow, List.map_cons, countSuccess_cons]
    rw [Nat.add_assoc]

/-- A sequence of appends starting from a fresh (absent) ledger file. -/
theorem appendSeq_none (m0 : String) (t0 : ℕ) (r0 : IterationLog)
    (rest : List (String × ℕ × IterationLog))
    (h0 : safeText m0) (hr0 : WFLog r0)
    (hclk : ∀ e ∈ rest, safeText e.1) (hrec : ∀ e ∈ rest, WFLog e.2.2) :
    appendSeq none ((m0, t0, r0) :: rest)
      = some (generateProgressLines (lastNow m0 rest) t0
          (countSuccess (r0 :: rest.map (fun e => e.2.2)))
          (r0 :: rest.map (fun e => e.2.2))) := by
  rw [countSuccess_cons]
  simp only [appendSeq]
  rw [appendIterationLines_none m0 t0 r0]
  rw [appendSeq_generate rest m0 t0 (succIncr r0) [r0] h0
    (by
      intro x hx
      rcases List.mem_cons.mp hx with rfl | hx
      · exact hr0
      · simp at hx)
    hclk hrec]
  simp [lastNow]

theorem lastNow_safe (entries : List (String × ℕ × IterationLog)) :
    ∀ now, safeText now → (∀ e ∈ entries, safeText e.1) →
      safeText (lastNow now entries) := by
  induction entries with
  | nil => intro now hnow _; exact hnow
  | cons e rest ih =>
    intro now _ hclk
    obtain ⟨m, t2, r⟩ := e
    exact ih m (hclk (m, t2, r) (List.mem_cons_self _ _))
      (fun x hx => hclk x (List.mem_cons_of_mem _ hx))

/-- The fields of the reparsed rendered ledger that do not depend on how
`completed` compares with `totalTasks`: both round-trip branches return
the rendered `totalTasks`, `completed` and records unchanged. -/
theorem parseProgress_generate_fields (now now2 : String) (hnow : safeText now)
    (t c : ℕ) (iters : List IterationLog) (hwf : ∀ r ∈ iters, WFLog r) :
    (parseProgressLines (generateProgressLines now t c iters) now2).totalTasks = t ∧
    (parseProgressLines (generateProgressLines now t c iters) now2).completed = c ∧
    (parseProgressLines (generateProgressLines now t c iters) now2).iterations
      = iters := by
  rcases le_or_lt c t with hc | hc
  · rw [parseProgress_generate_le now now2 hnow t c hc iters hwf]
    exact ⟨rfl, rfl, rfl⟩
  · rw [parseProgress_generate_lt now now2 hnow t c hc iters hwf]
    exact ⟨rfl, rfl, rfl⟩

/-- `resumePoint` on a rendered ledger (loop.ts lines 190–191); the
iteration count survives the reparse whatever the counters are. -/
theorem startIteration_generate (now now2 : String) (hnow : safeText now)
    (t c : ℕ) (iters : List IterationLog)
    (hwf : ∀ r ∈ iters, WFLog r) :
    startIteration (some (generateProgressLines now t c iters)) now2
      = iters.length + 1 := by
  simp only [startIteration]
  rw [(parseProgress_generate_fields now now2 hnow t c iters hwf).2.2]

/-! ### Concrete records for counterexamples and witnesses -/

/-- A well-formed success record. -/
def ceRecSucc : IterationLog :=
  { iteration := 1, timestamp := "2024-01-01T00:00:00.000Z",
    taskCompleted := some "TASK-001", summary := "implemented the parser",
    duration := "3s", exitStatus := "success" }

/-- The cost 0.012 = 3/250 as an explicitly reduced rational (so the
kernel can evaluate predicates on it). -/
def ceCost : ℚ := ⟨3, 250, by norm_num, by norm_num⟩

/-- A well-formed token-usage value whose cost is an exact multiple of
1/10000. -/
def ceUsage : TokenUsage :=
  { inputTokens := 1200, outputTokens := 30, cacheCreationTokens := 0,
    cacheReadTokens := 5000, totalTokens := 6230, costUsd := ceCost }

/-- A well-formed failure record carrying every optional field. -/
def ceRecFail : IterationLog :=
  { iteration := 2, timestamp := "2024-01-01T00:10:00.000Z",
    taskCompleted := none, summary := "build failed", duration := "4s",
    exitStatus := "failure", errorType := some "task_failure",
    errorDetail := some "exit code 1",
    tokenUsage := some ceUsage }

/-- A record whose `summary` is empty: the renderer writes a `Summary` line
with an empty capture, which the parser's required-field guard rejects. -/
def ceRecBad : IterationLog :=
  { iteration := 1, timestamp := "2024-01-01T00:00:00.000Z",
    taskCompleted := none, summary := "", duration := "2s",
    exitStatus := "failure" }

/-- A well-formed failure record with the error fields set but no token
usage. -/
def ceRecFail2 : IterationLog :=
  { iteration := 2, timestamp := "2024-01-01T00:10:00.000Z",
    taskCompleted := none, summary := "build failed", duration := "4s",
    exitStatus := "failure", errorType := some "task_failure",
    errorDetail := some "exit code 1" }

/-- The ledger file after appending a success record with `totalTasks = 1`
and then a failure record with `totalTasks = 2` (the document grew between
the calls). -/
def ceFinal : List String :=
  (appendSeq none
    [("2024-01-01T00:00:00.000Z", 1, ceRecSucc),
     ("2024-01-01T00:10:00.000Z", 2, ceRecFail2)]).getD []

/-- The ledger file after appending the empty-summary record once, starting
from no file. -/
def ceFinal9 : List String :=
  (appendSeq none [("2024-01-01T00:00:00.000Z", 1, ceRecBad)]).getD []

/-! ### Claim C5 -/

/-- C5 counterexample: the renderer does not take the ledger's stored
`remaining` or `lastUpdated` as inputs — it recomputes `Remaining` as
`totalTasks - completed` and stamps `Last Updated` from the render-time
clock — so a ledger whose stored `remaining` is `5` and whose stored
`lastUpdated` is an older timestamp does not survive
`parse(render(ledger))` unchanged. -/
theorem C5_roundtrip_counterexample :
    parseProgressLines
      (writeProgressLines "2024-02-02T00:00:00.000Z"
        { totalTasks := 2, completed := 0, remaining := 5,
          lastUpdated := "2024-01-01T00:00:00.000Z", iterations := [] })
      "2024-03-03T00:00:00.000Z"
      ≠ { totalTasks := 2, completed := 0, remaining := 5,
          lastUpdated := "2024-01-01T00:00:00.000Z", iterations := [] } := by
  decide

/-- C5 (amended): for well-formed records and `completed ≤ totalTasks`,
parsing the rendered ledger returns the rendered `totalTasks`, `completed`
and every iteration record (with all optional-field combinations) exactly;
but `lastUpdated` comes from the render-time clock and `remaining` is
recomputed as `totalTasks - completed` — the renderer takes neither stored
field as input, so those two fields do not round-trip. -/
theorem C5_roundtrip_amended (now now2 : String) (hnow : safeText now)
    (t c : ℕ) (hc : c ≤ t) (iters : List IterationLog)
    (hwf : ∀ r ∈ iters, WFLog r) :
    parseProgressLines (generateProgressLines now t c iters) now2 =
      { totalTasks := t, completed := c, remaining := ((t - c : ℕ) : ℤ),
        lastUpdated := now, iterations := iters } :=
  parseProgress_generate_le now now2 hnow t c hc iters hwf

unseal Nat.gcd Rat.mul in
theorem C5_roundtrip_witness :
    parseProgressLines
      (generateProgressLines "2024-02-02T00:00:00.000Z" 3 1 [ceRecSucc, ceRecFail])
      "2024-03-03T00:00:00.000Z"
      = { totalTasks := 3, completed := 1, remaining := ((3 - 1 : ℕ) : ℤ),
          lastUpdated := "2024-02-02T00:00:00.000Z",
          iterations := [ceRecSucc, ceRecFail] } :=
  C5_roundtrip_amended "2024-02-02T00:00:00.000Z" "2024-03-03T00:00:00.000Z"
    (by decide) 3 1 (by decide) [ceRecSucc, ceRecFail] (by decide)

/-! ### Claim C4 -/

/-- C4 counterexample: the second `appendIteration` call passes
`totalTasks = 2` (the current document's count), but the persisted ledger
keeps the first call's `totalTasks = 1`; with one success record,
`completed = 1`, the claim demands `remaining = 2 - 1 = 1`, while the
persisted ledger has `remaining = 0`. -/
theorem C4_invariant_counterexample :
    (parseProgressLines ceFinal "2024-03-03T00:00:00.000Z").completed = 1 ∧
    (parseProgressLines ceFinal "2024-03-03T00:00:00.000Z").totalTasks ≠ 2 ∧
    (parseProgressLines ceFinal "2024-03-03T00:00:00.000Z").remaining
      ≠ 2 - ((parseProgressLines ceFinal "2024-03-03T00:00:00.000Z").completed : ℤ) := by
  decide

/-- C4 (amended): after a sequence of `appendIteration` calls starting from
a fresh ledger, `completed` equals the count of persisted iterations with
`exitStatus = success` and a truthy `taskCompleted`, and `remaining` equals
`t0 - completed` where `t0` is the `totalTasks` argument of the FIRST call
of the sequence — later calls' `totalTasks` arguments are ignored (provided
records are well-formed, clocks are safe text, and the success count stays
within `t0`). -/
theorem C4_invariant_amended (m0 now2 : String) (hm0 : safeText m0) (t0 : ℕ)
    (r0 : IterationLog) (hr0 : WFLog r0)
    (rest : List (String × ℕ × IterationLog))
    (hclk : ∀ e ∈ rest, safeText e.1) (hrec : ∀ e ∈ rest, WFLog e.2.2)
    (hcnt : countSuccess (r0 :: rest.map (fun e => e.2.2)) ≤ t0) :
    ∃ L, appendSeq none ((m0, t0, r0) :: rest) = some L ∧
      (parseProgressLines L now2).completed
        = countSuccess ((parseProgressLines L now2).iterations) ∧
      (parseProgressLines L now2).totalTasks = t0 ∧
      (parseProgressLines L now2).remaining
        = (t0 : ℤ) - ((parseProgressLines L now2).completed : ℤ) ∧
      (parseProgressLines L now2).iterations = r0 :: rest.map (fun e => e.2.2) := by
  refine ⟨_, appendSeq_none m0 t0 r0 rest hm0 hr0 hclk hrec, ?_⟩
  have hsafe : safeText (lastNow m0 rest) := lastNow_safe rest m0 hm0 hclk
  have hwfall : ∀ r ∈ r0 :: rest.map (fun e => e.2.2), WFLog r := by
    intro x hx
    rcases List.mem_cons.mp hx with rfl | hx
    · exact hr0
    · rcases List.mem_map.mp hx with ⟨e, he, rfl⟩
      exact hrec e he
  rw [parseProgress_generate_le (lastNow m0 rest) now2 hsafe t0 _ hcnt _ hwfall]
  refine ⟨rfl, rfl, ?_, rfl⟩
  simp only []
  omega

unseal Nat.gcd Rat.mul in
theorem C4_invariant_witness :
    ∃ L, appendSeq none
        [("2024-01-01T00:00:00.000Z", 2, ceRecSucc),
         ("2024-01-01T00:10:00.000Z", 2, ceRecFail)] = some L ∧
      (parseProgressLines L "Z").completed
        = countSuccess ((parseProgressLines L "Z").iterations) ∧
      (parseProgressLines L "Z").totalTasks = 2 ∧
      (parseProgressLines L "Z").remaining
        = (2 : ℤ) - ((parseProgressLines L "Z").completed : ℤ) ∧
      (parseProgressLines L "Z").iterations = [ceRecSucc, ceRecFail] :=
  C4_invariant_amended "2024-01-01T00:00:00.000Z" "Z" (by decide) 2 ceRecSucc
    (by decide) [("2024-01-01T00:10:00.000Z", 2, ceRecFail)]
    (by decide) (by decide) (by decide)

/-! ### Claim C9 -/

/-- C9 counterexample: appending one record whose `summary` is the empty
string yields a ledger file whose sole iteration block is rejected by the
parser's required-field guard, so the computed resume point is `1`, not
`N + 1 = 2`. -/
theorem C9_resume_counterexample :
    ceFinal9 ≠ [] ∧
    startIteration (some ceFinal9) "2024-03-03T00:00:00.000Z" = 1 := by
  decide

/-- C9 (amended): for a fresh ledger the resume point is `1`; after
appending `N` well-formed records (nonempty trimmed summary and duration,
word-character exit status, safe timestamps and clocks), the resume point
is `N + 1` and `completed` equals the count of appended records with
`exitStatus = success` and a truthy `taskCompleted` — with no restriction
relating the success count to any `totalTasks` argument: an overshoot
only renders a negative `Remaining` (reparsed as `0`) and touches neither
the iteration count nor the `Completed` counter. -/
theorem C9_resume_amended (m0 now2 : String) (hm0 : safeText m0) (t0 : ℕ)
    (r0 : IterationLog) (hr0 : WFLog r0)
    (rest : List (String × ℕ × IterationLog))
    (hclk : ∀ e ∈ rest, safeText e.1) (hrec : ∀ e ∈ rest, WFLog e.2.2) :
    startIteration none now2 = 1 ∧
    ∃ L, appendSeq none ((m0, t0, r0) :: rest) = some L ∧
      startIteration (some L) now2 = ((m0, t0, r0) :: rest).length + 1 ∧
      (parseProgressLines L now2).completed
        = countSuccess (r0 :: rest.map (fun e => e.2.2)) := by
  have hsafe : safeText (lastNow m0 rest) := lastNow_safe rest m0 hm0 hclk
  have hwfall : ∀ r ∈ r0 :: rest.map (fun e => e.2.2), WFLog r := by
    intro x hx
    rcases List.mem_cons.mp hx with rfl | hx
    · exact hr0
    · rcases List.mem_map.mp hx with ⟨e, he, rfl⟩
      exact hrec e he
  refine ⟨rfl, _, appendSeq_none m0 t0 r0 rest hm0 hr0 hclk hrec, ?_, ?_⟩
  · rw [startIteration_generate (lastNow m0 rest) now2 hsafe t0 _ _ hwfall]
    simp
  · exact (parseProgress_generate_fields (lastNow m0 rest) now2 hsafe t0 _ _ hwfall).2.1

unseal Nat.gcd Rat.mul in
theorem C9_resume_witness :
    startIteration none "Z" = 1 ∧
    ∃ L, appendSeq none
        [("2024-01-01T00:00:00.000Z", 0, ceRecSucc),
         ("2024-01-01T00:10:00.000Z", 2, ceRecFail)] = some L ∧
      startIteration (some L) "Z"
        = ([("2024-01-01T00:00:00.000Z", 0, ceRecSucc),
            ("2024-01-01T00:10:00.000Z", 2, ceRecFail)] :
              List (String × ℕ × IterationLog)).length + 1 ∧
      (parseProgressLines L "Z").completed
        = countSuccess [ceRecSucc, ceRecFail] :=
  C9_resume_amended "2024-01-01T00:00:00.000Z" "Z" (by decide) 0 ceRecSucc
    (by decide) [("2024-01-01T00:10:00.000Z", 2, ceRecFail)]
    (by decide) (by decide)

/-! ### Claim C10 -/

/-- C10: `parseProgressContent` is total: the iterations are exactly the
blocks that pass the five-required-match guard (a block missing its header
or any of the Task Completed, Summary, Duration or Exit Status matches is
silently dropped), so the parsed list is never longer than the block list;
and each summary counter whose pattern finds no match defaults to `0`. -/
theorem C10_parse_total (lines : List String) (now2 : String) :
    (parseProgressLines lines now2).iterations
        = (splitBlocks lines).filterMap parseBlock ∧
    (parseProgressLines lines now2).iterations.length ≤ (splitBlocks lines).length ∧
    (firstSome (natLabelPat "**Total Tasks**:") lines = none →
      (parseProgressLines lines now2).totalTasks = 0) ∧
    (firstSome (natLabelPat "**Completed**:") lines = none →
      (parseProgressLines lines now2).completed = 0) ∧
    (firstSome (natLabelPat "**Remaining**:") lines = none →
      (parseProgressLines lines now2).remaining = 0) ∧
    (∀ block : List String,
      (firstSome headerPat block = none ∨
       firstSome taskPat block = none ∨
       firstSome (lineCapPat "- **Summary**: ") block = none ∨
       firstSome (lineCapPat "- **Duration**: ") block = none ∨
       firstSome (wordCapPat "- **Exit Status**: ") block = none) →
      parseBlock block = none) := by
  refine ⟨rfl, ?_, ?_, ?_, ?_, ?_⟩
  · exact List.length_filterMap_le parseBlock (splitBlocks lines)
  · intro h
    simp only [parseProgressLines, h, Option.getD_none]
  · intro h
    simp only [parseProgressLines, h, Option.getD_none]
  · intro h
    simp only [parseProgressLines, h, Option.getD_none]
    rfl
  · intro block h
    simp only [parseBlock]
    rcases h with h | h | h | h | h
    · rw [h]
    · rw [h]
      rcases firstSome headerPat block with _ | p
      · rfl
      · obtain ⟨it, ts⟩ := p
        rfl
    · rw [h]
      rcases firstSome headerPat block with _ | p
      · rfl
      · obtain ⟨it, ts⟩ := p
        rcases firstSome taskPat block with _ | tk
        · rfl
        · rfl
    · rw [h]
      rcases firstSome headerPat block with _ | p
      · rfl
      · obtain ⟨it, ts⟩ := p
        rcases firstSome taskPat block with _ | tk
        · rfl
        · rcases firstSome (lineCapPat "- **Summary**: ") block with _ | sm
          · rfl
          · rfl
    · rw [h]
      rcases firstSome headerPat block with _ | p
      · rfl
      · obtain ⟨it, ts⟩ := p
        rcases firstSome taskPat block with _ | tk
        · rfl
        · rcases firstSome (lineCapPat "- **Summary**: ") block with _ | sm
          · rfl
          · rcases firstSome (lineCapPat "- **Duration**: ") block with _ | du
            · rfl
            · rfl

theorem C10_parse_total_witness :
    (parseProgressLines ["*garbage*", "### Iteration 5 - T", "x"] "Z").totalTasks = 0 ∧
    parseBlock ["### Iteration 5 - T", "x"] = none := by
  refine ⟨(C10_parse_total ["*garbage*", "### Iteration 5 - T", "x"] "Z").2.2.1
    (by decide), ?_⟩
  exact (C10_parse_total ["*garbage*", "### Iteration 5 - T", "x"] "Z").2.2.2.2.2
    ["### Iteration 5 - T", "x"] (Or.inr (Or.inl (by decide)))

/-! ### Error classification (src/core/claude.ts, lines 38–83) -/

/-- JS `text.includes(sub)`. -/
def includesStr (text sub : String) : Bool := containsSub sub.data text.data

/-- `classifyError(stderr, errorMessage)` (claude.ts lines 38–76): ordered
first-match over the lowercased concatenation of the two texts. -/
def classifyError (stderr : String) (errorMessage : Option String) : String :=
  let errorText := jsToLower (stderr ++ errorMessage.getD "")
  if includesStr errorText "rate limit" || includesStr errorText "api usage limit" ||
      includesStr errorText "429" ||
      (includesStr errorText "400" && includesStr errorText "limit") then "rate_limit"
  else if includesStr errorText "overload" || includesStr errorText "503" then
    "api_overload"
  else if includesStr errorText "401" || includesStr errorText "unauthorized" ||
      includesStr errorText "authentication" then "auth_error"
  else if includesStr errorText "econnrefused" || includesStr errorText "enotfound" ||
      includesStr errorText "timeout" || includesStr errorText "network" then
    "network_error"
  else if includesStr errorText "api error" then "unknown"
  else "task_failure"

/-- `isApiError(errorType)` (claude.ts lines 81–83). -/
def isApiError : Option String → Bool
  | none => false
  | some t => ¬ t = "task_failure"

/-- The ordered classification as the claim words it, needle for needle
(`usage limit` in the first group); for comparison with `classifyError`. -/
def classifyClaimed (t : String) : String :=
  if includesStr t "rate limit" || includesStr t "usage limit" ||
      includesStr t "429" ||
      (includesStr t "400" && includesStr t "limit") then "rate_limit"
  else if includesStr t "overload" || includesStr t "503" then "api_overload"
  else if includesStr t "401" || includesStr t "unauthorized" ||
      includesStr t "authentication" then "auth_error"
  else if includesStr t "econnrefused" || includesStr t "enotfound" ||
      includesStr t "timeout" || includesStr t "network" then "network_error"
  else if includesStr t "api error" then "unknown"
  else "task_failure"

/-- The ordered classification of the amended claim: identical to
`classifyClaimed` except that the first group's second needle is
`api usage limit`, as in the code. -/
def classifyOrdered (t : String) : String :=
  if includesStr t "rate limit" || includesStr t "api usage limit" ||
      includesStr t "429" ||
      (includesStr t "400" && includesStr t "limit") then "rate_limit"
  else if includesStr t "overload" || includesStr t "503" then "api_overload"
  else if includesStr t "401" || includesStr t "unauthorized" ||
      includesStr t "authentication" then "auth_error"
  else if includesStr t "econnrefused" || includesStr t "enotfound" ||
      includesStr t "timeout" || includesStr t "network" then "network_error"
  else if includesStr t "api error" then "unknown"
  else "task_failure"

/-! ### Claim C6 -/

/-- C6 counterexample: the code matches `api usage limit`, not
`usage limit`; the text `usage limit reached` contains the claim's needle
but none of the code's, so the code classifies it `task_failure` (and
`isApiError` is false) where the claim demands `rate_limit`. -/
theorem C6_classify_counterexample :
    classifyError "usage limit reached" none = "task_failure" ∧
    classifyClaimed (jsToLower ("usage limit reached" ++ "")) = "rate_limit" ∧
    isApiError (some (classifyError "usage limit reached" none)) = false := by
  decide

/-- C6 (amended): classification is the first-match-wins ordered match the
claim describes with `api usage limit` in place of `usage limit`: it equals
`classifyOrdered` on the combined lowercased text; any text containing
`429` yields `rate_limit`; text containing `econnrefused` and none of the
earlier groups' needles yields `network_error`; text containing none of
the listed needles yields `task_failure`; and `isApiError` is true exactly
for classifications other than `task_failure` (false for an absent one). -/
theorem C6_classify_amended (stderr : String) (em : Option String) :
    classifyError stderr em = classifyOrdered (jsToLower (stderr ++ em.getD "")) ∧
    (includesStr (jsToLower (stderr ++ em.getD "")) "429" = true →
      classifyError stderr em = "rate_limit") ∧
    (includesStr (jsToLower (stderr ++ em.getD "")) "econnrefused" = true →
      includesStr (jsToLower (stderr ++ em.getD "")) "rate limit" = false →
      includesStr (jsToLower (stderr ++ em.getD "")) "api usage limit" = false →
      includesStr (jsToLower (stderr ++ em.getD "")) "429" = false →
      includesStr (jsToLower (stderr ++ em.getD "")) "400" = false →
      includesStr (jsToLower (stderr ++ em.getD "")) "overload" = false →
      includesStr (jsToLower (stderr ++ em.getD "")) "503" = false →
      includesStr (jsToLower (stderr ++ em.getD "")) "401" = false →
      includesStr (jsToLower (stderr ++ em.getD "")) "unauthorized" = false →
      includesStr (jsToLower (stderr ++ em.getD "")) "authentication" = false →
      classifyError stderr em = "network_error") ∧
    (includesStr (jsToLower (stderr ++ em.getD "")) "rate limit" = false →
      includesStr (jsToLower (stderr ++ em.getD "")) "api usage limit" = false →
      includesStr (jsToLower (stderr ++ em.getD "")) "429" = false →
      includesStr (jsToLower (stderr ++ em.getD "")) "400" = false →
      includesStr (jsToLower (stderr ++ em.getD "")) "overload" = false →
      includesStr (jsToLower (stderr ++ em.getD "")) "503" = false →
      includesStr (jsToLower (stderr ++ em.getD "")) "401" = false →
      includesStr (jsToLower (stderr ++ em.getD "")) "unauthorized" = false →
      includesStr (jsToLower (stderr ++ em.getD "")) "authentication" = false →
      includesStr (jsToLower (stderr ++ em.getD "")) "econnrefused" = false →
      includesStr (jsToLower (stderr ++ em.getD "")) "enotfound" = false →
      includesStr (jsToLower (stderr ++ em.getD "")) "timeout" = false →
      includesStr (jsToLower (stderr ++ em.getD "")) "network" = false →
      includesStr (jsToLower (stderr ++ em.getD "")) "api error" = false →
      classifyError stderr em = "task_failure") ∧
    isApiError (some "rate_limit") = true ∧
    isApiError (some "api_overload") = true ∧
    isApiError (some "auth_error") = true ∧
    isApiError (some "network_error") = true ∧
    isApiError (some "unknown") = true ∧
    isApiError (some "task_failure") = false ∧
    isApiError none = false := by
  refine ⟨rfl, ?_, ?_, ?_, by decide, by decide, by decide, by decide, by decide,
    by decide, by decide⟩
  · intro h
    simp [classifyError, h]
  · intro h1 h2 h3 h4 h5 h6 h7 h8 h9 h10
    simp [classifyError, h1, h2, h3, h4, h5, h6, h7, h8, h9, h10]
  · intro h1 h2 h3 h4 h5 h6 h7 h8 h9 h10 h11 h12 h13 h14
    simp [classifyError, h1, h2, h3, h4, h5, h6, h7, h8, h9, h10, h11, h12, h13, h14]

theorem C6_classify_witness :
    classifyError "Error: ECONNREFUSED 127.0.0.1:443" none = "network_error" ∧
    classifyError "HTTP 429 Too Many Requests" none = "rate_limit" ∧
    classifyError "task exited with code 1" none = "task_failure" := by
  refine ⟨?_, ?_, ?_⟩
  · exact (C6_classify_amended "Error: ECONNREFUSED 127.0.0.1:443" none).2.2.1
      (by decide) (by decide) (by decide) (by decide) (by decide) (by decide)
      (by decide) (by decide) (by decide) (by decide)
  · exact (C6_classify_amended "HTTP 429 Too Many Requests" none).2.1 (by decide)
  · exact (C6_classify_amended "task exited with code 1" none).2.2.2.1
      (by decide) (by decide) (by decide) (by decide) (by decide) (by decide)
      (by decide) (by decide) (by decide) (by decide) (by decide) (by decide)
      (by decide) (by decide)

/-! ### Requirements parser and scheduler (src/unnamed/part_003) -/

/-- `TASK_REGEX = /^### (TASK-\d+): (.+)$/` (part_003 line 4). -/
def taskHeadPat (line : String) : Option (String × String) :=
  if chPre "### TASK-".data line.data then
    let r := line.data.drop 9
    let d := r.takeWhile Char.isDigit
    if d.isEmpty then none
    else
      let r2 := r.drop d.length
      if chPre ": ".data r2 then
        let rest := r2.drop 2
        if rest.isEmpty then none
        else some (String.mk ("TASK-".data ++ d), String.mk rest)
      else none
  else none

/-- The anchored case-insensitive field-line prelude common to the four
field regexes (part_003 lines 5–8): optional whitespace, a dash, optional
whitespace, the label (case-insensitively), then optional whitespace; the
characters after it are returned in their original case. -/
def dashLabelCI (label : List Char) (l : List Char) : Option (List Char) :=
  let l1 := l.dropWhile Char.isWhitespace
  match l1 with
  | '-' :: l2 =>
    let l3 := l2.dropWhile Char.isWhitespace
    if chPre label (l3.map Char.toLower) then
      some ((l3.drop label.length).dropWhile Char.isWhitespace)
    else none
  | _ => none

/-- `STATUS_REGEX` with the capture already lowercased as on part_003 line
50 (the alternation tries `pending`, `in-progress`, `done` in order). -/
def statusPat (line : String) : Option String :=
  (dashLabelCI "**status**:".data line.data).bind fun r =>
    let rl := r.map Char.toLower
    if chPre "pending".data rl then some "pending"
    else if chPre "in-progress".data rl then some "in-progress"
    else if chPre "done".data rl then some "done"
    else none

/-- `PRIORITY_REGEX` with the capture already lowercased (part_003 line
56). -/
def priorityPat (line : String) : Option String :=
  (dashLabelCI "**priority**:".data line.data).bind fun r =>
    let rl := r.map Char.toLower
    if chPre "high".data rl then some "high"
    else if chPre "medium".data rl then some "medium"
    else if chPre "low".data rl then some "low"
    else none

/-- The `(.+)` capture after `\s*`: when only whitespace follows, the
greedy `\s*` backtracks one character so that `.+` still matches. -/
def wsCapture (r : List Char) : Option (List Char) :=
  let t := r.dropWhile Char.isWhitespace
  if t.isEmpty then
    if r.isEmpty then none else some (r.drop (r.length - 1))
  else some t

/-- `DEPS_REGEX` capture (part_003 line 7). -/
def depsPat (line : String) : Option String :=
  (dashLabelCI "**dependencies**:".data line.data).bind fun r =>
    (wsCapture r).map String.mk

/-- `DESC_REGEX` capture (part_003 line 8). -/
def descPat (line : String) : Option String :=
  (dashLabelCI "**description**:".data line.data).bind fun r =>
    (wsCapture r).map String.mk

/-- Dependency-list processing (part_003 lines 62–65). -/
def depsProc (cap : String) : List String :=
  let deps := jsTrim cap
  if jsToLower deps = "none" then [] else (splitStr ',' deps).map jsTrim

/-- Apply the four field regexes to a line, first match wins (part_003
lines 48–73). -/
def applyFields (t : Task) (line : String) : Task :=
  match statusPat line with
  | some s => { t with status := s }
  | none =>
    match priorityPat line with
    | some p => { t with priority := p }
    | none =>
      match depsPat line with
      | some cap => { t with dependencies := depsProc cap }
      | none =>
        match descPat line with
        | some cap => { t with description := jsTrim cap }
        | none => t

/-- One step of the line loop of `parseRequirementsContent` (part_003
lines 30–75): a task header pushes the current task and starts a new one
with the defaults; otherwise field lines update the current task. -/
def reqStep (st : List Task × Option Task) (line : String) : List Task × Option Task :=
  match taskHeadPat line with
  | some (id, title) =>
    ((match st.2 with
      | some t => st.1 ++ [t]
      | none => st.1),
     some { id := id, title := title, status := "pending", priority := "medium",
            dependencies := [], description := "" })
  | none =>
    match st.2 with
    | none => st
    | some t => (st.1, some (applyFields t line))

/-- `/^#\s+([^-\n]+)/m` (part_003 line 27), per line; an all-whitespace or
dash-initial capture trims to the empty string and falls through, which
this model folds into returning `none`. -/
def titlePat (line : String) : Option String :=
  match line.data with
  | '#' :: r =>
    let w := r.takeWhile Char.isWhitespace
    if w.isEmpty then none
    else
      let rest := (r.drop w.length).takeWhile (fun ch => ¬ ch = '-')
      if rest.isEmpty then none else some (String.mk rest)
  | _ => none

/-- `parseRequirementsContent` (part_003 lines 15–88).  `today` injects
`new Date().toISOString().split('T')[0]`. -/
def parseRequirementsLines (lines : List String) (today : String) : Requirements :=
  let st := lines.foldl reqStep ([], none)
  let tasks :=
    match st.2 with
    | some t => st.1 ++ [t]
    | none => st.1
  { projectName :=
      match firstSome (textLabelPat "**Project**:") lines with
      | some s => jsTrim s
      | none =>
        match firstSome titlePat lines with
        | some s => jsTrim s
        | none => "Unknown Project"
    created :=
      match firstSome (textLabelPat "**Created**:") lines with
      | some s => jsTrim s
      | none => today
    author :=
      match firstSome (textLabelPat "**Author**:") lines with
      | some s => jsTrim s
      | none => "Unknown"
    tasks := tasks }

/-- The priority rank of `getNextTask` (part_003 line 96), on the three
priorities the parser can produce. -/
def priorityRank (p : String) : ℕ :=
  if p = "high" then 0 else if p = "medium" then 1 else 2

/-- Lexicographic order on character lists (the effect of `localeCompare`
on the ASCII task ids). -/
def lexLE : List Char → List Char → Bool
  | [], _ => true
  | _ :: _, [] => false
  | a :: as, b :: bs =>
    if a = b then lexLE as bs
    else decide (a < b)

/-- The sort order of `getNextTask` (part_003 lines 99–103): ascending
priority rank, ties broken by ascending id (`localeCompare` on the ASCII
task ids agrees with lexicographic order). -/
def taskBefore (a b : Task) : Prop :=
  priorityRank a.priority < priorityRank b.priority ∨
  (priorityRank a.priority = priorityRank b.priority ∧
    lexLE a.id.data b.id.data = true)

instance : DecidableRel taskBefore := by
  unfold taskBefore
  infer_instance

/-- The ids of the tasks with `status = done` (part_003 lines 91–93). -/
def doneIds (reqs : Requirements) : List String :=
  (reqs.tasks.filter (fun t => t.status = "done")).map (fun t => t.id)

/-- `getNextTask` (part_003 lines 90–114): filter the pending tasks, sort
them by `taskBefore` (a stable sort, as ES2019 `Array.prototype.sort`),
and return the first whose dependencies are all done. -/
def getNextTask (reqs : Requirements) : Option Task :=
  let pending := (reqs.tasks.filter (fun t => t.status = "pending")).insertionSort taskBefore
  pending.find? (fun t => t.dependencies.all (fun d => (doneIds reqs).contains d))

/-! ### Claim C7 -/

theorem reqStep_count (ts : List Task) (cur : Option Task) (line : String) :
    (reqStep (ts, cur) line).1.length
        + (match (reqStep (ts, cur) line).2 with | some _ => 1 | none => 0)
      = ts.length + (match cur with | some _ => 1 | none => 0)
        + (if (taskHeadPat line).isSome then 1 else 0) := by
  unfold reqStep
  rcases h : taskHeadPat line with _ | ⟨id, title⟩
  · simp only [h]
    rcases cur with _ | t
    · simp
    · simp
  · simp only [h]
    rcases cur with _ | t
    · simp
    · simp [List.length_append]

theorem reqFold_count (lines : List String) :
    ∀ st : List Task × Option Task,
      (lines.foldl reqStep st).1.length
          + (match (lines.foldl reqStep st).2 with | some _ => 1 | none => 0)
        = st.1.length + (match st.2 with | some _ => 1 | none => 0)
          + (lines.filter (fun l => (taskHeadPat l).isSome)).length := by
  induction lines with
  | nil =>
    intro st
    simp
  | cons l rest ih =>
    intro st
    obtain ⟨ts, cur⟩ := st
    rw [List.foldl_cons, ih (reqStep (ts, cur) l), reqStep_count ts cur l,
      List.filter_cons]
    by_cases h : (taskHeadPat l).isSome
    · simp only [h, if_pos, List.length_cons]
      omega
    · simp only [h, Bool.false_eq_true, if_false]
      omega

/-- C7: the task-document parser is total — it returns a `Requirements`
value for every document with one task per header line (there is no
`MalformedDocument` failure path), and a document with no task header
yields the empty task list, however much prose it contains. -/
theorem C7_parser_total (lines : List String) (today : String) :
    (parseRequirementsLines lines today).tasks.length
      = (lines.filter (fun l => (taskHeadPat l).isSome)).length ∧
    ((∀ l ∈ lines, taskHeadPat l = none) →
      (parseRequirementsLines lines today).tasks = []) := by
  have h := reqFold_count lines ([], none)
  have hlen : (parseRequirementsLines lines today).tasks.length
      = (lines.filter (fun l => (taskHeadPat l).isSome)).length := by
    simp only [parseRequirementsLines]
    rcases hst : (lines.foldl reqStep ([], none)).2 with _ | t
    · rw [hst] at h
      simpa using h
    · rw [hst] at h
      simp only [List.length_nil] at h
      simp [List.length_append]
      omega
  refine ⟨hlen, fun hall => ?_⟩
  have hfil : lines.filter (fun l => (taskHeadPat l).isSome) = [] := by
    rw [List.filter_eq_nil_iff]
    intro l hl
    simp [hall l hl]
  apply List.length_eq_zero.mp
  rw [hlen, hfil]
  rfl

/-- C7 counterexample: a document whose single task block consists of the
bare header and none of the four labels is accepted — the parser fills in
the defaults (`pending`, `medium`, no dependencies, empty description)
rather than rejecting the block or failing with any error. -/
theorem C7_parser_counterexample :
    parseRequirementsLines ["### TASK-001: do the thing"] "2024-01-01"
      = { projectName := "Unknown Project", created := "2024-01-01",
          author := "Unknown",
          tasks := [{ id := "TASK-001", title := "do the thing",
                      status := "pending", priority := "medium",
                      dependencies := [], description := "" }] } := by
  decide

theorem C7_parser_witness :
    (parseRequirementsLines ["# My Project", "some prose", "more prose"]
        "2024-01-01").tasks = [] ∧
    (parseRequirementsLines ["### TASK-002: other", "- **Status**: done"]
        "2024-01-01").tasks.length = 1 := by
  refine ⟨(C7_parser_total ["# My Project", "some prose", "more prose"]
    "2024-01-01").2 (by decide), ?_⟩
  have h := (C7_parser_total ["### TASK-002: other", "- **Status**: done"]
    "2024-01-01").1
  rw [h]
  decide

/-! ### Claim C1 -/

theorem lexLE_refl (l : List Char) : lexLE l l = true := by
  induction l with
  | nil => rfl
  | cons a as ih =>
    unfold lexLE
    rw [if_pos rfl]
    exact ih

theorem lexLE_total (a b : List Char) : lexLE a b = true ∨ lexLE b a = true := by
  induction a generalizing b with
  | nil => exact Or.inl rfl
  | cons x xs ih =>
    cases b with
    | nil => exact Or.inr rfl
    | cons y ys =>
      unfold lexLE
      by_cases hxy : x = y
      · rw [if_pos hxy, if_pos hxy.symm]
        exact ih ys
      · rw [if_neg hxy, if_neg (Ne.symm hxy)]
        rcases lt_or_gt_of_ne hxy with h | h
        · exact Or.inl (by simpa using h)
        · exact Or.inr (by simpa using h)

theorem lexLE_trans {a b c : List Char} (h1 : lexLE a b = true)
    (h2 : lexLE b c = true) : lexLE a c = true := by
  induction a generalizing b c with
  | nil => rfl
  | cons x xs ih =>
    cases b with
    | nil => exact absurd h1 (by simp [lexLE])
    | cons y ys =>
      cases c with
      | nil => exact absurd h2 (by simp [lexLE])
      | cons z zs =>
        unfold lexLE at h1 h2 ⊢
        by_cases hxy : x = y
        · rw [if_pos hxy] at h1
          by_cases hyz : y = z
          · rw [if_pos hyz] at h2
            rw [if_pos (hxy.trans hyz)]
            exact ih h1 h2
          · rw [if_neg hyz] at h2
            rw [if_neg (by rw [hxy]; exact hyz)]
            rw [hxy]
            exact h2
        · rw [if_neg hxy] at h1
          by_cases hyz : y = z
          · rw [if_neg (by rw [← hyz]; exact hxy)]
            rw [← hyz]
            exact h1
          · rw [if_neg hyz] at h2
            simp only [decide_eq_true_eq] at h1 h2
            rw [if_neg (by intro he; rw [he] at h1; exact absurd (h1.trans h2) (lt_irrefl z))]
            simp only [decide_eq_true_eq]
            exact h1.trans h2

theorem taskBefore_refl (a : Task) : taskBefore a a :=
  Or.inr ⟨rfl, lexLE_refl _⟩

instance : IsTotal Task taskBefore := by
  constructor
  intro a b
  unfold taskBefore
  rcases lt_trichotomy (priorityRank a.priority) (priorityRank b.priority) with h | h | h
  · exact Or.inl (Or.inl h)
  · rcases lexLE_total a.id.data b.id.data with h2 | h2
    · exact Or.inl (Or.inr ⟨h, h2⟩)
    · exact Or.inr (Or.inr ⟨h.symm, h2⟩)
  · exact Or.inr (Or.inl h)

instance : IsTrans Task taskBefore := by
  constructor
  intro a b c hab hbc
  unfold taskBefore at hab hbc ⊢
  rcases hab with h1 | ⟨h1, h1'⟩
  · rcases hbc with h2 | ⟨h2, _⟩
    · exact Or.inl (h1.trans h2)
    · exact Or.inl (h2 ▸ h1)
  · rcases hbc with h2 | ⟨h2, h2'⟩
    · exact Or.inl (h1 ▸ h2)
    · exact Or.inr ⟨h1.trans h2, lexLE_trans h1' h2'⟩

/-- On a sorted list, `find?` returns an element that is `taskBefore`
every other element satisfying the predicate. -/
theorem find?_sorted_min {p : Task → Bool} {l : List Task}
    (hs : l.Sorted taskBefore) {t : Task} (h : l.find? p = some t) :
    ∀ t' ∈ l, p t' = true → taskBefore t t' := by
  induction l with
  | nil => simp at h
  | cons a rest ih =>
    intro t' ht' hp'
    by_cases ha : p a = true
    · rw [List.find?_cons_of_pos _ ha] at h
      have hta : t = a := by
        injection h with h2
        exact h2.symm
      subst hta
      rcases List.mem_cons.mp ht' with rfl | ht'
      · exact taskBefore_refl _
      · exact List.rel_of_sorted_cons hs t' ht'
    · rw [List.find?_cons_of_neg _ (by simpa using ha)] at h
      rcases List.mem_cons.mp ht' with rfl | ht'
      · exact absurd hp' ha
      · exact ih hs.of_cons h t' ht' hp'

/-- C1: `getNextTask` returns exactly the first runnable task in the
filtered-and-sorted order: a returned task is a pending task of the
document all of whose dependencies are done; it precedes (priority rank,
then id) every other such task; the result is `none` exactly when no
pending task has all dependencies done; and the function is deterministic.
(The hypothesis restricts priorities to the three values the parser can
produce, on which the model's rank agrees with the code's
`priorityOrder`; `localeCompare` on ASCII task ids is lexicographic.) -/
theorem C1_next_task (reqs : Requirements)
    (hp : ∀ t ∈ reqs.tasks, t.priority = "high" ∨ t.priority = "medium" ∨
      t.priority = "low") :
    (∀ t, getNextTask reqs = some t →
      t ∈ reqs.tasks ∧ t.status = "pending" ∧
      ∀ d ∈ t.dependencies, d ∈ doneIds reqs) ∧
    ((getNextTask reqs = none) ↔
      ∀ t ∈ reqs.tasks, t.status = "pending" →
        ¬ ∀ d ∈ t.dependencies, d ∈ doneIds reqs) ∧
    (∀ t t', getNextTask reqs = some t →
      t' ∈ reqs.tasks → t'.status = "pending" →
      (∀ d ∈ t'.dependencies, d ∈ doneIds reqs) →
      taskBefore t t') ∧
    (∀ reqs2 : Requirements, reqs2 = reqs → getNextTask reqs2 = getNextTask reqs) := by
  have hperm := List.perm_insertionSort taskBefore
    (reqs.tasks.filter (fun t => t.status = "pending"))
  have hmem : ∀ x : Task,
      x ∈ (reqs.tasks.filter (fun t => t.status = "pending")).insertionSort taskBefore
        ↔ x ∈ reqs.tasks ∧ x.status = "pending" := by
    intro x
    rw [hperm.mem_iff, List.mem_filter]
    simp
  have hpred : ∀ x : Task,
      (x.dependencies.all (fun d => (doneIds reqs).contains d) = true)
        ↔ ∀ d ∈ x.dependencies, d ∈ doneIds reqs := by
    intro x
    rw [List.all_eq_true]
    constructor
    · intro hh d hd
      have := hh d hd
      simpa [List.elem_iff] using this
    · intro hh d hd
      simpa [List.elem_iff] using hh d hd
  refine ⟨?_, ?_, ?_, ?_⟩
  · intro t ht
    unfold getNextTask at ht
    have hmemt := List.mem_of_find?_eq_some ht
    have hpt := List.find?_some ht
    have := (hmem t).mp hmemt
    exact ⟨this.1, this.2, (hpred t).mp hpt⟩
  · unfold getNextTask
    rw [List.find?_eq_none]
    constructor
    · intro hh t htm hts hdeps
      exact hh t ((hmem t).mpr ⟨htm, hts⟩) ((hpred t).mpr hdeps)
    · intro hh x hx hpx
      have := (hmem x).mp hx
      exact hh x this.1 this.2 ((hpred x).mp hpx)
  · intro t t' ht htm' hts' hdeps'
    unfold getNextTask at ht
    exact find?_sorted_min (List.sorted_insertionSort taskBefore _) ht t'
      ((hmem t').mpr ⟨htm', hts'⟩) ((hpred t').mpr hdeps')
  · intro reqs2 hh
    rw [hh]

/-- A concrete task set: TASK-001 done, TASK-002 pending (dependency
done), TASK-003 pending (dependency missing). -/
def ceReqs : Requirements :=
  { projectName := "P", created := "D", author := "A",
    tasks :=
      [{ id := "TASK-002", title := "b", status := "pending",
         priority := "low", dependencies := ["TASK-001"], description := "" },
       { id := "TASK-001", title := "a", status := "done",
         priority := "high", dependencies := [], description := "" },
       { id := "TASK-003", title := "c", status := "pending",
         priority := "low", dependencies := ["TASK-004"], description := "" }] }

/-- The runnable task of `ceReqs`. -/
def ceT2 : Task :=
  { id := "TASK-002", title := "b", status := "pending",
    priority := "low", dependencies := ["TASK-001"], description := "" }

theorem C1_next_task_witness :
    ceT2 ∈ ceReqs.tasks ∧ ceT2.status = "pending" ∧
    ∀ d ∈ ceT2.dependencies, d ∈ doneIds ceReqs :=
  (C1_next_task ceReqs (by decide)).1 ceT2 (by decide)

/-! ### Git commit machinery (src/unnamed/part_002) -/

/-- The outcome of one `git` subprocess (`execGit`). -/
structure ExecResult where
  success : Bool
  output : String
  error : Option String
deriving DecidableEq

/-- `isHookError` (part_002 lines 233–246): eight indicators checked
against the lowercased error text. -/
def isHookError (error : String) : Bool :=
  ["hook", "pre-commit", "commit-msg", "husky", "commitlint",
   "conventional commit", "commit message", "does not match"].any
    (fun ind => includesStr (jsToLower error) ind)

structure GitCommitResult where
  committed : Bool
  error : Option String
  isHookFailure : Bool
deriving DecidableEq

/-- The injected git environment of one commit attempt: availability and
the three subprocess results `gitCommit` consumes. -/
structure GitEnv where
  gitAvailable : Bool
  isRepo : Bool
  addResult : ExecResult
  statusResult : ExecResult
  commitResult : ExecResult
deriving DecidableEq

/-- `gitCommit` (part_002 lines 267–319): add, status, then commit; a
failed commit whose error text carries a hook indicator is reported as a
distinct hook failure. -/
def gitCommit (env : GitEnv) : GitCommitResult :=
  if ¬ env.addResult.success then
    { committed := false, error := env.addResult.error, isHookFailure := false }
  else if ¬ env.statusResult.success then
    { committed := false, error := env.statusResult.error, isHookFailure := false }
  else if jsTrim env.statusResult.output = "" then
    { committed := false, error := none, isHookFailure := false }
  else if ¬ env.commitResult.success then
    let errorText := (env.commitResult.error).getD ""
    if isHookError errorText then
      { committed := false, error := some errorText, isHookFailure := true }
    else
      { committed := false, error := env.commitResult.error, isHookFailure := false }
  else { committed := true, error := none, isHookFailure := false }

/-- `commitIteration` (part_002 lines 502–545) as
(committed, hookFailure). -/
def commitIteration (env : GitEnv) : Bool × Bool :=
  if ¬ env.gitAvailable then (false, false)
  else if ¬ env.isRepo then (false, false)
  else
    let r := gitCommit env
    if r.committed then (true, false)
    else if r.isHookFailure then (false, true)
    else (false, false)

/-! ### One iteration of the run loop (src/core/loop.ts, lines 234–512) -/

/-- The externally visible actions of one loop iteration. -/
inductive LoopEvent
  | appendEv (totalTasks : ℕ) (record : IterationLog)
  | commitIterationEv (iteration : ℕ) (taskId : Option String)
      (taskTitle : Option String) (success : Bool)
  | commitInterruptedEv
deriving DecidableEq

inductive StepOutcome
  | halted (reason : String)
  | continueLoop
deriving DecidableEq

/-- The injected environment of one iteration: the flag and subprocess
values the loop body reads. -/
structure IterEnv where
  stopRequestedAtTop : Bool
  tokenLimitHit : Bool
  reqsParseOk : Bool
  reqs : Requirements
  hasInterruptedWork : Bool
  interruptedCommitOk : Bool
  dryRun : Bool
  stopRequestedDuringCall : Bool
  result : ClaudeResult
  nowIso : String
  git : GitEnv
deriving DecidableEq

/-- `result.error?.split('\n')[0] || 'Unknown error'` (loop.ts line 436). -/
def errSummary (e : Option String) : String :=
  match e with
  | none => "Unknown error"
  | some s =>
    let fl := String.mk (s.data.takeWhile (fun c => ¬ c = '\n'))
    if fl = "" then "Unknown error" else fl

/-- The record the loop appends for a failed or successful agent call
(loop.ts lines 430–442). -/
def loopRecord (i : ℕ) (env : IterEnv) (task : Task) : IterationLog :=
  let duration := natRepr ((env.result.duration + 500) / 1000) ++ "s"
  if env.result.success then
    { iteration := i, timestamp := env.nowIso,
      taskCompleted := some task.id,
      summary := "Completed " ++ task.title, duration := duration,
      exitStatus := "success", tokenUsage := env.result.tokenUsage }
  else
    { iteration := i, timestamp := env.nowIso, taskCompleted := none,
      summary := "Failed: " ++ errSummary env.result.error,
      duration := duration, exitStatus := "error",
      errorType := env.result.errorType,
      errorDetail := env.result.error,
      tokenUsage := env.result.tokenUsage }

/-- One iteration of the `for` loop of `runLoop` (loop.ts lines 234–512)
with all effects made explicit: the emitted events in order and whether the
loop halts (`break`) or continues. -/
def iterationStep (i : ℕ) (env : IterEnv) : List LoopEvent × StepOutcome :=
  if env.stopRequestedAtTop then ([], .halted "stop-requested")
  else if env.tokenLimitHit then ([], .halted "token-limit")
  else if ¬ env.reqsParseOk then ([], .halted "requirements-parse-failure")
  else if (env.reqs.tasks.filter (fun t => t.status = "pending")).isEmpty then
    ([], .halted "all-tasks-complete")
  else
    match getNextTask env.reqs with
    | none => ([], .halted "no-runnable-task")
    | some task =>
      let preEvents : List LoopEvent :=
        if env.hasInterruptedWork then [.commitInterruptedEv] else []
      if env.hasInterruptedWork ∧ ¬ env.interruptedCommitOk then
        (preEvents, .halted "interrupted-commit-failed")
      else if env.dryRun then (preEvents, .continueLoop)
      else if env.stopRequestedDuringCall then
        (preEvents ++
          [.appendEv env.reqs.tasks.length
            { iteration := i, timestamp := env.nowIso, taskCompleted := none,
              summary := "Interrupted: " ++ task.title ++ " (user requested stop)",
              duration := natRepr ((env.result.duration + 500) / 1000) ++ "s",
              exitStatus := "interrupted",
              tokenUsage := env.result.tokenUsage },
           .commitIterationEv i none none false],
         .halted "interrupted")
      else
        let ev1 := preEvents ++ [.appendEv env.reqs.tasks.length (loopRecord i env task)]
        if ¬ env.result.success ∧ isApiError env.result.errorType then
          (ev1, .halted "api-error")
        else
          let ev2 := ev1 ++
            [.commitIterationEv i
              (if env.result.success then some task.id else none)
              (if env.result.success then some task.title else none)
              env.result.success]
          if (commitIteration env.git).2 then (ev2, .halted "hook-failure")
          else (ev2, .continueLoop)

/-- Is this event an iteration checkpoint commit? -/
def isCommitEv : LoopEvent → Bool
  | .commitIterationEv _ _ _ _ => true
  | _ => false

/-- Is this event a ledger append? -/
def isAppendEv : LoopEvent → Bool
  | .appendEv _ _ => true
  | _ => false

/-! ### Claim C2 -/

/-- C2: if the graceful-stop request arrived while the agent call of
iteration `i` was in flight, then whatever record the iteration appends has
`exitStatus = "interrupted"` and `taskCompleted = none` — whatever the
agent's own success flag says — and an iteration that appended a record
halts the loop with the interrupted outcome. -/
theorem C2_interrupted (i : ℕ) (env : IterEnv)
    (hstop : env.stopRequestedDuringCall = true) :
    (∀ t r, LoopEvent.appendEv t r ∈ (iterationStep i env).1 →
      r.exitStatus = "interrupted" ∧ r.taskCompleted = none) ∧
    ((∃ t r, LoopEvent.appendEv t r ∈ (iterationStep i env).1) →
      (iterationStep i env).2 = StepOutcome.halted "interrupted") := by
  unfold iterationStep
  by_cases h1 : env.stopRequestedAtTop
  · simp [h1]
  by_cases h2 : env.tokenLimitHit
  · simp [h1, h2]
  by_cases h3 : env.reqsParseOk
  case neg => simp [h1, h2, h3]
  by_cases h4 : (env.reqs.tasks.filter (fun t => t.status = "pending")).isEmpty
  · simp [h1, h2, h3, h4]
  rcases htask : getNextTask env.reqs with _ | task
  · simp [h1, h2, h3, h4, htask]
  by_cases h5a : env.hasInterruptedWork
  case pos =>
    by_cases h5b : env.interruptedCommitOk
    case neg => simp [h1, h2, h3, h4, htask, h5a, h5b]
    by_cases h6 : env.dryRun
    · simp [h1, h2, h3, h4, htask, h5a, h5b, h6]
    · constructor
      · intro t r hr
        simp [h1, h2, h3, h4, htask, h5a, h5b, h6, hstop] at hr
        rcases hr with ⟨-, rfl⟩
        exact ⟨rfl, rfl⟩
      · intro hex
        simp [h1, h2, h3, h4, htask, h5a, h5b, h6, hstop]
  case neg =>
    by_cases h6 : env.dryRun
    · simp [h1, h2, h3, h4, htask, h5a, h6]
    · constructor
      · intro t r hr
        simp [h1, h2, h3, h4, htask, h5a, h6, hstop] at hr
        rcases hr with ⟨-, rfl⟩
        exact ⟨rfl, rfl⟩
      · intro hex
        simp [h1, h2, h3, h4, htask, h5a, h6, hstop]

/-- A benign git environment: staging succeeds, there are changes, the
commit succeeds. -/
def ceGitOk : GitEnv :=
  { gitAvailable := true, isRepo := true,
    addResult := { success := true, output := "", error := none },
    statusResult := { success := true, output := "M src/app.ts", error := none },
    commitResult := { success := true, output := "", error := none } }

/-- An iteration in which the agent reported success but a graceful stop
arrived during the call. -/
def ceEnvC2 : IterEnv :=
  { stopRequestedAtTop := false, tokenLimitHit := false, reqsParseOk := true,
    reqs := ceReqs, hasInterruptedWork := false, interruptedCommitOk := true,
    dryRun := false, stopRequestedDuringCall := true,
    result := { success := true, output := "done", error := none,
                errorType := none, duration := 1500, tokenUsage := none },
    nowIso := "2024-01-01T00:00:00.000Z", git := ceGitOk }

/-- The interrupted record `iterationStep` appends for `ceEnvC2`. -/
def ceRecC2 : IterationLog :=
  { iteration := 1, timestamp := "2024-01-01T00:00:00.000Z",
    taskCompleted := none,
    summary := "Interrupted: b (user requested stop)",
    duration := "2s", exitStatus := "interrupted", tokenUsage := none }

theorem C2_interrupted_witness :
    ceRecC2.exitStatus = "interrupted" ∧ ceRecC2.taskCompleted = none :=
  (C2_interrupted 1 ceEnvC2 rfl).1 3 ceRecC2 (by decide)

/-! ### Claim C3 -/

/-- The iteration reaches the agent invocation: no stop at the top, no
token limit, requirements parsed, a pending task exists, no interrupted
work to commit, not a dry run, and no stop during the call. -/
def reachesCall (env : IterEnv) : Prop :=
  env.stopRequestedAtTop = false ∧ env.tokenLimitHit = false ∧
  env.reqsParseOk = true ∧
  (env.reqs.tasks.filter (fun t => t.status = "pending")).isEmpty = false ∧
  env.hasInterruptedWork = false ∧ env.dryRun = false ∧
  env.stopRequestedDuringCall = false

instance (env : IterEnv) : Decidable (reachesCall env) := by
  unfold reachesCall
  infer_instance

/-- C3 (amended): an API-level error classification halts the loop after
the ledger append for the failed iteration, but the checkpoint commit for
that iteration is skipped: the loop breaks before `commitIteration`, so
the failed iteration is recorded in the ledger but not committed. -/
theorem C3_api_error_amended (i : ℕ) (env : IterEnv) (task : Task)
    (hr : reachesCall env) (htask : getNextTask env.reqs = some task)
    (hfail : env.result.success = false)
    (happi : isApiError env.result.errorType = true) :
    (iterationStep i env).2 = StepOutcome.halted "api-error" ∧
    (iterationStep i env).1
      = [LoopEvent.appendEv env.reqs.tasks.length (loopRecord i env task)] ∧
    (∀ ev ∈ (iterationStep i env).1, isCommitEv ev = false) := by
  obtain ⟨h1, h2, h3, h4, h5, h6, h7⟩ := hr
  unfold iterationStep
  simp only [h1, h2, h3, h4, h5, h6, h7, htask, hfail, happi]
  simp [isCommitEv]

/-- The failing-with-rate-limit iteration environment. -/
def ceEnvC3 : IterEnv :=
  { stopRequestedAtTop := false, tokenLimitHit := false, reqsParseOk := true,
    reqs := ceReqs, hasInterruptedWork := false, interruptedCommitOk := true,
    dryRun := false, stopRequestedDuringCall := false,
    result := { success := false, output := "",
                error := some "API Error: rate limit exceeded",
                errorType := some "rate_limit", duration := 2000,
                tokenUsage := none },
    nowIso := "2024-01-01T00:00:00.000Z", git := ceGitOk }

/-- C3 counterexample: on an API-classified failure the loop halts with
the iteration appended to the ledger but with NO checkpoint commit event —
the break precedes `commitIteration`, contradicting the claim that the
commit completes before the loop stops. -/
theorem C3_api_error_counterexample :
    (iterationStep 1 ceEnvC3).2 = StepOutcome.halted "api-error" ∧
    (iterationStep 1 ceEnvC3).1.any isAppendEv = true ∧
    (iterationStep 1 ceEnvC3).1.any isCommitEv = false := by
  decide

theorem C3_api_error_witness :
    (iterationStep 1 ceEnvC3).2 = StepOutcome.halted "api-error" ∧
    (iterationStep 1 ceEnvC3).1
      = [LoopEvent.appendEv 3 (loopRecord 1 ceEnvC3 ceT2)] ∧
    (∀ ev ∈ (iterationStep 1 ceEnvC3).1, isCommitEv ev = false) :=
  C3_api_error_amended 1 ceEnvC3 ceT2 (by decide) (by decide) rfl rfl

/-! ### Claim C8 -/

/-- C8 (amended): when the iteration reaches the checkpoint commit (no API
error), the commit event is emitted; the loop halts with the distinct
hook-failure outcome exactly when `commitIteration` reports a hook
failure, and a commit rejection without a hook indicator does not halt the
loop; under a normal git flow the hook-failure flag equals `isHookError`
of the commit error text, which checks the eight indicators `hook`,
`pre-commit`, `commit-msg`, `husky`, `commitlint`, `conventional commit`,
`commit message`, `does not match` against the lowercased text. -/
theorem C8_hook_amended (i : ℕ) (env : IterEnv) (task : Task)
    (hr : reachesCall env) (htask : getNextTask env.reqs = some task)
    (hnoapi : ¬ (env.result.success = false ∧ isApiError env.result.errorType = true)) :
    (LoopEvent.commitIterationEv i
        (if env.result.success then some task.id else none)
        (if env.result.success then some task.title else none)
        env.result.success ∈ (iterationStep i env).1) ∧
    ((commitIteration env.git).2 = true →
      (iterationStep i env).2 = StepOutcome.halted "hook-failure") ∧
    ((commitIteration env.git).2 = false →
      (iterationStep i env).2 = StepOutcome.continueLoop) ∧
    (env.git.gitAvailable = true → env.git.isRepo = true →
      env.git.addResult.success = true → env.git.statusResult.success = true →
      ¬ jsTrim env.git.statusResult.output = "" →
      env.git.commitResult.success = false →
      ∀ e, env.git.commitResult.error = some e →
        (commitIteration env.git).2 = isHookError e) := by
  obtain ⟨h1, h2, h3, h4, h5, h6, h7⟩ := hr
  have hnd : ¬ env.result.success = false ∨ ¬ isApiError env.result.errorType = true := by
    by_cases ha : env.result.success = false
    · by_cases hb : isApiError env.result.errorType = true
      · exact absurd ⟨ha, hb⟩ hnoapi
      · exact Or.inr hb
    · exact Or.inl ha
  refine ⟨?_, ?_, ?_, ?_⟩
  · unfold iterationStep
    simp only [h1, h2, h3, h4, h5, h6, h7, htask]
    rcases hnd with hn | hn
    · have hsucc : env.result.success = true := by
        cases hv : env.result.success
        · exact absurd hv hn
        · rfl
      simp [hsucc]
      by_cases hc : (commitIteration env.git).2 <;> simp [hc]
    · simp [hn]
      by_cases hc : (commitIteration env.git).2 <;> simp [hc]
  · intro hc
    unfold iterationStep
    simp only [h1, h2, h3, h4, h5, h6, h7, htask]
    rcases hnd with hn | hn
    · have hsucc : env.result.success = true := by
        cases hv : env.result.success
        · exact absurd hv hn
        · rfl
      simp [hsucc, hc]
    · simp [hn, hc]
  · intro hc
    unfold iterationStep
    simp only [h1, h2, h3, h4, h5, h6, h7, htask]
    rcases hnd with hn | hn
    · have hsucc : env.result.success = true := by
        cases hv : env.result.success
        · exact absurd hv hn
        · rfl
      simp [hsucc, hc]
    · simp [hn, hc]
  · intro hg1 hg2 hg3 hg4 hg5 hg6 e he
    unfold commitIteration gitCommit
    simp only [hg1, hg2, hg3, hg4, hg6, he]
    by_cases hhe : isHookError e
    · simp [hg5, hhe]
    · simp [hg5, hhe]

/-- A git environment whose commit is rejected with the text
`error: invalid commit message`. -/
def ceGitC8 : GitEnv :=
  { gitAvailable := true, isRepo := true,
    addResult := { success := true, output := "", error := none },
    statusResult := { success := true, output := "M src/app.ts", error := none },
    commitResult := { success := false, output := "",
                      error := some "error: invalid commit message" } }

/-- A successful iteration whose checkpoint commit is rejected by a
commit-message check. -/
def ceEnvC8 : IterEnv :=
  { stopRequestedAtTop := false, tokenLimitHit := false, reqsParseOk := true,
    reqs := ceReqs, hasInterruptedWork := false, interruptedCommitOk := true,
    dryRun := false, stopRequestedDuringCall := false,
    result := { success := true, output := "done", error := none,
                errorType := none, duration := 1500, tokenUsage := none },
    nowIso := "2024-01-01T00:00:00.000Z", git := ceGitC8 }

/-- C8 counterexample: the rejection text `error: invalid commit message`
contains none of the claim's six indicators (`hook`, `pre-commit`,
`commit-msg`, `husky`, `commitlint`, `does not match`), yet the code's
`isHookError` also checks `conventional commit` and `commit message`, so
the run halts as a hook failure — the claim's indicator list and its
`does not halt` direction are both wrong for this input. -/
theorem C8_hook_counterexample :
    isHookError "error: invalid commit message" = true ∧
    (["hook", "pre-commit", "commit-msg", "husky", "commitlint",
      "does not match"].any
      (fun ind => includesStr (jsToLower "error: invalid commit message") ind))
      = false ∧
    (iterationStep 1 ceEnvC8).2 = StepOutcome.halted "hook-failure" := by
  decide

theorem C8_hook_witness :
    (LoopEvent.commitIterationEv 1 (some "TASK-002") (some "b") true
      ∈ (iterationStep 1 ceEnvC8).1) ∧
    (iterationStep 1 ceEnvC8).2 = StepOutcome.halted "hook-failure" := by
  have h := C8_hook_amended 1 ceEnvC8 ceT2 (by decide) (by decide) (by decide)
  exact ⟨h.1, h.2.1 (by decide)⟩

end DevLoop
